import Mathlib

/-!
# Color management protocol objects (`types/wlr_color_management_v1.c`)

A shallow embedding of the request handlers and life-cycle functions of
`types/wlr_color_management_v1.c`.

* Pointers are natural numbers; every kind of heap object lives in an
  association list keyed by its address.
* `assert`, `abort` and dereferencing a dangling pointer end a handler with
  `Except.error`.
* Whether `calloc`, `malloc`, `wl_resource_create` and `wl_global_create`
  succeed is decided by the caller of the model through boolean arguments.
* Events sent to the client and protocol errors posted to it are appended to
  two logs kept in the state.
-/

set_option linter.unusedVariables false

namespace Wlr

/-! ## Protocol constants

The generated protocol header is not among the sources; the numeric values are
those of the colour management protocol description. -/

/-- Modelled from the spec: `WP_COLOR_MANAGER_V1_RENDER_INTENT_PERCEPTUAL` of the
generated protocol header (absent from the sources), the "perceptual" intent. -/
def WP_COLOR_MANAGER_V1_RENDER_INTENT_PERCEPTUAL : Nat := 0

/-- Modelled from the spec: error code "surface-exists" of the manager interface
(generated protocol header, absent from the sources). -/
def WP_COLOR_MANAGER_V1_ERROR_SURFACE_EXISTS : Nat := 1

/-- Modelled from the spec: error code "unsupported feature" of the manager
interface (generated protocol header, absent from the sources). -/
def WP_COLOR_MANAGER_V1_ERROR_UNSUPPORTED_FEATURE : Nat := 0

/-- Modelled from the spec: error code "invalid render intent" of the surface
extension interface (generated protocol header, absent from the sources). -/
def WP_COLOR_MANAGEMENT_SURFACE_V1_ERROR_RENDER_INTENT : Nat := 0

/-- Modelled from the spec: error code "inert" of the surface extension
interface (generated protocol header, absent from the sources). -/
def WP_COLOR_MANAGEMENT_SURFACE_V1_ERROR_INERT : Nat := 2

/-- Modelled from the spec: feature numbers of the manager interface (generated
protocol header, absent from the sources). -/
def WP_COLOR_MANAGER_V1_FEATURE_ICC_V2_V4 : Nat := 0

/-- Modelled from the spec: feature number "parametric" (generated protocol
header, absent from the sources). -/
def WP_COLOR_MANAGER_V1_FEATURE_PARAMETRIC : Nat := 1

/-- Modelled from the spec: feature number "set_primaries" (generated protocol
header, absent from the sources). -/
def WP_COLOR_MANAGER_V1_FEATURE_SET_PRIMARIES : Nat := 2

/-- Modelled from the spec: feature number "set_tf_power" (generated protocol
header, absent from the sources). -/
def WP_COLOR_MANAGER_V1_FEATURE_SET_TF_POWER : Nat := 3

/-- Modelled from the spec: feature number "set_luminances" (generated protocol
header, absent from the sources). -/
def WP_COLOR_MANAGER_V1_FEATURE_SET_LUMINANCES : Nat := 4

/-- Modelled from the spec: feature number "set_mastering_display_primaries"
(generated protocol header, absent from the sources). -/
def WP_COLOR_MANAGER_V1_FEATURE_SET_MASTERING_DISPLAY_PRIMARIES : Nat := 5

/-- Modelled from the spec: feature number "extended_target_volume" (generated
protocol header, absent from the sources). -/
def WP_COLOR_MANAGER_V1_FEATURE_EXTENDED_TARGET_VOLUME : Nat := 6

/-- Modelled from the spec: feature number "windows_scrgb" (generated protocol
header, absent from the sources). -/
def WP_COLOR_MANAGER_V1_FEATURE_WINDOWS_SCRGB : Nat := 7

/-- Modelled from the spec: named primaries "sRGB" of the manager interface
(generated protocol header, absent from the sources). -/
def WP_COLOR_MANAGER_V1_PRIMARIES_SRGB : Nat := 1

/-- Modelled from the spec: named primaries "BT.2020" of the manager interface
(generated protocol header, absent from the sources). -/
def WP_COLOR_MANAGER_V1_PRIMARIES_BT2020 : Nat := 6

/-- Modelled from the spec: named transfer function "sRGB" of the manager
interface (generated protocol header, absent from the sources). -/
def WP_COLOR_MANAGER_V1_TRANSFER_FUNCTION_SRGB : Nat := 9

/-- Modelled from the spec: named transfer function "ST 2084 PQ" of the manager
interface (generated protocol header, absent from the sources). -/
def WP_COLOR_MANAGER_V1_TRANSFER_FUNCTION_ST2084_PQ : Nat := 11

/-- The macro `COLOR_MANAGEMENT_V1_VERSION`. -/
def COLOR_MANAGEMENT_V1_VERSION : Nat := 1

/-! ## Abnormal termination -/

/-- Ways in which a handler stops without returning. -/
inductive Crash where
  /-- `assert(version <= COLOR_MANAGEMENT_V1_VERSION)` -/
  | assert_version
  /-- `assert(has_perceptual_render_intent)` -/
  | assert_perceptual
  /-- `assert(!options->features.<flag>)`, with the number of the flag -/
  | assert_feature (flag : Nat)
  /-- `assert(wl_resource_instance_of(...))` -/
  | assert_instance_of
  /-- the duplicate check of `wlr_addon_init` -/
  | assert_addon
  /-- a call of `abort()` -/
  | abort
  /-- a pointer that refers to no live object is dereferenced -/
  | bad_pointer
  deriving DecidableEq, Repr

/-! ## Heaps -/

/-- The object stored at address `p`, if any. -/
def heap_get {α : Type} (p : Nat) : List (Nat × α) → Option α
  | [] => none
  | (k, v) :: t => if k = p then some v else heap_get p t

/-- Store `v` at address `p`, replacing what was there. -/
def heap_set {α : Type} (p : Nat) (v : α) : List (Nat × α) → List (Nat × α)
  | [] => [(p, v)]
  | (k, x) :: t => if k = p then (p, v) :: t else (k, x) :: heap_set p v t

/-- Remove the object at address `p` (the effect of `free`). -/
def heap_free {α : Type} (p : Nat) : List (Nat × α) → List (Nat × α)
  | [] => []
  | (k, x) :: t => if k = p then heap_free p t else (k, x) :: heap_free p t

/-! ## Data model -/

/-- The protocol interfaces of the resources created in this file. -/
inductive Interface where
  | wp_color_manager_v1
  | wp_color_management_output_v1
  | wp_color_management_surface_v1
  | wp_color_management_surface_feedback_v1
  | wp_image_description_v1
  | wp_image_description_info_v1
  deriving DecidableEq, Repr

/-- A `struct wl_resource` as far as this file observes it: owning client,
object id, interface, version and user data (`none` is `NULL`). -/
structure wl_resource where
  client : Nat
  id : Nat
  iface : Interface
  version : Nat
  user_data : Option Nat
  deriving DecidableEq, Repr

/-- The feature flags `features` of the options and of the manager. -/
structure wlr_color_manager_v1_features where
  icc_v2_v4 : Bool
  parametric : Bool
  set_primaries : Bool
  set_tf_power : Bool
  set_luminances : Bool
  set_mastering_display_primaries : Bool
  extended_target_volume : Bool
  windows_scrgb : Bool
  deriving DecidableEq, Repr

/-- The argument `struct wlr_color_manager_v1_options`; an array and its length
are one list. -/
structure wlr_color_manager_v1_options where
  features : wlr_color_manager_v1_features
  render_intents : List Nat
  transfer_functions : List Nat
  primaries : List Nat
  deriving DecidableEq, Repr

/-- The object `struct wlr_color_manager_v1`: the copied configuration, the list
`outputs` of output extensions (head first) and the global. -/
structure wlr_color_manager_v1 where
  global : Nat
  features : wlr_color_manager_v1_features
  render_intents : List Nat
  transfer_functions : List Nat
  primaries : List Nat
  outputs : List Nat
  deriving DecidableEq, Repr

/-- The object `struct wlr_color_management_output_v1`. The field `output` is
never assigned by the source and stays `NULL`; the links `link` and
`output_destroy.link` are kept in the lists they are members of. -/
structure wlr_color_management_output_v1 where
  resource : Nat
  output : Option Nat
  deriving DecidableEq, Repr

/-- The object `struct wlr_color_management_surface_v1`; the addon is kept in
the attachment slot of the surface. -/
structure wlr_color_management_surface_v1 where
  resource : Nat
  surface : Nat
  manager : Option Nat
  deriving DecidableEq, Repr

/-- The object `struct wlr_color_management_surface_feedback_v1`. -/
structure wlr_color_management_surface_feedback_v1 where
  resource : Nat
  surface : Nat
  deriving DecidableEq, Repr

/-- Events sent to the client, named after the `..._send_...` functions. -/
inductive Event where
  | supported_feature (feature : Nat)
  | supported_intent (render_intent : Nat)
  | supported_tf_named (tf : Nat)
  | supported_primaries_named (primaries : Nat)
  | manager_done
  | ready (identity : Nat)
  | info_primaries_named (primaries : Nat)
  | info_primaries (r_x r_y g_x g_y b_x b_y w_x w_y : Int)
  | info_tf_named (tf : Nat)
  | info_luminances (min_lum max_lum reference_lum : Int)
  | info_done
  deriving DecidableEq, Repr

/-- Errors posted to the client: `wl_resource_post_error` on a resource, or
`wl_client_post_no_memory` on a client. -/
inductive PostedError where
  | resource_error (resource : Nat) (code : Nat) (message : String)
  | no_memory (client : Nat)
  deriving DecidableEq, Repr

/-- The state the handlers work on. -/
structure World where
  /-- the next unused address -/
  next : Nat
  /-- live client resources -/
  resources : List (Nat × wl_resource)
  /-- the versions of the live globals -/
  globals : List (Nat × Nat)
  managers : List (Nat × wlr_color_manager_v1)
  cm_outputs : List (Nat × wlr_color_management_output_v1)
  cm_surfaces : List (Nat × wlr_color_management_surface_v1)
  surface_feedbacks : List (Nat × wlr_color_management_surface_feedback_v1)
  /-- per host output, the output extensions listening on `events.destroy`,
  in the order of `wl_signal_add` -/
  output_destroy : List (Nat × List Nat)
  /-- per host surface, the feedback objects listening on `events.destroy` -/
  surface_destroy : List (Nat × List Nat)
  /-- per host surface, the attachment slot for surface extensions: `none` is
  the empty slot -/
  surface_addons : List (Nat × Option Nat)
  /-- events sent so far, oldest first, each with its resource -/
  events : List (Nat × Event)
  /-- errors posted so far, oldest first -/
  errors : List PostedError
  deriving DecidableEq, Repr

/-! ## Library calls -/

/-- The call `wl_resource_post_error(resource, code, message)`. -/
def wl_resource_post_error (w : World) (resource code : Nat) (message : String) : World :=
  { w with errors := w.errors ++ [PostedError.resource_error resource code message] }

/-- The call `wl_client_post_no_memory(client)`. -/
def wl_client_post_no_memory (w : World) (client : Nat) : World :=
  { w with errors := w.errors ++ [PostedError.no_memory client] }

/-- Sending one event on a resource. -/
def send_event (w : World) (resource : Nat) (e : Event) : World :=
  { w with events := w.events ++ [(resource, e)] }

/-- The call `wl_resource_set_user_data(resource, data)`. -/
def wl_resource_set_user_data (w : World) (resource : Nat) (data : Option Nat) :
    Except Crash World :=
  match heap_get resource w.resources with
  | none => .error .bad_pointer
  | some res =>
    .ok { w with resources := heap_set resource { res with user_data := data } w.resources }

/-- The call `wl_resource_create(client, interface, version, id)` followed by the
`wl_resource_set_implementation` that installs the user data: when `ok` the new
resource lives at the address `w.next`. -/
def wl_resource_create (w : World) (ok : Bool) (client : Nat) (iface : Interface)
    (version id : Nat) (user_data : Option Nat) : World × Option Nat :=
  if ok then
    ({ w with
        next := w.next + 1,
        resources := heap_set w.next
          { client := client, id := id, iface := iface, version := version,
            user_data := user_data } w.resources },
      some w.next)
  else (w, none)

/-! ## Surface extension -/

/-- The function `cm_surface_from_resource`. -/
def cm_surface_from_resource (w : World) (resource : Nat) : Except Crash (Option Nat) :=
  match heap_get resource w.resources with
  | none => .error .bad_pointer
  | some res =>
    if res.iface = Interface.wp_color_management_surface_v1 then .ok res.user_data
    else .error .assert_instance_of

/-- The search loop of `cm_surface_handle_set_image_description`: `found` after
running over the array, leaving at the first hit. -/
def render_intent_found (render_intent : Nat) : List Nat → Bool
  | [] => false
  | x :: rest => if x = render_intent then true else render_intent_found render_intent rest

/-- The handler `cm_surface_handle_set_image_description`. -/
def cm_surface_handle_set_image_description (w : World) (cm_surface_resource : Nat)
    (image_desc_resource : Nat) (render_intent : Nat) : Except Crash World :=
  match cm_surface_from_resource w cm_surface_resource with
  | .error c => .error c
  | .ok none =>
    .ok (wl_resource_post_error w cm_surface_resource
      WP_COLOR_MANAGEMENT_SURFACE_V1_ERROR_INERT
      "set_image_description cannot be sent on an inert object")
  | .ok (some cm_surface) =>
    match heap_get cm_surface w.cm_surfaces with
    | none => .error .bad_pointer
    | some s =>
      match s.manager.bind (fun m => heap_get m w.managers) with
      | none => .error .bad_pointer
      | some manager =>
        if render_intent_found render_intent manager.render_intents then .ok w
        else
          .ok (wl_resource_post_error w cm_surface_resource
            WP_COLOR_MANAGEMENT_SURFACE_V1_ERROR_RENDER_INTENT
            "invalid render intent")

/-- The handler `cm_surface_handle_unset_image_description`. -/
def cm_surface_handle_unset_image_description (w : World) (cm_surface_resource : Nat) :
    Except Crash World :=
  match cm_surface_from_resource w cm_surface_resource with
  | .error c => .error c
  | .ok none =>
    .ok (wl_resource_post_error w cm_surface_resource
      WP_COLOR_MANAGEMENT_SURFACE_V1_ERROR_INERT
      "set_image_description cannot be sent on an inert object")
  | .ok (some _) => .ok w

/-- Modelled from the spec: `wlr_addon_find` of `util/addon.c` (absent from the
sources) for the key of this extension type: the content of the single
attachment slot of the surface. -/
def wlr_addon_find (w : World) (surface : Nat) : Option Nat :=
  match heap_get surface w.surface_addons with
  | some (some addon) => some addon
  | _ => none

/-- Modelled from the spec: `wlr_addon_init` of `util/addon.c` (absent from the
sources): fills the attachment slot of the surface; a slot that is already
filled is a failed assertion. -/
def wlr_addon_init (w : World) (cm_surface surface : Nat) : Except Crash World :=
  match wlr_addon_find w surface with
  | some _ => .error .assert_addon
  | none =>
    .ok { w with surface_addons := heap_set surface (some cm_surface) w.surface_addons }

/-- Modelled from the spec: `wlr_addon_finish` of `util/addon.c` (absent from the
sources): takes the addon out of the slot that holds it. -/
def wlr_addon_finish (w : World) (cm_surface : Nat) : World :=
  { w with surface_addons :=
      w.surface_addons.map (fun e => (e.1, if e.2 = some cm_surface then none else e.2)) }

/-- The function `cm_surface_destroy`; `none` is the `NULL` argument. -/
def cm_surface_destroy (w : World) (cm_surface : Option Nat) : Except Crash World :=
  match cm_surface with
  | none => .ok w
  | some p =>
    match heap_get p w.cm_surfaces with
    | none => .error .bad_pointer
    | some s =>
      match wl_resource_set_user_data w s.resource none with
      | .error c => .error c
      | .ok w1 =>
        let w2 := wlr_addon_finish w1 p
        .ok { w2 with cm_surfaces := heap_free p w2.cm_surfaces }

/-- The function `cm_surface_handle_addon_destroy`: the addon is a member of its
extension, so `wl_container_of` is the identity on addresses. -/
def cm_surface_handle_addon_destroy (w : World) (addon : Nat) : Except Crash World :=
  cm_surface_destroy w (some addon)

/-- The function `cm_surface_handle_resource_destroy`. -/
def cm_surface_handle_resource_destroy (w : World) (resource : Nat) : Except Crash World :=
  match cm_surface_from_resource w resource with
  | .error c => .error c
  | .ok cm_surface => cm_surface_destroy w cm_surface

/-! ## Output extension -/

/-- A list of links without the link `p`. -/
def unlink (p : Nat) (l : List Nat) : List Nat :=
  l.filter (fun x => x ≠ p)

/-- The call `wl_list_remove` on a link that is a member of one of the lists
`ls`: the element leaves the list it is in. -/
def wl_list_remove (p : Nat) (ls : List (Nat × List Nat)) : List (Nat × List Nat) :=
  ls.map (fun e => (e.1, unlink p e.2))

/-- The call `wl_list_remove(&cm_output->link)`: the link is a member of the
list `outputs` of a manager. -/
def wl_list_remove_output (p : Nat) (ms : List (Nat × wlr_color_manager_v1)) :
    List (Nat × wlr_color_manager_v1) :=
  ms.map (fun e => (e.1, { e.2 with outputs := unlink p e.2.outputs }))

/-- The call `wl_signal_add(signal, listener)` on the signal of the host object
`host`: the listener is put at the end of its list. -/
def wl_signal_add (host listener : Nat) (ls : List (Nat × List Nat)) : List (Nat × List Nat) :=
  heap_set host ((heap_get host ls).getD [] ++ [listener]) ls

/-- The function `cm_output_from_resource`. -/
def cm_output_from_resource (w : World) (resource : Nat) : Except Crash (Option Nat) :=
  match heap_get resource w.resources with
  | none => .error .bad_pointer
  | some res =>
    if res.iface = Interface.wp_color_management_output_v1 then .ok res.user_data
    else .error .assert_instance_of

/-- The function `cm_output_destroy`; `none` is the `NULL` argument. -/
def cm_output_destroy (w : World) (cm_output : Option Nat) : Except Crash World :=
  match cm_output with
  | none => .ok w
  | some p =>
    match heap_get p w.cm_outputs with
    | none => .error .bad_pointer
    | some o =>
      match wl_resource_set_user_data w o.resource none with
      | .error c => .error c
      | .ok w1 =>
        .ok { w1 with
          output_destroy := wl_list_remove p w1.output_destroy,
          managers := wl_list_remove_output p w1.managers,
          cm_outputs := heap_free p w1.cm_outputs }

/-- The function `cm_output_handle_output_destroy`: the listener is a member of
its extension, so `wl_container_of` is the identity on addresses. -/
def cm_output_handle_output_destroy (w : World) (listener : Nat) : Except Crash World :=
  cm_output_destroy w (some listener)

/-- The function `cm_output_handle_resource_destroy`. -/
def cm_output_handle_resource_destroy (w : World) (resource : Nat) : Except Crash World :=
  match cm_output_from_resource w resource with
  | .error c => .error c
  | .ok cm_output => cm_output_destroy w cm_output

/-! ## Surface feedback -/

/-- The function `surface_feedback_from_resource`. -/
def surface_feedback_from_resource (w : World) (resource : Nat) : Except Crash (Option Nat) :=
  match heap_get resource w.resources with
  | none => .error .bad_pointer
  | some res =>
    if res.iface = Interface.wp_color_management_surface_feedback_v1 then .ok res.user_data
    else .error .assert_instance_of

/-- The function `surface_feedback_destroy`; `none` is the `NULL` argument. -/
def surface_feedback_destroy (w : World) (surface_feedback : Option Nat) : Except Crash World :=
  match surface_feedback with
  | none => .ok w
  | some p =>
    match heap_get p w.surface_feedbacks with
    | none => .error .bad_pointer
    | some f =>
      match wl_resource_set_user_data w f.resource none with
      | .error c => .error c
      | .ok w1 =>
        .ok { w1 with
          surface_destroy := wl_list_remove p w1.surface_destroy,
          surface_feedbacks := heap_free p w1.surface_feedbacks }

/-- The function `surface_feedback_handle_resource_destroy`. -/
def surface_feedback_handle_resource_destroy (w : World) (resource : Nat) :
    Except Crash World :=
  match surface_feedback_from_resource w resource with
  | .error c => .error c
  | .ok surface_feedback => surface_feedback_destroy w surface_feedback

/-- The function `surface_feedback_handle_surface_destroy`. -/
def surface_feedback_handle_surface_destroy (w : World) (listener : Nat) : Except Crash World :=
  surface_feedback_destroy w (some listener)

/-! ## Destruction of resources and of host objects -/

/-- The call `wl_resource_destroy(resource)`: runs the destroy function that
`wl_resource_set_implementation` installed for the resource (none for manager
bindings, image descriptions and info objects), then removes the resource. -/
def wl_resource_destroy (w : World) (resource : Nat) : Except Crash World :=
  match heap_get resource w.resources with
  | none => .error .bad_pointer
  | some res =>
    let after_handler : Except Crash World :=
      match res.iface with
      | .wp_color_management_output_v1 => cm_output_handle_resource_destroy w resource
      | .wp_color_management_surface_v1 => cm_surface_handle_resource_destroy w resource
      | .wp_color_management_surface_feedback_v1 =>
        surface_feedback_handle_resource_destroy w resource
      | _ => .ok w
    match after_handler with
    | .error c => .error c
    | .ok w1 => .ok { w1 with resources := heap_free resource w1.resources }

/-- The handler `resource_handle_destroy`, the `destroy` request of every
interface of this file. -/
def resource_handle_destroy (w : World) (resource : Nat) : Except Crash World :=
  wl_resource_destroy w resource

/-- Delivering a notification to each listener of a list taken before the
first call, in list order. -/
def notify_all (handler : World → Nat → Except Crash World) :
    World → List Nat → Except Crash World
  | w, [] => .ok w
  | w, l :: rest =>
    match handler w l with
    | .error c => .error c
    | .ok w1 => notify_all handler w1 rest

/-- Modelled from the spec: destruction of a host output (the emission of
`output->events.destroy`, whose code is absent from the sources): the destroy
notification is delivered to every output extension subscribed to it. -/
def output_destroyed (w : World) (output : Nat) : Except Crash World :=
  notify_all cm_output_handle_output_destroy w ((heap_get output w.output_destroy).getD [])

/-- Modelled from the spec: destruction of a host surface (absent from the
sources): the destroy notification is delivered to every subscribed feedback
object, then the extension in the attachment slot is told to destroy itself. -/
def surface_destroyed (w : World) (surface : Nat) : Except Crash World :=
  match notify_all surface_feedback_handle_surface_destroy w
      ((heap_get surface w.surface_destroy).getD []) with
  | .error c => .error c
  | .ok w1 =>
    match wlr_addon_find w1 surface with
    | none => .ok w1
    | some addon => cm_surface_handle_addon_destroy w1 addon

/-! ## Manager requests -/

/-- The function `manager_from_resource`. -/
def manager_from_resource (w : World) (resource : Nat) : Except Crash (Option Nat) :=
  match heap_get resource w.resources with
  | none => .error .bad_pointer
  | some res =>
    if res.iface = Interface.wp_color_manager_v1 then .ok res.user_data
    else .error .assert_instance_of

/-- The call `wl_resource_get_version(resource)`. -/
def wl_resource_get_version (w : World) (resource : Nat) : Except Crash Nat :=
  match heap_get resource w.resources with
  | none => .error .bad_pointer
  | some res => .ok res.version

/-- The call `calloc(1, size)`: when `ok` the address `w.next` is handed out. The
object enters its heap once its fields are assigned. -/
def calloc (w : World) (ok : Bool) : World × Option Nat :=
  if ok then ({ w with next := w.next + 1 }, some w.next) else (w, none)

/-- The handler `manager_handle_get_output`; `output` is the result of
`wlr_output_from_resource(output_resource)`. -/
def manager_handle_get_output (w : World) (client manager_resource id output : Nat)
    (calloc_ok resource_ok : Bool) : Except Crash World :=
  match manager_from_resource w manager_resource with
  | .error c => .error c
  | .ok manager =>
    match calloc w calloc_ok with
    | (w1, none) => .ok (wl_client_post_no_memory w1 client)
    | (w1, some cm_output) =>
      match wl_resource_get_version w1 manager_resource with
      | .error c => .error c
      | .ok version =>
        match wl_resource_create w1 resource_ok client
            Interface.wp_color_management_output_v1 version id (some cm_output) with
        | (w2, none) => .ok (wl_client_post_no_memory w2 client)
        | (w2, some resource) =>
          match manager with
          | none => .error .bad_pointer
          | some manager =>
            match heap_get manager w2.managers with
            | none => .error .bad_pointer
            | some m =>
              .ok { w2 with
                cm_outputs := heap_set cm_output { resource := resource, output := none }
                  w2.cm_outputs,
                output_destroy := wl_signal_add output cm_output w2.output_destroy,
                managers := heap_set manager
                  { m with outputs := cm_output :: m.outputs } w2.managers }

/-- The handler `manager_handle_get_surface`; `surface` is the result of
`wlr_surface_from_resource(surface_resource)`. -/
def manager_handle_get_surface (w : World) (client manager_resource id surface : Nat)
    (calloc_ok resource_ok : Bool) : Except Crash World :=
  match manager_from_resource w manager_resource with
  | .error c => .error c
  | .ok manager =>
    if (wlr_addon_find w surface).isSome then
      .ok (wl_resource_post_error w manager_resource
        WP_COLOR_MANAGER_V1_ERROR_SURFACE_EXISTS
        "wp_color_management_surface_v1 already constructed for this surface")
    else
      match calloc w calloc_ok with
      | (w1, none) => .ok (wl_client_post_no_memory w1 client)
      | (w1, some cm_surface) =>
        match wl_resource_get_version w1 manager_resource with
        | .error c => .error c
        | .ok version =>
          match wl_resource_create w1 resource_ok client
              Interface.wp_color_management_surface_v1 version id (some cm_surface) with
          | (w2, none) => .ok (wl_client_post_no_memory w2 client)
          | (w2, some resource) =>
            wlr_addon_init
              { w2 with
                cm_surfaces := heap_set cm_surface
                  { resource := resource, surface := surface, manager := manager }
                  w2.cm_surfaces }
              cm_surface surface

/-- The handler `manager_handle_get_surface_feedback`; `surface` is the result
of `wlr_surface_from_resource(surface_resource)`. -/
def manager_handle_get_surface_feedback (w : World) (client manager_resource id surface : Nat)
    (calloc_ok resource_ok : Bool) : Except Crash World :=
  match calloc w calloc_ok with
  | (w1, none) => .ok (wl_client_post_no_memory w1 client)
  | (w1, some surface_feedback) =>
    match wl_resource_get_version w1 manager_resource with
    | .error c => .error c
    | .ok version =>
      match wl_resource_create w1 resource_ok client
          Interface.wp_color_management_surface_feedback_v1 version id
          (some surface_feedback) with
      | (w2, none) => .ok (wl_client_post_no_memory w2 client)
      | (w2, some resource) =>
        .ok { w2 with
          surface_feedbacks := heap_set surface_feedback
            { resource := resource, surface := surface } w2.surface_feedbacks,
          surface_destroy := wl_signal_add surface surface_feedback w2.surface_destroy }

/-- The handler `manager_handle_create_icc_creator`. -/
def manager_handle_create_icc_creator (w : World) (manager_resource id : Nat) : World :=
  wl_resource_post_error w manager_resource WP_COLOR_MANAGER_V1_ERROR_UNSUPPORTED_FEATURE
    "new_icc_creator is not supported"

/-- The handler `manager_handle_create_parametric_creator`. -/
def manager_handle_create_parametric_creator (w : World) (manager_resource id : Nat) : World :=
  wl_resource_post_error w manager_resource WP_COLOR_MANAGER_V1_ERROR_UNSUPPORTED_FEATURE
    "new_parametric_creator is not supported"

/-- The handler `manager_handle_create_windows_scrgb`. -/
def manager_handle_create_windows_scrgb (w : World) (manager_resource id : Nat) : World :=
  wl_resource_post_error w manager_resource WP_COLOR_MANAGER_V1_ERROR_UNSUPPORTED_FEATURE
    "get_windows_scrgb is not supported"

/-! ## Colour values

The type `float` is modelled as the finite binary32 numbers `mant * 2 ^ exp`;
a product is the exact product rounded to 24 significant bits, ties to even
(results are assumed to stay in the normal range of the format). -/

/-- A finite value of the C type `float`: the number `mant * 2 ^ exp`. -/
structure c_float where
  mant : Int
  exp : Int
  deriving DecidableEq, Repr

/-- The rational number a `c_float` stands for. -/
def c_float.toRat (x : c_float) : ℚ := (x.mant : ℚ) * (2 : ℚ) ^ x.exp

/-- The number of binary digits `a` has beyond 24; at most `fuel` of them are
counted, and `fuel = a` is always enough. -/
def excess_bits : Nat → Nat → Nat
  | 0, _ => 0
  | fuel + 1, a => if a < 2 ^ 24 then 0 else excess_bits fuel (a / 2) + 1

/-- Rounding of the exact value `m * 2 ^ e` to 24 significant bits, ties to
even. -/
def f32_round (m e : Int) : c_float :=
  let a := m.natAbs
  let s := excess_bits a a
  if s = 0 then { mant := m, exp := e }
  else
    let q := a / 2 ^ s
    let r := a % 2 ^ s
    let h := 2 ^ (s - 1)
    let q1 := if h < r ∨ (r = h ∧ q % 2 = 1) then q + 1 else q
    { mant := Int.sign m * (q1 : Int), exp := e + (s : Int) }

/-- The C expression `x * k` for a `float` x and an `int` constant k below
`2 ^ 24` (which converts to `float` without rounding). -/
def f32_mul_int (x : c_float) (k : Int) : c_float :=
  f32_round (x.mant * k) x.exp

/-- The C call `round(x)` on the `double` value of a `float`: the nearest
integer, halves away from zero. -/
def c_round (x : c_float) : Int :=
  if 0 ≤ x.exp then x.mant * 2 ^ x.exp.toNat
  else
    let d := 2 ^ (-x.exp).toNat
    Int.sign x.mant * (((2 * x.mant.natAbs + d) / (2 * d) : Nat) : Int)

/-- The type `struct wlr_color_cie1931_xy`. -/
structure wlr_color_cie1931_xy where
  x : c_float
  y : c_float
  deriving DecidableEq, Repr

/-- The type `struct wlr_color_primaries`. -/
structure wlr_color_primaries where
  red : wlr_color_cie1931_xy
  green : wlr_color_cie1931_xy
  blue : wlr_color_cie1931_xy
  white : wlr_color_cie1931_xy
  deriving DecidableEq, Repr

/-- The type `enum wlr_color_named_primaries`. -/
inductive wlr_color_named_primaries where
  | WLR_COLOR_NAMED_PRIMARIES_SRGB
  | WLR_COLOR_NAMED_PRIMARIES_BT2020
  deriving DecidableEq, Repr

/-- Modelled from the spec: the type `enum wlr_color_transfer_function` of the
private header `render/color.h` (absent from the sources), with the two values
the source names. -/
inductive wlr_color_transfer_function where
  | WLR_COLOR_TRANSFER_FUNCTION_SRGB
  | WLR_COLOR_TRANSFER_FUNCTION_ST2084_PQ
  deriving DecidableEq, Repr

/-- Modelled from the spec: the type `struct wlr_color_luminances` of the private
header `render/color.h` (absent from the sources): minimum, maximum and
reference luminance. -/
structure wlr_color_luminances where
  min : c_float
  max : c_float
  reference : c_float
  deriving DecidableEq, Repr

/-- The two functions of `render/color.c` that `image_desc_handle_get_information`
calls and whose code is absent from the sources:
`wlr_color_primaries_from_named` and
`wlr_color_transfer_function_get_default_luminance`. -/
structure render_color where
  wlr_color_primaries_from_named : wlr_color_named_primaries → wlr_color_primaries
  wlr_color_transfer_function_get_default_luminance :
    wlr_color_transfer_function → wlr_color_luminances

/-- Modelled from the spec: the sRGB named primaries ("standard-gamut
primaries"): red (0.64, 0.33), green (0.3, 0.6), blue (0.15, 0.06), white
(0.3127, 0.329), each the nearest `float`. -/
def srgb_primaries : wlr_color_primaries :=
  { red := { x := ⟨10737418, -24⟩, y := ⟨11072963, -25⟩ },
    green := { x := ⟨10066330, -25⟩, y := ⟨10066330, -24⟩ },
    blue := { x := ⟨10066330, -26⟩, y := ⟨16106127, -28⟩ },
    white := { x := ⟨10492471, -25⟩, y := ⟨11039408, -25⟩ } }

/-- Modelled from the spec: the default luminances of the sRGB transfer
function: minimum 0.2, maximum 80, reference 80, each the nearest `float`. -/
def srgb_luminances : wlr_color_luminances :=
  { min := ⟨13421773, -26⟩, max := ⟨80, 0⟩, reference := ⟨80, 0⟩ }

/-- The function `named_primaries_to_wlr`. -/
def named_primaries_to_wlr (primaries : Nat) : Except Crash wlr_color_named_primaries :=
  if primaries = WP_COLOR_MANAGER_V1_PRIMARIES_SRGB then
    .ok .WLR_COLOR_NAMED_PRIMARIES_SRGB
  else if primaries = WP_COLOR_MANAGER_V1_PRIMARIES_BT2020 then
    .ok .WLR_COLOR_NAMED_PRIMARIES_BT2020
  else .error .abort

/-- The function `transfer_function_to_wlr`. -/
def transfer_function_to_wlr (tf : Nat) : Except Crash wlr_color_transfer_function :=
  if tf = WP_COLOR_MANAGER_V1_TRANSFER_FUNCTION_SRGB then
    .ok .WLR_COLOR_TRANSFER_FUNCTION_SRGB
  else if tf = WP_COLOR_MANAGER_V1_TRANSFER_FUNCTION_ST2084_PQ then
    .ok .WLR_COLOR_TRANSFER_FUNCTION_ST2084_PQ
  else .error .abort

/-- The function `encode_cie1931_coord`: `round(value * 1000 * 1000)`. -/
def encode_cie1931_coord (value : c_float) : Int :=
  c_round (f32_mul_int (f32_mul_int value 1000) 1000)

/-- The nearest integer of a rational number, halves away from zero. -/
def round_nearest (q : ℚ) : Int :=
  if 0 ≤ q then ⌊q + 1 / 2⌋ else -⌊-q + 1 / 2⌋

/-- The encoding of a chromaticity coordinate in the words of the
specification: `round(value × 1,000,000)` on the exact value. -/
def spec_encode_coord (value : c_float) : Int :=
  round_nearest (value.toRat * 1000000)

/-- The encoding of the minimum luminance in the words of the specification:
the exact value scaled by 10,000 and rounded to the nearest integer. -/
def spec_encode_min_lum (value : c_float) : Int :=
  round_nearest (value.toRat * 10000)

/-! ## Image descriptions -/

/-- The handler `image_desc_handle_get_information`. -/
def image_desc_handle_get_information (rc : render_color) (w : World)
    (client image_desc_resource id : Nat) (resource_ok : Bool) : Except Crash World :=
  match wl_resource_get_version w image_desc_resource with
  | .error c => .error c
  | .ok version =>
    match wl_resource_create w resource_ok client Interface.wp_image_description_info_v1
        version id none with
    | (w1, none) => .ok (wl_client_post_no_memory w1 client)
    | (w1, some resource) =>
      let primaries_named := WP_COLOR_MANAGER_V1_PRIMARIES_SRGB
      let transfer_function := WP_COLOR_MANAGER_V1_TRANSFER_FUNCTION_SRGB
      match named_primaries_to_wlr primaries_named with
      | .error c => .error c
      | .ok named =>
        let primaries := rc.wlr_color_primaries_from_named named
        match transfer_function_to_wlr transfer_function with
        | .error c => .error c
        | .ok tf =>
          let luminances := rc.wlr_color_transfer_function_get_default_luminance tf
          let w2 := send_event w1 resource (.info_primaries_named primaries_named)
          let w3 := send_event w2 resource (.info_primaries
            (encode_cie1931_coord primaries.red.x) (encode_cie1931_coord primaries.red.y)
            (encode_cie1931_coord primaries.green.x) (encode_cie1931_coord primaries.green.y)
            (encode_cie1931_coord primaries.blue.x) (encode_cie1931_coord primaries.blue.y)
            (encode_cie1931_coord primaries.white.x) (encode_cie1931_coord primaries.white.y))
          let w4 := send_event w3 resource (.info_tf_named transfer_function)
          let w5 := send_event w4 resource (.info_luminances
            (c_round (f32_mul_int luminances.min 10000)) (c_round luminances.max)
            (c_round luminances.reference))
          let w6 := send_event w5 resource .info_done
          wl_resource_destroy w6 resource

/-- The function `image_desc_create_ready`. -/
def image_desc_create_ready (w : World) (parent_resource id : Nat) (resource_ok : Bool) :
    Except Crash World :=
  match heap_get parent_resource w.resources with
  | none => .error .bad_pointer
  | some parent =>
    let client := parent.client
    let version := parent.version
    match wl_resource_create w resource_ok client Interface.wp_image_description_v1
        version id none with
    | (w1, none) => .ok (wl_client_post_no_memory w1 client)
    | (w1, some resource) => .ok (send_event w1 resource (.ready 0))

/-- The handler `cm_output_handle_get_image_description`. -/
def cm_output_handle_get_image_description (w : World) (client cm_output_resource id : Nat)
    (resource_ok : Bool) : Except Crash World :=
  image_desc_create_ready w cm_output_resource id resource_ok

/-- The handler `surface_feedback_handle_get_preferred`. -/
def surface_feedback_handle_get_preferred (w : World) (client surface_feedback_resource id : Nat)
    (resource_ok : Bool) : Except Crash World :=
  image_desc_create_ready w surface_feedback_resource id resource_ok

/-! ## The global: bind and creation -/

/-- The array `features` of `manager_bind`: its designated initialisers in
source order; an index that is not named stays `false` and the length is the
largest index plus one. -/
def bind_features (f : wlr_color_manager_v1_features) : List Bool :=
  ((((((((List.replicate (WP_COLOR_MANAGER_V1_FEATURE_WINDOWS_SCRGB + 1) false).set
    WP_COLOR_MANAGER_V1_FEATURE_ICC_V2_V4 f.icc_v2_v4).set
    WP_COLOR_MANAGER_V1_FEATURE_PARAMETRIC f.parametric).set
    WP_COLOR_MANAGER_V1_FEATURE_SET_PRIMARIES f.set_primaries).set
    WP_COLOR_MANAGER_V1_FEATURE_SET_TF_POWER f.set_tf_power).set
    WP_COLOR_MANAGER_V1_FEATURE_SET_MASTERING_DISPLAY_PRIMARIES
      f.set_mastering_display_primaries).set
    WP_COLOR_MANAGER_V1_FEATURE_EXTENDED_TARGET_VOLUME f.extended_target_volume).set
    WP_COLOR_MANAGER_V1_FEATURE_WINDOWS_SCRGB f.windows_scrgb)

/-- The first loop of `manager_bind`, from index `i` on. -/
def send_supported_features (resource : Nat) : World → Nat → List Bool → World
  | w, _, [] => w
  | w, i, b :: rest =>
    send_supported_features resource
      (if b then send_event w resource (.supported_feature i) else w) (i + 1) rest

/-- A loop of `manager_bind` that sends one event per array element. -/
def send_each (resource : Nat) (ev : Nat → Event) : World → List Nat → World
  | w, [] => w
  | w, x :: rest => send_each resource ev (send_event w resource (ev x)) rest

/-- The function `manager_bind`; `manager` is the argument `data`. -/
def manager_bind (w : World) (client manager version id : Nat) (resource_ok : Bool) :
    Except Crash World :=
  match wl_resource_create w resource_ok client Interface.wp_color_manager_v1 version id
      (some manager) with
  | (w1, none) => .ok (wl_client_post_no_memory w1 client)
  | (w1, some resource) =>
    match heap_get manager w1.managers with
    | none => .error .bad_pointer
    | some m =>
      let w2 := send_supported_features resource w1 0 (bind_features m.features)
      let w3 := send_each resource .supported_intent w2 m.render_intents
      let w4 := send_each resource .supported_tf_named w3 m.transfer_functions
      let w5 := send_each resource .supported_primaries_named w4 m.primaries
      .ok (send_event w5 resource .manager_done)

/-- The first loop of `wlr_color_manager_v1_create`: the value of
`has_perceptual_render_intent` after the whole array has been read. -/
def has_perceptual_render_intent : Bool → List Nat → Bool
  | found, [] => found
  | found, x :: rest =>
    has_perceptual_render_intent
      (if x = WP_COLOR_MANAGER_V1_RENDER_INTENT_PERCEPTUAL then true else found) rest

/-- The eight feature assertions of `wlr_color_manager_v1_create`, in source
order: the first flag that is set fails. -/
def assert_no_features (f : wlr_color_manager_v1_features) : Except Crash Unit :=
  if f.icc_v2_v4 then .error (.assert_feature WP_COLOR_MANAGER_V1_FEATURE_ICC_V2_V4)
  else if f.parametric then .error (.assert_feature WP_COLOR_MANAGER_V1_FEATURE_PARAMETRIC)
  else if f.set_primaries then
    .error (.assert_feature WP_COLOR_MANAGER_V1_FEATURE_SET_PRIMARIES)
  else if f.set_tf_power then
    .error (.assert_feature WP_COLOR_MANAGER_V1_FEATURE_SET_TF_POWER)
  else if f.set_luminances then
    .error (.assert_feature WP_COLOR_MANAGER_V1_FEATURE_SET_LUMINANCES)
  else if f.set_mastering_display_primaries then
    .error (.assert_feature WP_COLOR_MANAGER_V1_FEATURE_SET_MASTERING_DISPLAY_PRIMARIES)
  else if f.extended_target_volume then
    .error (.assert_feature WP_COLOR_MANAGER_V1_FEATURE_EXTENDED_TARGET_VOLUME)
  else if f.windows_scrgb then
    .error (.assert_feature WP_COLOR_MANAGER_V1_FEATURE_WINDOWS_SCRGB)
  else .ok ()

/-- The function `wlr_color_manager_v1_create`. The result holds the new state
and the returned pointer (`none` is `NULL`). The booleans say whether `calloc`,
the three `memdup` calls and `wl_global_create` succeed. The destroy listener
on the display is not part of the model. -/
def wlr_color_manager_v1_create (w : World) (version : Nat)
    (options : wlr_color_manager_v1_options)
    (calloc_ok memdup_intents_ok memdup_tf_ok memdup_primaries_ok global_ok : Bool) :
    Except Crash (World × Option Nat) :=
  if ¬ version ≤ COLOR_MANAGEMENT_V1_VERSION then .error .assert_version
  else if ¬ has_perceptual_render_intent false options.render_intents then
    .error .assert_perceptual
  else
    match assert_no_features options.features with
    | .error c => .error c
    | .ok _ =>
      match calloc w calloc_ok with
      | (w1, none) => .ok (w1, none)
      | (w1, some manager) =>
        let ok := memdup_intents_ok && memdup_tf_ok && memdup_primaries_ok
        if ¬ ok then .ok (w1, none)
        else
          match calloc w1 global_ok with
          | (w2, none) => .ok (w2, none)
          | (w2, some global) =>
            .ok ({ w2 with
                    globals := heap_set global version w2.globals,
                    managers := heap_set manager
                      { global := global,
                        features := options.features,
                        render_intents := options.render_intents,
                        transfer_functions := options.transfer_functions,
                        primaries := options.primaries,
                        outputs := [] } w2.managers },
                  some manager)

/-- The feature events in the words of the specification: one event per
feature flag that is set, in ascending order of the feature numbers. -/
def spec_feature_events (f : wlr_color_manager_v1_features) : List Event :=
  (if f.icc_v2_v4 then [Event.supported_feature WP_COLOR_MANAGER_V1_FEATURE_ICC_V2_V4]
    else []) ++
  (if f.parametric then [Event.supported_feature WP_COLOR_MANAGER_V1_FEATURE_PARAMETRIC]
    else []) ++
  (if f.set_primaries then [Event.supported_feature WP_COLOR_MANAGER_V1_FEATURE_SET_PRIMARIES]
    else []) ++
  (if f.set_tf_power then [Event.supported_feature WP_COLOR_MANAGER_V1_FEATURE_SET_TF_POWER]
    else []) ++
  (if f.set_luminances then
    [Event.supported_feature WP_COLOR_MANAGER_V1_FEATURE_SET_LUMINANCES] else []) ++
  (if f.set_mastering_display_primaries then
    [Event.supported_feature WP_COLOR_MANAGER_V1_FEATURE_SET_MASTERING_DISPLAY_PRIMARIES]
    else []) ++
  (if f.extended_target_volume then
    [Event.supported_feature WP_COLOR_MANAGER_V1_FEATURE_EXTENDED_TARGET_VOLUME] else []) ++
  (if f.windows_scrgb then [Event.supported_feature WP_COLOR_MANAGER_V1_FEATURE_WINDOWS_SCRGB]
    else [])

/-- The capability events of one binding in the words of the specification:
features, intents, transfer functions, primaries, then "done". -/
def spec_bind_events (f : wlr_color_manager_v1_features)
    (render_intents transfer_functions primaries : List Nat) : List Event :=
  spec_feature_events f ++ render_intents.map Event.supported_intent ++
    transfer_functions.map Event.supported_tf_named ++
    primaries.map Event.supported_primaries_named ++ [Event.manager_done]

/-! ## Sequences of requests on output extensions -/

/-- A book-keeping record of one output extension that `get_output` created:
its address, the address of its handle, the manager of the binding the request
was sent on and the host output. -/
structure output_record where
  extension : Nat
  resource : Nat
  manager : Nat
  output : Nat
  deriving DecidableEq, Repr

/-- The steps that act on the lists `outputs`: creation of a manager, a bind of
its global, a `get_output` request, the release of a handle by the client
(its `destroy` request) and the destruction of a host output. -/
inductive Action where
  | create (version : Nat) (options : wlr_color_manager_v1_options)
      (calloc_ok memdup_intents_ok memdup_tf_ok memdup_primaries_ok global_ok : Bool)
  | bind (client manager version id : Nat) (resource_ok : Bool)
  | get_output (client manager_resource id output : Nat) (calloc_ok resource_ok : Bool)
  | release (resource : Nat)
  | output_destroy (output : Nat)
  deriving DecidableEq, Repr

/-- One step of the source on the state. -/
def step (w : World) : Action → Except Crash World
  | .create version options c m1 m2 m3 g =>
    match wlr_color_manager_v1_create w version options c m1 m2 m3 g with
    | .error e => .error e
    | .ok (w1, _) => .ok w1
  | .bind client manager version id ok => manager_bind w client manager version id ok
  | .get_output client manager_resource id output c r =>
    manager_handle_get_output w client manager_resource id output c r
  | .release resource => resource_handle_destroy w resource
  | .output_destroy output => output_destroyed w output

/-- The output extensions that were created and not yet destroyed, in the words
of the claim, kept alongside the state: a `get_output` whose two allocations
succeed creates one, for the manager of the binding it is sent on; the release
of its handle and the destruction of its host output destroy it. Nothing here
reads the lists `outputs`. -/
def track (w : World) (g : List output_record) : Action → List output_record
  | .get_output _ manager_resource _ output calloc_ok resource_ok =>
    if calloc_ok = true ∧ resource_ok = true then
      match heap_get manager_resource w.resources with
      | none => g
      | some res =>
        match res.user_data with
        | none => g
        | some manager =>
          { extension := w.next, resource := w.next + 1, manager := manager,
            output := output } :: g
    else g
  | .release resource => g.filter (fun x => decide (x.resource ≠ resource))
  | .output_destroy output => g.filter (fun x => decide (x.output ≠ output))
  | _ => g

/-- A sequence of steps, with the book-keeping of `track`; it stops at the
first step that does not return. -/
def run : World → List output_record → List Action →
    Except Crash (World × List output_record)
  | w, g, [] => .ok (w, g)
  | w, g, a :: rest =>
    match step w a with
    | .error e => .error e
    | .ok w1 => run w1 (track w g a) rest

/-- The invariant that links the state with the records of `track`. -/
structure outputs_inv (w : World) (g : List output_record) : Prop where
  /-- addresses of resources are below the next unused address -/
  res_fresh : ∀ k res, heap_get k w.resources = some res → k < w.next
  /-- addresses of managers are below the next unused address -/
  man_fresh : ∀ k m, heap_get k w.managers = some m → k < w.next
  /-- addresses in records are below the next unused address -/
  rec_fresh : ∀ x ∈ g, x.extension < w.next ∧ x.resource < w.next
  /-- no two records have the same extension -/
  ext_nodup : (g.map (fun x => x.extension)).Nodup
  /-- no two records have the same handle -/
  res_nodup : (g.map (fun x => x.resource)).Nodup
  /-- the extension of a record is allocated and knows its handle -/
  rec_ext : ∀ x ∈ g,
    heap_get x.extension w.cm_outputs = some { resource := x.resource, output := none }
  /-- the handle of a record is an output handle whose user data is the extension -/
  rec_handle : ∀ x ∈ g, ∃ res, heap_get x.resource w.resources = some res ∧
    res.iface = Interface.wp_color_management_output_v1 ∧ res.user_data = some x.extension
  /-- the extension of a record is in the list of its manager -/
  rec_list : ∀ x ∈ g, ∃ m, heap_get x.manager w.managers = some m ∧ x.extension ∈ m.outputs
  /-- the extension of a record listens on its host output -/
  rec_listener : ∀ x ∈ g, ∃ l, heap_get x.output w.output_destroy = some l ∧ x.extension ∈ l
  /-- a list `outputs` has no duplicates and only extensions with a record -/
  list_rec : ∀ mp m, heap_get mp w.managers = some m →
    m.outputs.Nodup ∧ ∀ e ∈ m.outputs, ∃ x ∈ g, x.extension = e ∧ x.manager = mp
  /-- a listener list has no duplicates and only extensions with a record -/
  listener_rec : ∀ o l, heap_get o w.output_destroy = some l →
    l.Nodup ∧ ∀ e ∈ l, ∃ x ∈ g, x.extension = e ∧ x.output = o
  /-- an output handle with user data belongs to a record -/
  handle_rec : ∀ r res, heap_get r w.resources = some res →
    res.iface = Interface.wp_color_management_output_v1 →
    ∀ e, res.user_data = some e → ∃ x ∈ g, x.resource = r ∧ x.extension = e
  /-- there are only manager bindings and output handles -/
  ifaces : ∀ r res, heap_get r w.resources = some res →
    res.iface = Interface.wp_color_manager_v1 ∨
    res.iface = Interface.wp_color_management_output_v1

/-! ## A sample session

States used to evaluate the handlers on concrete inputs. -/

/-- The state before anything is created. -/
def sample_empty : World :=
  { next := 1, resources := [], globals := [], managers := [], cm_outputs := [],
    cm_surfaces := [], surface_feedbacks := [], output_destroy := [], surface_destroy := [],
    surface_addons := [], events := [], errors := [] }

/-- No feature flag set. -/
def no_features : wlr_color_manager_v1_features :=
  { icc_v2_v4 := false, parametric := false, set_primaries := false, set_tf_power := false,
    set_luminances := false, set_mastering_display_primaries := false,
    extended_target_volume := false, windows_scrgb := false }

/-- Options with the intents perceptual and relative, the transfer functions
sRGB and PQ and the primaries sRGB and BT.2020. -/
def sample_options : wlr_color_manager_v1_options :=
  { features := no_features, render_intents := [0, 1], transfer_functions := [9, 11],
    primaries := [1, 6] }

/-- The state after the manager (address 1, global 2) is created from
`sample_options` in `sample_empty`. -/
def sample_created : World :=
  { sample_empty with
    next := 3
    globals := [(2, 1)]
    managers :=
      [(1, { global := 2, features := no_features, render_intents := [0, 1],
             transfer_functions := [9, 11], primaries := [1, 6], outputs := [] })] }

/-- The state after this session of client 10: the manager (address 1) is
created from `sample_options` and bound (resource 3); a surface extension is
requested for surface 100 (extension 4, resource 5); output extensions are
requested twice for output 200 (extensions 6 and 8, resources 7 and 9) and once
for output 201 (extension 10, resource 11); a feedback object is requested for
surface 100 (object 12, resource 13); an image description is requested from
resource 7 (resource 14). -/
def sample_world : World :=
  { next := 15,
    resources :=
      [(3, { client := 10, id := 3, iface := .wp_color_manager_v1, version := 1,
             user_data := some 1 }),
       (5, { client := 10, id := 4, iface := .wp_color_management_surface_v1, version := 1,
             user_data := some 4 }),
       (7, { client := 10, id := 5, iface := .wp_color_management_output_v1, version := 1,
             user_data := some 6 }),
       (9, { client := 10, id := 6, iface := .wp_color_management_output_v1, version := 1,
             user_data := some 8 }),
       (11, { client := 10, id := 7, iface := .wp_color_management_output_v1, version := 1,
              user_data := some 10 }),
       (13, { client := 10, id := 8, iface := .wp_color_management_surface_feedback_v1,
              version := 1, user_data := some 12 }),
       (14, { client := 10, id := 9, iface := .wp_image_description_v1, version := 1,
              user_data := none })],
    globals := [(2, 1)],
    managers :=
      [(1, { global := 2, features := no_features, render_intents := [0, 1],
             transfer_functions := [9, 11], primaries := [1, 6], outputs := [10, 8, 6] })],
    cm_outputs :=
      [(6, { resource := 7, output := none }), (8, { resource := 9, output := none }),
       (10, { resource := 11, output := none })],
    cm_surfaces := [(4, { resource := 5, surface := 100, manager := some 1 })],
    surface_feedbacks := [(12, { resource := 13, surface := 100 })],
    output_destroy := [(200, [6, 8]), (201, [10])],
    surface_destroy := [(100, [12])],
    surface_addons := [(100, some 4)],
    events :=
      [(3, .supported_intent 0), (3, .supported_intent 1), (3, .supported_tf_named 9),
       (3, .supported_tf_named 11), (3, .supported_primaries_named 1),
       (3, .supported_primaries_named 6), (3, .manager_done), (14, .ready 0)],
    errors := [] }

/-- The session that leads from `sample_empty` to `sample_world`. -/
def sample_session : Except Crash World :=
  match wlr_color_manager_v1_create sample_empty 1 sample_options true true true true true with
  | .error c => .error c
  | .ok (w1, _) =>
    (manager_bind w1 10 1 1 3 true).bind fun w2 =>
    (manager_handle_get_surface w2 10 3 4 100 true true).bind fun w3 =>
    (manager_handle_get_output w3 10 3 5 200 true true).bind fun w4 =>
    (manager_handle_get_output w4 10 3 6 200 true true).bind fun w5 =>
    (manager_handle_get_output w5 10 3 7 201 true true).bind fun w6 =>
    (manager_handle_get_surface_feedback w6 10 3 8 100 true true).bind fun w7 =>
    cm_output_handle_get_image_description w7 10 7 9 true

/-- Colour tables that give the sRGB values for every name. -/
def sample_render_color : render_color :=
  { wlr_color_primaries_from_named := fun _ => srgb_primaries,
    wlr_color_transfer_function_get_default_luminance := fun _ => srgb_luminances }

/-- A session on output extensions from `sample_empty`: manager 1 is created
and bound (binding 3); output extensions are requested for output 200
(extension 4, handle 5), again for output 200 (extension 6, handle 7), with a
failing allocation, and for output 201 (extension 9, handle 10); the client
releases handle 5; output 200 is destroyed. -/
def sample_actions : List Action :=
  [.create 1 sample_options true true true true true,
   .bind 10 1 1 3 true,
   .get_output 10 3 5 200 true true,
   .get_output 10 3 6 200 true true,
   .get_output 10 3 7 201 true false,
   .get_output 10 3 8 201 true true,
   .release 5,
   .output_destroy 200]

/-- The state at the end of `sample_actions`: extension 4 was destroyed by the
release of its handle 5, extension 6 by the destruction of output 200 (its
handle 7 is inert), the third request failed with "no memory", and extension 9
of output 201 is the only member of the list of manager 1. -/
def sample_outputs_final : World :=
  { sample_empty with
    next := 11
    resources :=
      [(3, { client := 10, id := 3, iface := .wp_color_manager_v1, version := 1,
             user_data := some 1 }),
       (7, { client := 10, id := 6, iface := .wp_color_management_output_v1, version := 1,
             user_data := none }),
       (10, { client := 10, id := 8, iface := .wp_color_management_output_v1, version := 1,
              user_data := some 9 })]
    globals := [(2, 1)]
    managers :=
      [(1, { global := 2, features := no_features, render_intents := [0, 1],
             transfer_functions := [9, 11], primaries := [1, 6], outputs := [9] })]
    cm_outputs := [(9, { resource := 10, output := none })]
    output_destroy := [(200, []), (201, [9])]
    events :=
      [(3, .supported_intent 0), (3, .supported_intent 1), (3, .supported_tf_named 9),
       (3, .supported_tf_named 11), (3, .supported_primaries_named 1),
       (3, .supported_primaries_named 6), (3, .manager_done)]
    errors := [.no_memory 10] }

/-- The sample state after host output 200 is destroyed: extensions 6 and 8
are gone and their handles 7 and 9 are inert. -/
def sample_output_gone : World :=
  { sample_world with
    resources :=
      [(3, { client := 10, id := 3, iface := .wp_color_manager_v1, version := 1,
             user_data := some 1 }),
       (5, { client := 10, id := 4, iface := .wp_color_management_surface_v1, version := 1,
             user_data := some 4 }),
       (7, { client := 10, id := 5, iface := .wp_color_management_output_v1, version := 1,
             user_data := none }),
       (9, { client := 10, id := 6, iface := .wp_color_management_output_v1, version := 1,
             user_data := none }),
       (11, { client := 10, id := 7, iface := .wp_color_management_output_v1, version := 1,
              user_data := some 10 }),
       (13, { client := 10, id := 8, iface := .wp_color_management_surface_feedback_v1,
              version := 1, user_data := some 12 }),
       (14, { client := 10, id := 9, iface := .wp_image_description_v1, version := 1,
              user_data := none })]
    managers :=
      [(1, { global := 2, features := no_features, render_intents := [0, 1],
             transfer_functions := [9, 11], primaries := [1, 6], outputs := [10] })]
    cm_outputs := [(10, { resource := 11, output := none })]
    output_destroy := [(200, []), (201, [10])] }

/-- The sample state after host surface 100 is destroyed: the extension 4 and
the feedback object 12 are gone and their handles 5 and 13 are inert. -/
def sample_surface_gone : World :=
  { sample_world with
    resources :=
      [(3, { client := 10, id := 3, iface := .wp_color_manager_v1, version := 1,
             user_data := some 1 }),
       (5, { client := 10, id := 4, iface := .wp_color_management_surface_v1, version := 1,
             user_data := none }),
       (7, { client := 10, id := 5, iface := .wp_color_management_output_v1, version := 1,
             user_data := some 6 }),
       (9, { client := 10, id := 6, iface := .wp_color_management_output_v1, version := 1,
             user_data := some 8 }),
       (11, { client := 10, id := 7, iface := .wp_color_management_output_v1, version := 1,
              user_data := some 10 }),
       (13, { client := 10, id := 8, iface := .wp_color_management_surface_feedback_v1,
              version := 1, user_data := none }),
       (14, { client := 10, id := 9, iface := .wp_image_description_v1, version := 1,
              user_data := none })]
    cm_surfaces := []
    surface_feedbacks := []
    surface_destroy := [(100, [])]
    surface_addons := [(100, none)] }

/-- The attribute events of `image_desc_handle_get_information` for the sRGB
values, as numbers, on the resource `r`. -/
def srgb_information_events (r : Nat) : List (Nat × Event) :=
  [(r, .info_primaries_named 1),
   (r, .info_primaries 640000 330000 300000 600000 150000 60000 312700 329000),
   (r, .info_tf_named 9),
   (r, .info_luminances 2000 80 80),
   (r, .info_done)]

/-- The attribute events of `image_desc_handle_get_information` for arbitrary
colour tables, computed as the source computes them. -/
def information_events (rc : render_color) : List Event :=
  [Event.info_primaries_named WP_COLOR_MANAGER_V1_PRIMARIES_SRGB,
   Event.info_primaries
     (encode_cie1931_coord (rc.wlr_color_primaries_from_named
       .WLR_COLOR_NAMED_PRIMARIES_SRGB).red.x)
     (encode_cie1931_coord (rc.wlr_color_primaries_from_named
       .WLR_COLOR_NAMED_PRIMARIES_SRGB).red.y)
     (encode_cie1931_coord (rc.wlr_color_primaries_from_named
       .WLR_COLOR_NAMED_PRIMARIES_SRGB).green.x)
     (encode_cie1931_coord (rc.wlr_color_primaries_from_named
       .WLR_COLOR_NAMED_PRIMARIES_SRGB).green.y)
     (encode_cie1931_coord (rc.wlr_color_primaries_from_named
       .WLR_COLOR_NAMED_PRIMARIES_SRGB).blue.x)
     (encode_cie1931_coord (rc.wlr_color_primaries_from_named
       .WLR_COLOR_NAMED_PRIMARIES_SRGB).blue.y)
     (encode_cie1931_coord (rc.wlr_color_primaries_from_named
       .WLR_COLOR_NAMED_PRIMARIES_SRGB).white.x)
     (encode_cie1931_coord (rc.wlr_color_primaries_from_named
       .WLR_COLOR_NAMED_PRIMARIES_SRGB).white.y),
   Event.info_tf_named WP_COLOR_MANAGER_V1_TRANSFER_FUNCTION_SRGB,
   Event.info_luminances
     (c_round (f32_mul_int (rc.wlr_color_transfer_function_get_default_luminance
       .WLR_COLOR_TRANSFER_FUNCTION_SRGB).min 10000))
     (c_round (rc.wlr_color_transfer_function_get_default_luminance
       .WLR_COLOR_TRANSFER_FUNCTION_SRGB).max)
     (c_round (rc.wlr_color_transfer_function_get_default_luminance
       .WLR_COLOR_TRANSFER_FUNCTION_SRGB).reference),
   Event.info_done]

/-! ## Theorems -/

/-! ### Heaps and lists -/

theorem heap_get_set_eq {α : Type} (p : Nat) (v : α) (h : List (Nat × α)) :
    heap_get p (heap_set p v h) = some v := by
  induction h with
  | nil => simp [heap_set, heap_get]
  | cons e t ih =>
    obtain ⟨k, x⟩ := e
    by_cases hk : k = p
    · simp [heap_set, heap_get, hk]
    · simp [heap_set, heap_get, hk, ih]

theorem heap_get_set_ne {α : Type} (k p : Nat) (v : α) (h : List (Nat × α)) (hne : k ≠ p) :
    heap_get k (heap_set p v h) = heap_get k h := by
  induction h with
  | nil => simp [heap_set, heap_get, Ne.symm hne]
  | cons e t ih =>
    obtain ⟨j, x⟩ := e
    by_cases hj : j = p
    · subst hj
      simp [heap_set, heap_get, Ne.symm hne]
    · by_cases hjk : j = k
      · subst hjk
        simp [heap_set, heap_get, hj]
      · simp [heap_set, heap_get, hj, hjk, ih]

theorem heap_get_free_eq {α : Type} (p : Nat) (h : List (Nat × α)) :
    heap_get p (heap_free p h) = none := by
  induction h with
  | nil => simp [heap_free, heap_get]
  | cons e t ih =>
    obtain ⟨k, x⟩ := e
    by_cases hk : k = p
    · simp [heap_free, hk, ih]
    · simp [heap_free, heap_get, hk, ih]

theorem heap_get_free_ne {α : Type} (k p : Nat) (h : List (Nat × α)) (hne : k ≠ p) :
    heap_get k (heap_free p h) = heap_get k h := by
  induction h with
  | nil => simp [heap_free, heap_get]
  | cons e t ih =>
    obtain ⟨j, x⟩ := e
    by_cases hj : j = p
    · subst hj
      simp [heap_free, heap_get, Ne.symm hne, ih]
    · by_cases hjk : j = k
      · subst hjk
        simp [heap_free, heap_get, hj]
      · simp [heap_free, heap_get, hj, hjk, ih]

theorem heap_get_map {α β : Type} (f : α → β) (p : Nat) (h : List (Nat × α)) :
    heap_get p (h.map (fun e => (e.1, f e.2))) = (heap_get p h).map f := by
  induction h with
  | nil => simp [heap_get]
  | cons e t ih =>
    obtain ⟨k, x⟩ := e
    by_cases hk : k = p
    · simp [heap_get, hk]
    · simp [heap_get, hk, ih]

theorem mem_unlink (p x : Nat) (l : List Nat) : x ∈ unlink p l ↔ x ∈ l ∧ x ≠ p := by
  simp [unlink]

theorem sample_session_eq : sample_session = .ok sample_world := by rfl

/-! ### Surface extension requests -/

theorem render_intent_found_iff (i : Nat) (l : List Nat) :
    render_intent_found i l = true ↔ i ∈ l := by
  induction l with
  | nil => simp [render_intent_found]
  | cons x t ih =>
    by_cases hx : x = i
    · simp [render_intent_found, hx]
    · have hx2 : ¬ i = x := fun h => hx h.symm
      simp [render_intent_found, hx, hx2, ih]

/-- C1: `set_image_description` on a surface-extension handle posts the "inert"
error when the user data of the handle is `NULL`, whatever the intent; on a live
handle it posts "invalid render intent" exactly when the intent is not an
element of the `render_intents` of the owning manager, and nothing otherwise.
In each case the resulting state differs from the old one in the error log
only: no event is sent and no object changes. -/
theorem set_image_description_outcome (w : World) (r image_desc render_intent : Nat)
    (res : wl_resource)
    (hr : heap_get r w.resources = some res)
    (hi : res.iface = Interface.wp_color_management_surface_v1) :
    (res.user_data = none →
      cm_surface_handle_set_image_description w r image_desc render_intent =
        .ok { w with errors := w.errors ++
          [PostedError.resource_error r WP_COLOR_MANAGEMENT_SURFACE_V1_ERROR_INERT
            "set_image_description cannot be sent on an inert object"] }) ∧
    (∀ (p mp : Nat) (s : wlr_color_management_surface_v1) (m : wlr_color_manager_v1),
      res.user_data = some p → heap_get p w.cm_surfaces = some s →
      s.manager = some mp → heap_get mp w.managers = some m →
      cm_surface_handle_set_image_description w r image_desc render_intent =
        .ok (if render_intent ∈ m.render_intents then w
          else { w with errors := w.errors ++
            [PostedError.resource_error r WP_COLOR_MANAGEMENT_SURFACE_V1_ERROR_RENDER_INTENT
              "invalid render intent"] })) := by
  constructor
  · intro hu
    simp [cm_surface_handle_set_image_description, cm_surface_from_resource, hr, hi, hu,
      wl_resource_post_error]
  · intro p mp s m hu hs hm hmm
    by_cases hmem : render_intent ∈ m.render_intents
    · have hf := (render_intent_found_iff render_intent m.render_intents).mpr hmem
      simp [cm_surface_handle_set_image_description, cm_surface_from_resource, hr, hi, hu,
        hs, hm, hmm, hf, hmem]
    · have hf : render_intent_found render_intent m.render_intents = false := by
        cases h : render_intent_found render_intent m.render_intents
        · rfl
        · exact absurd ((render_intent_found_iff _ _).mp h) hmem
      simp [cm_surface_handle_set_image_description, cm_surface_from_resource, hr, hi, hu,
        hs, hm, hmm, hf, hmem, wl_resource_post_error]

/-- C1 at the sample state: the live handle 5 accepts the advertised intent 1
and refuses intent 7, and the same handle made inert answers "inert". -/
theorem set_image_description_outcome_witness :
    cm_surface_handle_set_image_description sample_world 5 14 1 = .ok sample_world ∧
    cm_surface_handle_set_image_description sample_world 5 14 7 =
      .ok { sample_world with errors :=
        [PostedError.resource_error 5 WP_COLOR_MANAGEMENT_SURFACE_V1_ERROR_RENDER_INTENT
          "invalid render intent"] } ∧
    cm_surface_handle_set_image_description sample_surface_gone 5 14 1 =
      .ok { sample_surface_gone with errors :=
        [PostedError.resource_error 5 WP_COLOR_MANAGEMENT_SURFACE_V1_ERROR_INERT
          "set_image_description cannot be sent on an inert object"] } :=
  ⟨((set_image_description_outcome sample_world 5 14 1 _ rfl rfl).2 4 1 _ _ rfl rfl rfl rfl),
   ((set_image_description_outcome sample_world 5 14 7 _ rfl rfl).2 4 1 _ _ rfl rfl rfl rfl),
   ((set_image_description_outcome sample_surface_gone 5 14 1 _ rfl rfl).1 rfl)⟩

/-! ### `get_surface` -/

/-- The protocol error "surface-exists" as `manager_handle_get_surface` posts it
on the manager resource `r`. -/
theorem get_surface_attached (w : World) (client r id surface : Nat) (calloc_ok resource_ok : Bool)
    (res : wl_resource) (hr : heap_get r w.resources = some res)
    (hi : res.iface = Interface.wp_color_manager_v1)
    (e : Nat) (he : wlr_addon_find w surface = some e) :
    manager_handle_get_surface w client r id surface calloc_ok resource_ok =
      .ok { w with errors := w.errors ++
        [PostedError.resource_error r WP_COLOR_MANAGER_V1_ERROR_SURFACE_EXISTS
          "wp_color_management_surface_v1 already constructed for this surface"] } := by
  simp [manager_handle_get_surface, manager_from_resource, hr, hi, he, wl_resource_post_error]

theorem get_surface_empty_slot (w : World) (client r id surface : Nat)
    (calloc_ok resource_ok : Bool)
    (res : wl_resource) (hr : heap_get r w.resources = some res)
    (hi : res.iface = Interface.wp_color_manager_v1)
    (he : wlr_addon_find w surface = none) :
    manager_handle_get_surface w client r id surface calloc_ok resource_ok =
      .ok (if calloc_ok = false then
          { w with errors := w.errors ++ [PostedError.no_memory client] }
        else if resource_ok = false then
          { w with next := w.next + 1,
                   errors := w.errors ++ [PostedError.no_memory client] }
        else
          { w with
            next := w.next + 1 + 1,
            resources := heap_set (w.next + 1)
              { client := client, id := id,
                iface := Interface.wp_color_management_surface_v1,
                version := res.version, user_data := some w.next } w.resources,
            cm_surfaces := heap_set w.next
              { resource := w.next + 1, surface := surface, manager := res.user_data }
              w.cm_surfaces,
            surface_addons := heap_set surface (some w.next) w.surface_addons }) := by
  have he2 : ∀ (w1 : World), w1.surface_addons = w.surface_addons →
      wlr_addon_find w1 surface = none := by
    intro w1 h1
    rw [← he]
    simp [wlr_addon_find, h1]
  cases calloc_ok <;> cases resource_ok <;>
    simp [manager_handle_get_surface, manager_from_resource, hr, hi, he, calloc,
      wl_client_post_no_memory, wl_resource_get_version, wl_resource_create, wlr_addon_init,
      he2]

/-- C2: `get_surface` on a manager binding posts "surface-exists" exactly when
the attachment slot of the surface holds an extension; the state is then the
old one with that error added, so nothing is created and the attached extension
is as before. With an empty slot the outcome is "no memory" when an allocation
fails and otherwise one new extension, stored at the fresh address, placed in
the slot of the surface and recording the requesting manager and the surface. -/
theorem get_surface_outcome (w : World) (client r id surface : Nat)
    (calloc_ok resource_ok : Bool)
    (res : wl_resource) (hr : heap_get r w.resources = some res)
    (hi : res.iface = Interface.wp_color_manager_v1) :
    ((∃ w1, manager_handle_get_surface w client r id surface calloc_ok resource_ok = .ok w1 ∧
        w1.errors = w.errors ++
          [PostedError.resource_error r WP_COLOR_MANAGER_V1_ERROR_SURFACE_EXISTS
            "wp_color_management_surface_v1 already constructed for this surface"]) ↔
      (wlr_addon_find w surface).isSome = true) ∧
    ((wlr_addon_find w surface).isSome = true →
      manager_handle_get_surface w client r id surface calloc_ok resource_ok =
        .ok { w with errors := w.errors ++
          [PostedError.resource_error r WP_COLOR_MANAGER_V1_ERROR_SURFACE_EXISTS
            "wp_color_management_surface_v1 already constructed for this surface"] }) ∧
    (wlr_addon_find w surface = none → calloc_ok = true → resource_ok = true →
      ∃ w1, manager_handle_get_surface w client r id surface calloc_ok resource_ok = .ok w1 ∧
        w1.errors = w.errors ∧ w1.events = w.events ∧
        wlr_addon_find w1 surface = some w.next ∧
        heap_get w.next w1.cm_surfaces =
          some { resource := w.next + 1, surface := surface, manager := res.user_data } ∧
        heap_get (w.next + 1) w1.resources =
          some { client := client, id := id,
                 iface := Interface.wp_color_management_surface_v1,
                 version := res.version, user_data := some w.next } ∧
        (∀ k, k ≠ w.next → heap_get k w1.cm_surfaces = heap_get k w.cm_surfaces) ∧
        (∀ k, k ≠ surface → wlr_addon_find w1 k = wlr_addon_find w k) ∧
        (∀ k, k ≠ w.next + 1 → heap_get k w1.resources = heap_get k w.resources) ∧
        w1.managers = w.managers ∧ w1.cm_outputs = w.cm_outputs ∧
        w1.surface_feedbacks = w.surface_feedbacks) := by
  refine ⟨?_, ?_, ?_⟩
  · constructor
    · rintro ⟨w1, h1, h2⟩
      cases hfind : wlr_addon_find w surface with
      | some e => rfl
      | none =>
        rw [get_surface_empty_slot w client r id surface calloc_ok resource_ok res hr hi hfind]
          at h1
        cases calloc_ok <;> cases resource_ok <;> simp at h1 <;> subst h1 <;> simp at h2
    · intro hsome
      obtain ⟨e, he⟩ := Option.isSome_iff_exists.mp hsome
      exact ⟨_, get_surface_attached w client r id surface calloc_ok resource_ok res hr hi e he,
        rfl⟩
  · intro hsome
    obtain ⟨e, he⟩ := Option.isSome_iff_exists.mp hsome
    exact get_surface_attached w client r id surface calloc_ok resource_ok res hr hi e he
  · intro hfind hc hrk
    subst hc
    subst hrk
    refine ⟨_, get_surface_empty_slot w client r id surface true true res hr hi hfind, ?_⟩
    refine ⟨rfl, rfl, ?_, ?_, ?_, ?_, ?_, ?_, rfl, rfl, rfl⟩
    · simp [wlr_addon_find, heap_get_set_eq]
    · simp [heap_get_set_eq]
    · simp [heap_get_set_eq]
    · intro k hk
      simp [heap_get_set_ne k w.next _ _ hk]
    · intro k hk
      simp [wlr_addon_find, heap_get_set_ne k surface _ _ hk]
    · intro k hk
      simp [heap_get_set_ne k (w.next + 1) _ _ hk]

/-- C2 at the sample state: surface 100 has an extension, so a second request
is refused; surface 101 has none and gets the extension at address 15. -/
theorem get_surface_outcome_witness :
    manager_handle_get_surface sample_world 10 3 20 100 true true =
      .ok { sample_world with errors :=
        [PostedError.resource_error 3 WP_COLOR_MANAGER_V1_ERROR_SURFACE_EXISTS
          "wp_color_management_surface_v1 already constructed for this surface"] } ∧
    ∃ w1, manager_handle_get_surface sample_world 10 3 20 101 true true = .ok w1 ∧
      wlr_addon_find w1 101 = some 15 ∧
      heap_get 15 w1.cm_surfaces = some { resource := 16, surface := 101, manager := some 1 } :=
  ⟨(get_surface_outcome sample_world 10 3 20 100 true true _ rfl rfl).2.1 rfl,
   match (get_surface_outcome sample_world 10 3 20 101 true true _ rfl rfl).2.2 rfl rfl rfl with
   | ⟨w1, h, _, _, h3, h4, _⟩ => ⟨w1, h, h3, h4⟩⟩

/-! ### Creation of the manager and `manager_bind` -/

theorem has_perceptual_render_intent_eq (found : Bool) (l : List Nat) :
    has_perceptual_render_intent found l =
      (found || decide (WP_COLOR_MANAGER_V1_RENDER_INTENT_PERCEPTUAL ∈ l)) := by
  induction l generalizing found with
  | nil => simp [has_perceptual_render_intent]
  | cons x t ih =>
    by_cases hx : x = WP_COLOR_MANAGER_V1_RENDER_INTENT_PERCEPTUAL
    · simp [has_perceptual_render_intent, ih, hx]
    · have hx2 : ¬ WP_COLOR_MANAGER_V1_RENDER_INTENT_PERCEPTUAL = x := fun h => hx h.symm
      simp [has_perceptual_render_intent, ih, hx, hx2]

theorem assert_no_features_ok (f : wlr_color_manager_v1_features) (u : Unit)
    (h : assert_no_features f = .ok u) : f = no_features := by
  obtain ⟨a, b, c, d, e, g, i, j⟩ := f
  cases a <;> cases b <;> cases c <;> cases d <;> cases e <;> cases g <;> cases i <;> cases j <;>
    simp [assert_no_features, no_features] at h ⊢

theorem assert_no_features_error (f : wlr_color_manager_v1_features)
    (h : f ≠ no_features) : ∃ k, assert_no_features f = .error (.assert_feature k) := by
  obtain ⟨a, b, c, d, e, g, i, j⟩ := f
  cases a <;> cases b <;> cases c <;> cases d <;> cases e <;> cases g <;> cases i <;> cases j <;>
    simp [assert_no_features, no_features] at h ⊢

/-- What a successful `wlr_color_manager_v1_create` has checked and built. -/
theorem create_ok (w : World) (version : Nat) (options : wlr_color_manager_v1_options)
    (b1 b2 b3 b4 b5 : Bool) (w1 : World) (mp : Nat)
    (h : wlr_color_manager_v1_create w version options b1 b2 b3 b4 b5 = .ok (w1, some mp)) :
    version ≤ COLOR_MANAGEMENT_V1_VERSION ∧
    WP_COLOR_MANAGER_V1_RENDER_INTENT_PERCEPTUAL ∈ options.render_intents ∧
    options.features = no_features ∧
    ∃ g, heap_get mp w1.managers = some
      { global := g, features := options.features, render_intents := options.render_intents,
        transfer_functions := options.transfer_functions, primaries := options.primaries,
        outputs := [] } := by
  unfold wlr_color_manager_v1_create at h
  by_cases hv : version ≤ COLOR_MANAGEMENT_V1_VERSION
  · by_cases hp : WP_COLOR_MANAGER_V1_RENDER_INTENT_PERCEPTUAL ∈ options.render_intents
    · cases hf : assert_no_features options.features with
      | error c => simp [hv, has_perceptual_render_intent_eq, hp, hf] at h
      | ok u =>
        have hnf := assert_no_features_ok _ u hf
        refine ⟨hv, hp, hnf, ?_⟩
        cases b1 <;> cases b2 <;> cases b3 <;> cases b4 <;> cases b5 <;>
          simp [hv, has_perceptual_render_intent_eq, hp, hf, calloc] at h
        obtain ⟨h1, h2⟩ := h
        subst h1
        subst h2
        refine ⟨w.next + 1, ?_⟩
        simp [heap_get_set_eq]
    · simp [hv, has_perceptual_render_intent_eq, hp] at h
  · simp [hv] at h

theorem send_supported_features_none (resource : Nat) (w : World) (i n : Nat) :
    send_supported_features resource w i (List.replicate n false) = w := by
  induction n generalizing i with
  | zero => simp [send_supported_features]
  | succ n ih => simp [List.replicate_succ, send_supported_features, ih]

theorem send_each_eq (resource : Nat) (ev : Nat → Event) (w : World) (l : List Nat) :
    send_each resource ev w l =
      { w with events := w.events ++ l.map (fun x => (resource, ev x)) } := by
  induction l generalizing w with
  | nil => simp [send_each]
  | cons x t ih => simp [send_each, ih, send_event]

theorem bind_features_none : bind_features no_features = List.replicate 8 false := by rfl

theorem spec_feature_events_none : spec_feature_events no_features = [] := by rfl

/-- The array of `manager_bind` has no entry for `set_luminances`: with that
flag alone set, the loop would send no feature event. No manager that
`wlr_color_manager_v1_create` returns has the flag set. -/
theorem bind_features_set_luminances :
    bind_features { no_features with set_luminances := true } = List.replicate 8 false := by
  rfl

theorem count_done_map (ev : Nat → Event) (hev : ∀ x, ev x ≠ Event.manager_done)
    (l : List Nat) : (l.map ev).count Event.manager_done = 0 := by
  rw [List.count_eq_zero]
  intro hmem
  obtain ⟨x, _, hx⟩ := List.mem_map.mp hmem
  exact hev x hx

/-- C3: for a manager that `wlr_color_manager_v1_create` returned, every
successful `manager_bind` (in any later state whose manager still has the
configuration it was created with) sends on the new binding exactly the events
of the specification: one per feature flag that is set in ascending order, one
per render intent, per transfer function and per primaries in array order, then
"done", which occurs once and is the last event. The list is a function of the
configuration alone. -/
theorem manager_bind_events (w : World) (version : Nat)
    (options : wlr_color_manager_v1_options) (b1 b2 b3 b4 b5 : Bool) (w1 : World) (mp : Nat)
    (hc : wlr_color_manager_v1_create w version options b1 b2 b3 b4 b5 = .ok (w1, some mp)) :
    ∃ m, heap_get mp w1.managers = some m ∧
      m.features = options.features ∧ m.render_intents = options.render_intents ∧
      m.transfer_functions = options.transfer_functions ∧ m.primaries = options.primaries ∧
      (∀ (w2 : World) (m2 : wlr_color_manager_v1) (client v id : Nat),
        heap_get mp w2.managers = some m2 →
        m2.features = options.features → m2.render_intents = options.render_intents →
        m2.transfer_functions = options.transfer_functions →
        m2.primaries = options.primaries →
        manager_bind w2 client mp v id true =
          .ok { w2 with
            next := w2.next + 1,
            resources := heap_set w2.next
              { client := client, id := id, iface := Interface.wp_color_manager_v1,
                version := v, user_data := some mp } w2.resources,
            events := w2.events ++
              (spec_bind_events options.features options.render_intents
                options.transfer_functions options.primaries).map
                (fun e => (w2.next, e)) }) ∧
      (spec_bind_events options.features options.render_intents
          options.transfer_functions options.primaries).getLast? = some Event.manager_done ∧
      (spec_bind_events options.features options.render_intents
          options.transfer_functions options.primaries).count Event.manager_done = 1 := by
  obtain ⟨_, _, hnf, g, hm⟩ := create_ok w version options b1 b2 b3 b4 b5 w1 mp hc
  refine ⟨_, hm, rfl, rfl, rfl, rfl, ?_, ?_, ?_⟩
  · intro w2 m2 client v id hm2 hf hi ht hp
    rw [hnf] at hf
    unfold manager_bind
    simp only [wl_resource_create, if_true, hm2]
    rw [hf, bind_features_none, send_supported_features_none]
    simp [send_each_eq, send_event, spec_bind_events, spec_feature_events_none, hi, ht, hp,
      hnf, List.map_append]
    rfl
  · simp [spec_bind_events]
  · simp [spec_bind_events, spec_feature_events_none, hnf, List.count_append,
      count_done_map]

/-- C3 at the sample options: the binding made in the sample state receives the
seven capability events. -/
theorem manager_bind_events_witness :
    ∃ w1, manager_bind sample_world 11 1 1 3 true = .ok w1 ∧
      w1.events = sample_world.events ++
        [(15, .supported_intent 0), (15, .supported_intent 1), (15, .supported_tf_named 9),
         (15, .supported_tf_named 11), (15, .supported_primaries_named 1),
         (15, .supported_primaries_named 6), (15, .manager_done)] :=
  match manager_bind_events sample_empty 1 sample_options true true true true true _ 1 rfl with
  | ⟨_, _, _, _, _, _, h, _, _⟩ =>
    ⟨_, h sample_world _ 11 1 3 rfl rfl rfl rfl rfl, rfl⟩

/-- C4: when the render intents of the options do not contain "perceptual"
(whatever else the options hold) `wlr_color_manager_v1_create` stops at an
assertion and returns nothing: at the perceptual assertion, or at the version
assertion that precedes it. When "perceptual" occurs anywhere in the array the
flag of the loop ends `true` and the perceptual assertion does not fail. -/
theorem create_requires_perceptual (w : World) (version : Nat)
    (options : wlr_color_manager_v1_options) (b1 b2 b3 b4 b5 : Bool) :
    (WP_COLOR_MANAGER_V1_RENDER_INTENT_PERCEPTUAL ∉ options.render_intents →
      wlr_color_manager_v1_create w version options b1 b2 b3 b4 b5 =
        .error (if version ≤ COLOR_MANAGEMENT_V1_VERSION then Crash.assert_perceptual
          else Crash.assert_version)) ∧
    (WP_COLOR_MANAGER_V1_RENDER_INTENT_PERCEPTUAL ∈ options.render_intents →
      has_perceptual_render_intent false options.render_intents = true ∧
      wlr_color_manager_v1_create w version options b1 b2 b3 b4 b5 ≠
        .error Crash.assert_perceptual) := by
  constructor
  · intro hp
    by_cases hv : version ≤ COLOR_MANAGEMENT_V1_VERSION
    · simp [wlr_color_manager_v1_create, hv, has_perceptual_render_intent_eq, hp]
    · simp [wlr_color_manager_v1_create, hv]
  · intro hp
    refine ⟨by simp [has_perceptual_render_intent_eq, hp], ?_⟩
    unfold wlr_color_manager_v1_create
    by_cases hv : version ≤ COLOR_MANAGEMENT_V1_VERSION
    · by_cases hf : options.features = no_features
      · cases b1 <;> cases b2 <;> cases b3 <;> cases b4 <;> cases b5 <;>
          simp [hv, has_perceptual_render_intent_eq, hp, hf, calloc, assert_no_features,
            no_features]
      · obtain ⟨k, hk⟩ := assert_no_features_error _ hf
        simp [hv, has_perceptual_render_intent_eq, hp, hk]
    · simp [hv]

/-- C4 at concrete options: without "perceptual" (also with no intent at all)
creation stops at the assertion; with "perceptual" in second place it passes. -/
theorem create_requires_perceptual_witness :
    wlr_color_manager_v1_create sample_empty 1
        { sample_options with render_intents := [1, 2] } true true true true true =
      .error Crash.assert_perceptual ∧
    wlr_color_manager_v1_create sample_empty 1
        { sample_options with render_intents := [] } true true true true true =
      .error Crash.assert_perceptual ∧
    has_perceptual_render_intent false [1, 0] = true :=
  ⟨(create_requires_perceptual sample_empty 1
      { sample_options with render_intents := [1, 2] } true true true true true).1 (by decide),
   (create_requires_perceptual sample_empty 1
      { sample_options with render_intents := [] } true true true true true).1 (by decide),
   ((create_requires_perceptual sample_empty 1
      { sample_options with render_intents := [1, 0] } true true true true true).2
      (by decide)).1⟩

/-- C5: when any of the eight feature flags of the options is set,
`wlr_color_manager_v1_create` stops at an assertion and returns nothing; hence
the manager that a successful call returns has every feature flag `false`. -/
theorem create_rejects_features (w : World) (version : Nat)
    (options : wlr_color_manager_v1_options) (b1 b2 b3 b4 b5 : Bool) :
    ((options.features.icc_v2_v4 = true ∨ options.features.parametric = true ∨
      options.features.set_primaries = true ∨ options.features.set_tf_power = true ∨
      options.features.set_luminances = true ∨
      options.features.set_mastering_display_primaries = true ∨
      options.features.extended_target_volume = true ∨
      options.features.windows_scrgb = true) →
      ∃ c, wlr_color_manager_v1_create w version options b1 b2 b3 b4 b5 = .error c) ∧
    (∀ (w1 : World) (mp : Nat),
      wlr_color_manager_v1_create w version options b1 b2 b3 b4 b5 = .ok (w1, some mp) →
      ∃ m, heap_get mp w1.managers = some m ∧
        m.features.icc_v2_v4 = false ∧ m.features.parametric = false ∧
        m.features.set_primaries = false ∧ m.features.set_tf_power = false ∧
        m.features.set_luminances = false ∧
        m.features.set_mastering_display_primaries = false ∧
        m.features.extended_target_volume = false ∧ m.features.windows_scrgb = false) := by
  constructor
  · intro hflag
    have hf : options.features ≠ no_features := by
      intro h
      rw [h] at hflag
      simp [no_features] at hflag
    obtain ⟨k, hk⟩ := assert_no_features_error _ hf
    unfold wlr_color_manager_v1_create
    by_cases hv : version ≤ COLOR_MANAGEMENT_V1_VERSION
    · by_cases hp : WP_COLOR_MANAGER_V1_RENDER_INTENT_PERCEPTUAL ∈ options.render_intents
      · simp [hv, has_perceptual_render_intent_eq, hp, hk]
      · simp [hv, has_perceptual_render_intent_eq, hp]
    · simp [hv]
  · intro w1 mp h
    obtain ⟨_, _, hnf, g, hm⟩ := create_ok w version options b1 b2 b3 b4 b5 w1 mp h
    refine ⟨_, hm, ?_⟩
    simp [hnf, no_features]

/-- C5 at concrete options: with `set_luminances` set creation stops at the
assertion on that flag; the manager of the sample session has no flag set. -/
theorem create_rejects_features_witness :
    (∃ c, wlr_color_manager_v1_create sample_empty 1
        { sample_options with features := { no_features with set_luminances := true } }
        true true true true true = .error c) ∧
    (∃ m, heap_get 1 sample_created.managers = some m ∧
        m.features.icc_v2_v4 = false ∧ m.features.parametric = false ∧
        m.features.set_primaries = false ∧ m.features.set_tf_power = false ∧
        m.features.set_luminances = false ∧
        m.features.set_mastering_display_primaries = false ∧
        m.features.extended_target_volume = false ∧ m.features.windows_scrgb = false) :=
  ⟨(create_rejects_features sample_empty 1
      { sample_options with features := { no_features with set_luminances := true } }
      true true true true true).1 (by decide),
   (create_rejects_features sample_empty 1 sample_options true true true true true).2
      sample_created 1 rfl⟩

/-! ### Image descriptions -/

theorem sample_output_gone_eq : output_destroyed sample_world 200 = .ok sample_output_gone := by
  rfl

theorem sample_surface_gone_eq :
    surface_destroyed sample_world 100 = .ok sample_surface_gone := by
  rfl

/-- A failed creation of the info object in `image_desc_handle_get_information`:
"no memory" and nothing else. -/
theorem get_information_no_memory (rc : render_color) (w : World) (client d id : Nat)
    (res : wl_resource) (hr : heap_get d w.resources = some res) :
    image_desc_handle_get_information rc w client d id false =
      .ok { w with errors := w.errors ++ [PostedError.no_memory client] } := by
  simp [image_desc_handle_get_information, wl_resource_get_version, hr, wl_resource_create,
    wl_client_post_no_memory]

/-- The outcome of a successful `image_desc_handle_get_information` for
arbitrary colour tables: the five events are sent on the new info object, which
is then destroyed. -/
theorem get_information_ok (rc : render_color) (w : World) (client d id : Nat)
    (res : wl_resource) (hr : heap_get d w.resources = some res) :
    image_desc_handle_get_information rc w client d id true =
      .ok { w with
        next := w.next + 1,
        resources := heap_free w.next (heap_set w.next
          { client := client, id := id, iface := Interface.wp_image_description_info_v1,
            version := res.version, user_data := none } w.resources),
        events := w.events ++ (information_events rc).map (fun e => (w.next, e)) } := by
  simp [image_desc_handle_get_information, wl_resource_get_version, hr, wl_resource_create,
    named_primaries_to_wlr, transfer_function_to_wlr, send_event, wl_resource_destroy,
    heap_get_set_eq, information_events]

/-- The `float` computation of the source on the sRGB chromaticities. -/
theorem encode_srgb_primaries :
    encode_cie1931_coord srgb_primaries.red.x = 640000 ∧
    encode_cie1931_coord srgb_primaries.red.y = 330000 ∧
    encode_cie1931_coord srgb_primaries.green.x = 300000 ∧
    encode_cie1931_coord srgb_primaries.green.y = 600000 ∧
    encode_cie1931_coord srgb_primaries.blue.x = 150000 ∧
    encode_cie1931_coord srgb_primaries.blue.y = 60000 ∧
    encode_cie1931_coord srgb_primaries.white.x = 312700 ∧
    encode_cie1931_coord srgb_primaries.white.y = 329000 := by
  decide

/-- The `float` computation of the source on the sRGB default luminances. -/
theorem encode_srgb_luminances :
    c_round (f32_mul_int srgb_luminances.min 10000) = 2000 ∧
    c_round srgb_luminances.max = 80 ∧ c_round srgb_luminances.reference = 80 := by
  decide

/-- The exact rounding of the specification on the sRGB chromaticities. -/
theorem spec_encode_srgb_primaries :
    spec_encode_coord srgb_primaries.red.x = 640000 ∧
    spec_encode_coord srgb_primaries.red.y = 330000 ∧
    spec_encode_coord srgb_primaries.green.x = 300000 ∧
    spec_encode_coord srgb_primaries.green.y = 600000 ∧
    spec_encode_coord srgb_primaries.blue.x = 150000 ∧
    spec_encode_coord srgb_primaries.blue.y = 60000 ∧
    spec_encode_coord srgb_primaries.white.x = 312700 ∧
    spec_encode_coord srgb_primaries.white.y = 329000 := by
  simp only [spec_encode_coord, round_nearest, c_float.toRat, srgb_primaries]
  norm_num

/-- The exact rounding of the specification on the sRGB default luminances. -/
theorem spec_encode_srgb_luminances :
    spec_encode_min_lum srgb_luminances.min = 2000 ∧
    round_nearest srgb_luminances.max.toRat = 80 ∧
    round_nearest srgb_luminances.reference.toRat = 80 := by
  simp only [spec_encode_min_lum, round_nearest, c_float.toRat, srgb_luminances]
  norm_num

/-- C6: a successful `get_information` request, with colour tables that give
the sRGB chromaticities and the sRGB default luminances, sends on the new info
object exactly: `primaries_named(sRGB)`; `primaries` with the eight coordinates
each encoded as the nearest integer of the value times 1,000,000; `tf_named(sRGB)`;
`luminances` with the minimum times 10,000, the maximum and the reference, each
rounded to the nearest integer; `done`. Nothing else is sent, the info object
is destroyed afterwards, and the events do not depend on the state. -/
theorem get_information_events (rc : render_color) (w : World) (client d id : Nat)
    (res : wl_resource) (hr : heap_get d w.resources = some res)
    (hp : rc.wlr_color_primaries_from_named .WLR_COLOR_NAMED_PRIMARIES_SRGB = srgb_primaries)
    (hl : rc.wlr_color_transfer_function_get_default_luminance
      .WLR_COLOR_TRANSFER_FUNCTION_SRGB = srgb_luminances) :
    image_desc_handle_get_information rc w client d id true =
      .ok { w with
        next := w.next + 1,
        resources := heap_free w.next (heap_set w.next
          { client := client, id := id, iface := Interface.wp_image_description_info_v1,
            version := res.version, user_data := none } w.resources),
        events := w.events ++
          [(w.next, Event.info_primaries_named WP_COLOR_MANAGER_V1_PRIMARIES_SRGB),
           (w.next, Event.info_primaries
             (spec_encode_coord srgb_primaries.red.x) (spec_encode_coord srgb_primaries.red.y)
             (spec_encode_coord srgb_primaries.green.x)
             (spec_encode_coord srgb_primaries.green.y)
             (spec_encode_coord srgb_primaries.blue.x) (spec_encode_coord srgb_primaries.blue.y)
             (spec_encode_coord srgb_primaries.white.x)
             (spec_encode_coord srgb_primaries.white.y)),
           (w.next, Event.info_tf_named WP_COLOR_MANAGER_V1_TRANSFER_FUNCTION_SRGB),
           (w.next, Event.info_luminances
             (spec_encode_min_lum srgb_luminances.min)
             (round_nearest srgb_luminances.max.toRat)
             (round_nearest srgb_luminances.reference.toRat)),
           (w.next, Event.info_done)] } := by
  rw [get_information_ok rc w client d id res hr]
  simp only [information_events, hp, hl]
  obtain ⟨c1, c2, c3, c4, c5, c6, c7, c8⟩ := encode_srgb_primaries
  obtain ⟨l1, l2, l3⟩ := encode_srgb_luminances
  obtain ⟨s1, s2, s3, s4, s5, s6, s7, s8⟩ := spec_encode_srgb_primaries
  obtain ⟨t1, t2, t3⟩ := spec_encode_srgb_luminances
  rw [c1, c2, c3, c4, c5, c6, c7, c8, l1, l2, l3, s1, s2, s3, s4, s5, s6, s7, s8, t1, t2, t3]
  simp

/-- C6 at the sample state: the request on the image description 14 sends the
five events, with their numbers, on the info object 15. -/
theorem get_information_events_witness :
    ∃ w1, image_desc_handle_get_information sample_render_color sample_world 10 14 20 true =
        .ok w1 ∧
      w1.events = sample_world.events ++ srgb_information_events 15 := by
  refine ⟨_, get_information_events sample_render_color sample_world 10 14 20 _ rfl rfl rfl, ?_⟩
  obtain ⟨s1, s2, s3, s4, s5, s6, s7, s8⟩ := spec_encode_srgb_primaries
  obtain ⟨t1, t2, t3⟩ := spec_encode_srgb_luminances
  simp only [s1, s2, s3, s4, s5, s6, s7, s8, t1, t2, t3]
  rfl

/-- C7, as stated, fails at the sample state: after `get_information` on the
image description 14 has sent its events, the handle 14 is still there as it
was, and a second `get_information` on it is answered with the same events
(now on the info object 16). -/
theorem get_information_keeps_image_description :
    ∃ w1 w2,
      image_desc_handle_get_information sample_render_color sample_world 10 14 20 true =
        .ok w1 ∧
      heap_get 14 w1.resources =
        some { client := 10, id := 9, iface := Interface.wp_image_description_v1,
               version := 1, user_data := none } ∧
      image_desc_handle_get_information sample_render_color w1 10 14 21 true = .ok w2 ∧
      w2.events = w1.events ++ srgb_information_events 16 :=
  ⟨_, _, rfl, by decide, rfl, by decide⟩

/-- C7 as amended: a successful `get_information` destroys the info object it
created, whether or not the client released it, and no other resource: the
image description handle stays as it was, and a further `get_information` on
it succeeds and sends the same attributes again. -/
theorem get_information_destroys_info_only (rc : render_color) (w : World)
    (client d id id2 : Nat) (res : wl_resource)
    (hr : heap_get d w.resources = some res)
    (hfresh : heap_get w.next w.resources = none) :
    ∃ w1 w2,
      image_desc_handle_get_information rc w client d id true = .ok w1 ∧
      heap_get w.next w1.resources = none ∧
      heap_get d w1.resources = some res ∧
      (∀ k, heap_get k w1.resources = heap_get k w.resources) ∧
      image_desc_handle_get_information rc w1 client d id2 true = .ok w2 ∧
      (∃ evs : List Event, evs.length = 5 ∧
        w1.events = w.events ++ evs.map (fun e => (w.next, e)) ∧
        w2.events = w1.events ++ evs.map (fun e => (w1.next, e))) := by
  have hall : ∀ k, heap_get k (heap_free w.next (heap_set w.next
      ({ client := client, id := id, iface := Interface.wp_image_description_info_v1,
         version := res.version, user_data := none } : wl_resource) w.resources)) =
      heap_get k w.resources := by
    intro k
    by_cases hk : k = w.next
    · subst hk
      rw [heap_get_free_eq, hfresh]
    · rw [heap_get_free_ne k w.next _ hk, heap_get_set_ne k w.next _ _ hk]
  refine ⟨_, _, get_information_ok rc w client d id res hr, ?_, ?_, ?_,
    get_information_ok rc _ client d id2 res (by rw [hall d, hr]),
    information_events rc, rfl, rfl, rfl⟩
  · exact heap_get_free_eq _ _
  · rw [hall d, hr]
  · exact hall

/-- C7 as amended, at the sample state: the info object 15 is gone after the
request and the image description 14 is still there. -/
theorem get_information_destroys_info_only_witness :
    ∃ w1, image_desc_handle_get_information sample_render_color sample_world 10 14 20 true =
        .ok w1 ∧
      heap_get 15 w1.resources = none ∧
      heap_get 14 w1.resources =
        some { client := 10, id := 9, iface := Interface.wp_image_description_v1,
               version := 1, user_data := none } :=
  match get_information_destroys_info_only sample_render_color sample_world 10 14 20 21 _
      rfl rfl with
  | ⟨w1, _, h1, h2, h3, _⟩ => ⟨w1, h1, h2, h3⟩

/-- C10: `get_image_description` on an output-extension handle and
`get_preferred` on a feedback handle, whatever the user data of the handle (live
or inert), create one image description handle with the requested id, the
client and the version of the parent and no user data, and send on it the one
event `ready(0)`; when the handle cannot be created the only effect is "no
memory" on the client, and no event is sent. No other error is posted. -/
theorem image_desc_create_ready_outcome (w : World) (client parent id : Nat)
    (resource_ok : Bool) (par : wl_resource)
    (hr : heap_get parent w.resources = some par) :
    cm_output_handle_get_image_description w client parent id resource_ok =
      .ok (if resource_ok = true then
          { w with
            next := w.next + 1,
            resources := heap_set w.next
              { client := par.client, id := id, iface := Interface.wp_image_description_v1,
                version := par.version, user_data := none } w.resources,
            events := w.events ++ [(w.next, Event.ready 0)] }
        else { w with errors := w.errors ++ [PostedError.no_memory par.client] }) ∧
    surface_feedback_handle_get_preferred w client parent id resource_ok =
      cm_output_handle_get_image_description w client parent id resource_ok := by
  constructor
  · cases resource_ok <;>
      simp [cm_output_handle_get_image_description, image_desc_create_ready, hr,
        wl_resource_create, wl_client_post_no_memory, send_event]
  · rfl

/-- C10 at the sample states: the live output handle 7, the same handle made
inert by the destruction of output 200, and the feedback handle 13 each get an
image description with `ready(0)`; a failed creation posts "no memory" only. -/
theorem image_desc_create_ready_outcome_witness :
    (cm_output_handle_get_image_description sample_output_gone 10 7 30 true =
      .ok { sample_output_gone with
        next := 16
        resources := heap_set 15
          { client := 10, id := 30, iface := Interface.wp_image_description_v1, version := 1,
            user_data := none } sample_output_gone.resources
        events := sample_output_gone.events ++ [(15, Event.ready 0)] }) ∧
    (surface_feedback_handle_get_preferred sample_world 10 13 30 false =
      .ok { sample_world with errors := [PostedError.no_memory 10] }) :=
  ⟨(image_desc_create_ready_outcome sample_output_gone 10 7 30 true _ rfl).1,
   ((image_desc_create_ready_outcome sample_world 10 13 30 false _ rfl).2.trans
     (image_desc_create_ready_outcome sample_world 10 13 30 false _ rfl).1)⟩

/-! ### Destruction of output extensions -/

/-- The effect of `cm_output_destroy` on a live extension. -/
theorem cm_output_destroy_live (w : World) (e : Nat) (o : wlr_color_management_output_v1)
    (res : wl_resource) (he : heap_get e w.cm_outputs = some o)
    (hres : heap_get o.resource w.resources = some res) :
    cm_output_destroy w (some e) =
      .ok { w with
        resources := heap_set o.resource { res with user_data := none } w.resources,
        output_destroy := wl_list_remove e w.output_destroy,
        managers := wl_list_remove_output e w.managers,
        cm_outputs := heap_free e w.cm_outputs } := by
  simp [cm_output_destroy, he, wl_resource_set_user_data, hres]

/-- Destroying a resource whose user data is `NULL`: the destroy function finds
no extension and only the resource itself goes away. -/
theorem wl_resource_destroy_inert (w : World) (r : Nat) (res : wl_resource)
    (hr : heap_get r w.resources = some res) (hu : res.user_data = none) :
    wl_resource_destroy w r = .ok { w with resources := heap_free r w.resources } := by
  obtain ⟨c, i, iface, v, u⟩ := res
  simp only at hu
  subst hu
  cases iface <;>
    simp [wl_resource_destroy, hr, cm_output_handle_resource_destroy, cm_output_from_resource,
      cm_output_destroy, cm_surface_handle_resource_destroy, cm_surface_from_resource,
      cm_surface_destroy, surface_feedback_handle_resource_destroy,
      surface_feedback_from_resource, surface_feedback_destroy]

theorem heap_get_wl_list_remove (p k : Nat) (ls : List (Nat × List Nat)) :
    heap_get k (wl_list_remove p ls) = (heap_get k ls).map (unlink p) := by
  unfold wl_list_remove
  exact heap_get_map (unlink p) k ls

theorem heap_get_wl_list_remove_output (p k : Nat) (ms : List (Nat × wlr_color_manager_v1)) :
    heap_get k (wl_list_remove_output p ms) =
      (heap_get k ms).map (fun m => { m with outputs := unlink p m.outputs }) := by
  unfold wl_list_remove_output
  exact heap_get_map (fun m => { m with outputs := unlink p m.outputs }) k ms

/-- One notification: the destroy notification of the host output, delivered
to the listener of the live output extension `e`, takes `e` out of the list
`outputs` of its manager and out of the listener list of the output, clears the
user data of its handle while keeping the handle, and frees `e`. Every other
extension keeps its place in the lists, its heap entry and the user data of its
handle. When the client later releases the inert handle, the destroy function
runs with `NULL` and changes nothing, and only the handle itself goes away. -/
theorem cm_output_handle_output_destroy_effect (w : World) (e : Nat) (o : wlr_color_management_output_v1)
    (res : wl_resource) (he : heap_get e w.cm_outputs = some o)
    (hres : heap_get o.resource w.resources = some res)
    (hi : res.iface = Interface.wp_color_management_output_v1) :
    ∃ w1, cm_output_handle_output_destroy w e = .ok w1 ∧
      (∀ mp, heap_get mp w1.managers =
        (heap_get mp w.managers).map (fun m => { m with outputs := unlink e m.outputs })) ∧
      (∀ mp m1, heap_get mp w1.managers = some m1 → e ∉ m1.outputs) ∧
      (∀ mp m m1 k, heap_get mp w.managers = some m → heap_get mp w1.managers = some m1 →
        k ≠ e → (k ∈ m1.outputs ↔ k ∈ m.outputs)) ∧
      (∀ out, heap_get out w1.output_destroy =
        (heap_get out w.output_destroy).map (unlink e)) ∧
      (∀ out l1, heap_get out w1.output_destroy = some l1 → e ∉ l1) ∧
      heap_get o.resource w1.resources = some { res with user_data := none } ∧
      (∀ k, k ≠ o.resource → heap_get k w1.resources = heap_get k w.resources) ∧
      heap_get e w1.cm_outputs = none ∧
      (∀ k, k ≠ e → heap_get k w1.cm_outputs = heap_get k w.cm_outputs) ∧
      w1.events = w.events ∧ w1.errors = w.errors ∧ w1.cm_surfaces = w.cm_surfaces ∧
      w1.surface_feedbacks = w.surface_feedbacks ∧ w1.surface_addons = w.surface_addons ∧
      w1.surface_destroy = w.surface_destroy ∧
      cm_output_handle_resource_destroy w1 o.resource = .ok w1 ∧
      resource_handle_destroy w1 o.resource =
        .ok { w1 with resources := heap_free o.resource w1.resources } := by
  refine ⟨_, cm_output_destroy_live w e o res he hres, ?_, ?_, ?_, ?_, ?_, ?_, ?_, ?_, ?_,
    rfl, rfl, rfl, rfl, rfl, rfl, ?_, ?_⟩
  · intro mp
    exact heap_get_wl_list_remove_output e mp w.managers
  · intro mp m1 h1
    have h2 := heap_get_wl_list_remove_output e mp w.managers
    simp only at h1
    rw [h1] at h2
    cases hm : heap_get mp w.managers with
    | none => simp [hm] at h2
    | some m =>
      simp [hm] at h2
      subst h2
      simp [mem_unlink]
  · intro mp m m1 k hm h1 hk
    have h2 := heap_get_wl_list_remove_output e mp w.managers
    simp only at h1
    rw [h1, hm] at h2
    simp at h2
    subst h2
    simp [mem_unlink, hk]
  · intro out
    exact heap_get_wl_list_remove e out w.output_destroy
  · intro out l1 h1
    have h2 := heap_get_wl_list_remove e out w.output_destroy
    simp only at h1
    rw [h1] at h2
    cases hl : heap_get out w.output_destroy with
    | none => simp [hl] at h2
    | some l =>
      simp [hl] at h2
      subst h2
      simp [mem_unlink]
  · simp [heap_get_set_eq]
  · intro k hk
    simp [heap_get_set_ne k o.resource _ _ hk]
  · simp [heap_get_free_eq]
  · intro k hk
    simp [heap_get_free_ne k e _ hk]
  · simp [cm_output_handle_resource_destroy, cm_output_from_resource, heap_get_set_eq, hi,
      cm_output_destroy]
  · exact wl_resource_destroy_inert _ o.resource { res with user_data := none }
      (by simp [heap_get_set_eq]) rfl

/-- Delivering the destroy notification to a list of distinct live output
extensions: all of them, and only they, leave the heap and the lists; every
resource stays, with its user data cleared if it is the handle of one of them
and untouched otherwise. -/
theorem notify_all_output_destroy (ls : List Nat) :
    ∀ (w : World), ls.Nodup →
      (∀ l ∈ ls, ∃ o res, heap_get l w.cm_outputs = some o ∧
        heap_get o.resource w.resources = some res) →
      ∃ w1, notify_all cm_output_handle_output_destroy w ls = .ok w1 ∧
        (∀ k, heap_get k w1.cm_outputs = if k ∈ ls then none else heap_get k w.cm_outputs) ∧
        (∀ mp, heap_get mp w1.managers = (heap_get mp w.managers).map
          (fun m => { m with outputs := m.outputs.filter (fun x => decide (x ∉ ls)) })) ∧
        (∀ out, heap_get out w1.output_destroy = (heap_get out w.output_destroy).map
          (fun l => l.filter (fun x => decide (x ∉ ls)))) ∧
        (∀ r, (∀ l ∈ ls, ∀ o, heap_get l w.cm_outputs = some o → o.resource ≠ r) →
          heap_get r w1.resources = heap_get r w.resources) ∧
        (∀ r res, heap_get r w.resources = some res →
          heap_get r w1.resources = some res ∨
          heap_get r w1.resources = some { res with user_data := none }) ∧
        (∀ l ∈ ls, ∀ o res, heap_get l w.cm_outputs = some o →
          heap_get o.resource w.resources = some res →
          heap_get o.resource w1.resources = some { res with user_data := none }) ∧
        w1.events = w.events ∧ w1.errors = w.errors ∧ w1.cm_surfaces = w.cm_surfaces ∧
        w1.surface_feedbacks = w.surface_feedbacks ∧ w1.surface_addons = w.surface_addons ∧
        w1.surface_destroy = w.surface_destroy := by
  induction ls with
  | nil =>
    intro w _ _
    refine ⟨w, rfl, ?_, ?_, ?_, ?_, ?_, ?_, rfl, rfl, rfl, rfl, rfl, rfl⟩
    · intro k
      simp
    · intro mp
      cases heap_get mp w.managers <;> simp
    · intro out
      cases heap_get out w.output_destroy <;> simp
    · intro r _
      rfl
    · intro r res h
      exact Or.inl h
    · intro l hl
      simp at hl
  | cons l0 t ih =>
    intro w hnd hwf
    obtain ⟨hl0, hndt⟩ := List.nodup_cons.mp hnd
    obtain ⟨o0, res0, ho0, hr0⟩ := hwf l0 (List.mem_cons_self _ _)
    have hstep := cm_output_destroy_live w l0 o0 res0 ho0 hr0
    obtain ⟨wa, hwa⟩ : ∃ wa : World, wa = { w with
        resources := heap_set o0.resource { res0 with user_data := none } w.resources,
        output_destroy := wl_list_remove l0 w.output_destroy,
        managers := wl_list_remove_output l0 w.managers,
        cm_outputs := heap_free l0 w.cm_outputs } := ⟨_, rfl⟩
    rw [← hwa] at hstep
    have hc : ∀ k, k ≠ l0 → heap_get k wa.cm_outputs = heap_get k w.cm_outputs := by
      intro k hk
      rw [hwa]
      exact heap_get_free_ne k l0 _ hk
    have hc0 : heap_get l0 wa.cm_outputs = none := by
      rw [hwa]
      exact heap_get_free_eq _ _
    have hr1 : ∀ k, k ≠ o0.resource → heap_get k wa.resources = heap_get k w.resources := by
      intro k hk
      rw [hwa]
      exact heap_get_set_ne k o0.resource _ _ hk
    have hr2 : heap_get o0.resource wa.resources = some { res0 with user_data := none } := by
      rw [hwa]
      exact heap_get_set_eq _ _ _
    have hm : ∀ mp, heap_get mp wa.managers = (heap_get mp w.managers).map
        (fun m => { m with outputs := unlink l0 m.outputs }) := by
      intro mp
      rw [hwa]
      exact heap_get_wl_list_remove_output l0 mp w.managers
    have hl : ∀ out, heap_get out wa.output_destroy =
        (heap_get out w.output_destroy).map (unlink l0) := by
      intro out
      rw [hwa]
      exact heap_get_wl_list_remove l0 out w.output_destroy
    have hne : ∀ l ∈ t, l ≠ l0 := by
      intro l hlt h
      exact hl0 (h ▸ hlt)
    have hwf1 : ∀ l ∈ t, ∃ o res, heap_get l wa.cm_outputs = some o ∧
        heap_get o.resource wa.resources = some res := by
      intro l hlt
      obtain ⟨o, res, ho, hr⟩ := hwf l (List.mem_cons_of_mem _ hlt)
      by_cases hres : o.resource = o0.resource
      · exact ⟨o, _, by rw [hc l (hne l hlt), ho], by rw [hres, hr2]⟩
      · exact ⟨o, res, by rw [hc l (hne l hlt), ho], by rw [hr1 _ hres, hr]⟩
    obtain ⟨w1, hrun, hC, hM, hL, hG, hD, hE, e1, e2, e3, e4, e5, e6⟩ := ih wa hndt hwf1
    have hfilter : ∀ l : List Nat, (unlink l0 l).filter (fun x => decide (x ∉ t)) =
        l.filter (fun x => decide (x ∉ l0 :: t)) := by
      intro l
      unfold unlink
      rw [List.filter_filter]
      congr 1
      funext x
      by_cases h1 : x = l0 <;> by_cases h2 : x ∈ t <;> simp [h1, h2]
    refine ⟨w1, ?_, ?_, ?_, ?_, ?_, ?_, ?_, ?_, ?_, ?_, ?_, ?_, ?_⟩
    · simp only [notify_all, cm_output_handle_output_destroy, hstep]
      exact hrun
    · intro k
      rw [hC k]
      by_cases hk0 : k = l0
      · subst hk0
        simp [hl0, hc0]
      · by_cases hkt : k ∈ t
        · simp [hkt]
        · simp [hkt, hk0, hc k hk0]
    · intro mp
      rw [hM mp, hm mp]
      cases heap_get mp w.managers with
      | none => rfl
      | some m => simp only [Option.map_some', hfilter]
    · intro out
      rw [hL out, hl out]
      cases heap_get out w.output_destroy with
      | none => rfl
      | some l => simp only [Option.map_some', hfilter]
    · intro r hr
      have h0 : o0.resource ≠ r := hr l0 (List.mem_cons_self _ _) o0 ho0
      rw [hG r, hr1 r (Ne.symm h0)]
      intro l hlt o ho
      rw [hc l (hne l hlt)] at ho
      exact hr l (List.mem_cons_of_mem _ hlt) o ho
    · intro r res hres
      by_cases h0 : r = o0.resource
      · subst h0
        rw [hr0] at hres
        cases hres
        rcases hD o0.resource _ hr2 with h | h
        · exact Or.inr h
        · exact Or.inr h
      · rw [← hr1 r h0] at hres
        exact hD r res hres
    · intro l hlmem o res ho hres
      rcases List.mem_cons.mp hlmem with h0 | hlt
      · rw [h0, ho0] at ho
        have ho1 : o = o0 := (Option.some.inj ho).symm
        subst ho1
        rw [hr0] at hres
        have hres1 : res = res0 := (Option.some.inj hres).symm
        subst hres1
        rcases hD o.resource _ hr2 with h | h
        · exact h
        · exact h
      · have ho1 : heap_get l wa.cm_outputs = some o := by rw [hc l (hne l hlt), ho]
        by_cases h0 : o.resource = o0.resource
        · rw [h0, hr0] at hres
          have hres1 : res = res0 := (Option.some.inj hres).symm
          subst hres1
          have h0' : heap_get o.resource wa.resources =
              some { res with user_data := none } := by rw [h0, hr2]
          exact hE l hlt o { res with user_data := none } ho1 h0'
        · have hres1 : heap_get o.resource wa.resources = some res := by
            rw [hr1 _ h0, hres]
          exact hE l hlt o res ho1 hres1
    · rw [e1, hwa]
    · rw [e2, hwa]
    · rw [e3, hwa]
    · rw [e4, hwa]
    · rw [e5, hwa]
    · rw [e6, hwa]

/-- C8: destruction of a host output whose destroy listeners are the distinct
live output extensions `ls`. Each of them is taken out of the list `outputs` of
its manager and out of the listener lists, its handle is kept with the user data
cleared, and the extension is freed; when the client later releases such an
inert handle the destroy function runs with `NULL` and changes nothing, and only
the handle goes away. Extensions that do not listen on this output keep their
heap entry, their place in the lists and their handle. Moreover one
notification alone touches no extension but its own. -/
theorem output_destroyed_outcome (w : World) (output : Nat) (ls : List Nat)
    (hls : heap_get output w.output_destroy = some ls) (hnd : ls.Nodup)
    (hwf : ∀ l ∈ ls, ∃ o res, heap_get l w.cm_outputs = some o ∧
      heap_get o.resource w.resources = some res ∧
      res.iface = Interface.wp_color_management_output_v1) :
    ∃ w1, output_destroyed w output = .ok w1 ∧
      (∀ e ∈ ls, ∀ o res, heap_get e w.cm_outputs = some o →
        heap_get o.resource w.resources = some res →
        (∀ mp m1, heap_get mp w1.managers = some m1 → e ∉ m1.outputs) ∧
        (∀ out l1, heap_get out w1.output_destroy = some l1 → e ∉ l1) ∧
        heap_get o.resource w1.resources = some { res with user_data := none } ∧
        heap_get e w1.cm_outputs = none ∧
        cm_output_handle_resource_destroy w1 o.resource = .ok w1 ∧
        resource_handle_destroy w1 o.resource =
          .ok { w1 with resources := heap_free o.resource w1.resources }) ∧
      (∀ k, k ∉ ls → heap_get k w1.cm_outputs = heap_get k w.cm_outputs) ∧
      (∀ mp m, heap_get mp w.managers = some m →
        heap_get mp w1.managers =
          some { m with outputs := m.outputs.filter (fun x => decide (x ∉ ls)) }) ∧
      (∀ k, k ∉ ls → ∀ mp m, heap_get mp w.managers = some m →
        ∃ m1, heap_get mp w1.managers = some m1 ∧ (k ∈ m1.outputs ↔ k ∈ m.outputs)) ∧
      (∀ r, (∀ l ∈ ls, ∀ o, heap_get l w.cm_outputs = some o → o.resource ≠ r) →
        heap_get r w1.resources = heap_get r w.resources) ∧
      w1.events = w.events ∧ w1.errors = w.errors ∧
      (∀ e ∈ ls, ∃ w2, cm_output_handle_output_destroy w e = .ok w2 ∧
        heap_get e w2.cm_outputs = none ∧
        (∀ k, k ≠ e → heap_get k w2.cm_outputs = heap_get k w.cm_outputs) ∧
        (∀ mp m m2 k, heap_get mp w.managers = some m → heap_get mp w2.managers = some m2 →
          k ≠ e → (k ∈ m2.outputs ↔ k ∈ m.outputs))) := by
  have hwf1 : ∀ l ∈ ls, ∃ o res, heap_get l w.cm_outputs = some o ∧
      heap_get o.resource w.resources = some res := by
    intro l hl
    obtain ⟨o, res, h1, h2, _⟩ := hwf l hl
    exact ⟨o, res, h1, h2⟩
  obtain ⟨w1, hrun, hC, hM, hL, hG, hD, hE, e1, e2, _⟩ :=
    notify_all_output_destroy ls w hnd hwf1
  refine ⟨w1, ?_, ?_, ?_, ?_, ?_, hG, e1, e2, ?_⟩
  · simp [output_destroyed, hls, hrun]
  · intro e he o res ho hres
    obtain ⟨o1, res1, ho1, hres1, hi⟩ := hwf e he
    rw [ho] at ho1
    have hoo : o1 = o := (Option.some.inj ho1).symm
    subst hoo
    rw [hres] at hres1
    have hrr : res1 = res := (Option.some.inj hres1).symm
    subst hrr
    have hclear := hE e he o1 res1 ho hres
    refine ⟨?_, ?_, hclear, ?_, ?_, ?_⟩
    · intro mp m1 hm1
      rw [hM mp] at hm1
      cases hm : heap_get mp w.managers with
      | none => simp [hm] at hm1
      | some m =>
        simp [hm] at hm1
        subst hm1
        simp [he]
    · intro out l1 hl1
      rw [hL out] at hl1
      cases hl : heap_get out w.output_destroy with
      | none => simp [hl] at hl1
      | some l =>
        simp [hl] at hl1
        subst hl1
        simp [he]
    · rw [hC e]
      simp [he]
    · simp [cm_output_handle_resource_destroy, cm_output_from_resource, hclear, hi,
        cm_output_destroy]
    · exact wl_resource_destroy_inert w1 o1.resource _ hclear rfl
  · intro k hk
    rw [hC k]
    simp [hk]
  · intro mp m hm
    rw [hM mp, hm]
    rfl
  · intro k hk mp m hm
    refine ⟨_, by rw [hM mp, hm]; rfl, ?_⟩
    simp [hk]
  · intro e he
    obtain ⟨o, res, ho, hres, hi⟩ := hwf e he
    obtain ⟨w2, h2, _, _, hmem, _, _, _, _, hfree, hkeep, _⟩ :=
      cm_output_handle_output_destroy_effect w e o res ho hres hi
    exact ⟨w2, h2, hfree, hkeep, hmem⟩

/-- C8 at the sample state: output 200 carries the extensions 6 and 8; after
its destruction both are gone from the heap and from the list of the manager,
their handles 7 and 9 are inert, and extension 10 of output 201 is as before. -/
theorem output_destroyed_outcome_witness :
    ∃ w1, output_destroyed sample_world 200 = .ok w1 ∧
      heap_get 6 w1.cm_outputs = none ∧
      heap_get 7 w1.resources =
        some { client := 10, id := 5, iface := Interface.wp_color_management_output_v1,
               version := 1, user_data := none } ∧
      heap_get 10 w1.cm_outputs = some { resource := 11, output := none } ∧
      heap_get 1 w1.managers =
        some { global := 2, features := no_features, render_intents := [0, 1],
               transfer_functions := [9, 11], primaries := [1, 6], outputs := [10] } := by
  have hwf : ∀ l ∈ [6, 8], ∃ o res, heap_get l sample_world.cm_outputs = some o ∧
      heap_get o.resource sample_world.resources = some res ∧
      res.iface = Interface.wp_color_management_output_v1 := by
    intro l hl
    simp only [List.mem_cons, List.mem_singleton, List.not_mem_nil, or_false] at hl
    rcases hl with h | h <;> subst h <;> exact ⟨_, _, rfl, rfl, rfl⟩
  obtain ⟨w1, h1, hext, hother, hman, _⟩ :=
    output_destroyed_outcome sample_world 200 [6, 8] rfl (by decide) hwf
  obtain ⟨_, _, h7, h6, _⟩ := hext 6 (by decide) _ _ rfl rfl
  exact ⟨w1, h1, h6, h7, (hother 10 (by decide)).trans rfl, (hman 1 _ rfl).trans rfl⟩

/-! ### Destruction of surface extensions -/

/-- The effect of `surface_feedback_destroy` on a live feedback object. -/
theorem surface_feedback_destroy_live (w : World) (e : Nat)
    (f : wlr_color_management_surface_feedback_v1) (res : wl_resource)
    (he : heap_get e w.surface_feedbacks = some f)
    (hres : heap_get f.resource w.resources = some res) :
    surface_feedback_destroy w (some e) =
      .ok { w with
        resources := heap_set f.resource { res with user_data := none } w.resources,
        surface_destroy := wl_list_remove e w.surface_destroy,
        surface_feedbacks := heap_free e w.surface_feedbacks } := by
  simp [surface_feedback_destroy, he, wl_resource_set_user_data, hres]

/-- Delivering the destroy notification of a surface to a list of distinct live
feedback objects: surface extensions, attachment slots, managers and output
extensions are not touched, and every resource stays, changed at most in the
user data if it is the handle of one of the feedback objects. -/
theorem notify_all_feedback_destroy (ls : List Nat) :
    ∀ (w : World), ls.Nodup →
      (∀ l ∈ ls, ∃ f res, heap_get l w.surface_feedbacks = some f ∧
        heap_get f.resource w.resources = some res) →
      ∃ w1, notify_all surface_feedback_handle_surface_destroy w ls = .ok w1 ∧
        (∀ k, heap_get k w1.surface_feedbacks =
          if k ∈ ls then none else heap_get k w.surface_feedbacks) ∧
        (∀ r, (∀ l ∈ ls, ∀ f, heap_get l w.surface_feedbacks = some f → f.resource ≠ r) →
          heap_get r w1.resources = heap_get r w.resources) ∧
        (∀ r res, heap_get r w.resources = some res →
          heap_get r w1.resources = some res ∨
          heap_get r w1.resources = some { res with user_data := none }) ∧
        w1.cm_surfaces = w.cm_surfaces ∧ w1.surface_addons = w.surface_addons ∧
        w1.managers = w.managers ∧ w1.cm_outputs = w.cm_outputs ∧
        w1.output_destroy = w.output_destroy ∧ w1.events = w.events ∧
        w1.errors = w.errors ∧ w1.next = w.next := by
  induction ls with
  | nil =>
    intro w _ _
    refine ⟨w, rfl, ?_, ?_, ?_, rfl, rfl, rfl, rfl, rfl, rfl, rfl, rfl⟩
    · intro k
      simp
    · intro r _
      rfl
    · intro r res h
      exact Or.inl h
  | cons l0 t ih =>
    intro w hnd hwf
    obtain ⟨hl0, hndt⟩ := List.nodup_cons.mp hnd
    obtain ⟨f0, res0, hf0, hr0⟩ := hwf l0 (List.mem_cons_self _ _)
    have hstep := surface_feedback_destroy_live w l0 f0 res0 hf0 hr0
    obtain ⟨wa, hwa⟩ : ∃ wa : World, wa = { w with
        resources := heap_set f0.resource { res0 with user_data := none } w.resources,
        surface_destroy := wl_list_remove l0 w.surface_destroy,
        surface_feedbacks := heap_free l0 w.surface_feedbacks } := ⟨_, rfl⟩
    rw [← hwa] at hstep
    have hc : ∀ k, k ≠ l0 → heap_get k wa.surface_feedbacks = heap_get k w.surface_feedbacks := by
      intro k hk
      rw [hwa]
      exact heap_get_free_ne k l0 _ hk
    have hc0 : heap_get l0 wa.surface_feedbacks = none := by
      rw [hwa]
      exact heap_get_free_eq _ _
    have hr1 : ∀ k, k ≠ f0.resource → heap_get k wa.resources = heap_get k w.resources := by
      intro k hk
      rw [hwa]
      exact heap_get_set_ne k f0.resource _ _ hk
    have hr2 : heap_get f0.resource wa.resources = some { res0 with user_data := none } := by
      rw [hwa]
      exact heap_get_set_eq _ _ _
    have hne : ∀ l ∈ t, l ≠ l0 := by
      intro l hlt h
      exact hl0 (h ▸ hlt)
    have hwf1 : ∀ l ∈ t, ∃ f res, heap_get l wa.surface_feedbacks = some f ∧
        heap_get f.resource wa.resources = some res := by
      intro l hlt
      obtain ⟨f, res, hf, hr⟩ := hwf l (List.mem_cons_of_mem _ hlt)
      by_cases hres : f.resource = f0.resource
      · exact ⟨f, _, by rw [hc l (hne l hlt), hf], by rw [hres, hr2]⟩
      · exact ⟨f, res, by rw [hc l (hne l hlt), hf], by rw [hr1 _ hres, hr]⟩
    obtain ⟨w1, hrun, hC, hG, hD, e1, e2, e3, e4, e5, e6, e7, e8⟩ := ih wa hndt hwf1
    refine ⟨w1, ?_, ?_, ?_, ?_, ?_, ?_, ?_, ?_, ?_, ?_, ?_, ?_⟩
    · simp only [notify_all, surface_feedback_handle_surface_destroy, hstep]
      exact hrun
    · intro k
      rw [hC k]
      by_cases hk0 : k = l0
      · subst hk0
        simp [hl0, hc0]
      · by_cases hkt : k ∈ t
        · simp [hkt]
        · simp [hkt, hk0, hc k hk0]
    · intro r hr
      have h0 : f0.resource ≠ r := hr l0 (List.mem_cons_self _ _) f0 hf0
      rw [hG r, hr1 r (Ne.symm h0)]
      intro l hlt f hf
      rw [hc l (hne l hlt)] at hf
      exact hr l (List.mem_cons_of_mem _ hlt) f hf
    · intro r res hres
      by_cases h0 : r = f0.resource
      · subst h0
        rw [hr0] at hres
        have hres1 : res = res0 := (Option.some.inj hres).symm
        subst hres1
        rcases hD f0.resource _ hr2 with h | h
        · exact Or.inr h
        · exact Or.inr h
      · rw [← hr1 r h0] at hres
        exact hD r res hres
    · rw [e1, hwa]
    · rw [e2, hwa]
    · rw [e3, hwa]
    · rw [e4, hwa]
    · rw [e5, hwa]
    · rw [e6, hwa]
    · rw [e7, hwa]
    · rw [e8, hwa]

/-- The effect of `cm_surface_destroy` on a live extension. -/
theorem cm_surface_destroy_live (w : World) (p : Nat) (s : wlr_color_management_surface_v1)
    (res : wl_resource) (hs : heap_get p w.cm_surfaces = some s)
    (hres : heap_get s.resource w.resources = some res) :
    cm_surface_destroy w (some p) =
      .ok { w with
        resources := heap_set s.resource { res with user_data := none } w.resources,
        surface_addons :=
          w.surface_addons.map (fun e => (e.1, if e.2 = some p then none else e.2)),
        cm_surfaces := heap_free p w.cm_surfaces } := by
  simp [cm_surface_destroy, hs, wl_resource_set_user_data, hres, wlr_addon_finish]

/-- A slot that held the extension `p` is empty after `wlr_addon_finish`. -/
theorem wlr_addon_find_finished (w w1 : World) (p surface : Nat)
    (h1 : w1.surface_addons =
      w.surface_addons.map (fun e => (e.1, if e.2 = some p then none else e.2)))
    (hslot : wlr_addon_find w surface = some p) : wlr_addon_find w1 surface = none := by
  unfold wlr_addon_find at hslot ⊢
  rw [h1, heap_get_map (fun v : Option Nat => if v = some p then none else v) surface
    w.surface_addons]
  cases h : heap_get surface w.surface_addons with
  | none => simp [h] at hslot
  | some v =>
    cases v with
    | none => simp [h] at hslot
    | some a =>
      simp [h] at hslot
      subst hslot
      simp

/-- The requests `set_image_description` and `unset_image_description` on an
inert surface-extension handle. -/
theorem surface_requests_inert (w : World) (r : Nat) (res : wl_resource)
    (hr : heap_get r w.resources = some res)
    (hi : res.iface = Interface.wp_color_management_surface_v1)
    (hu : res.user_data = none) :
    (∀ image_desc render_intent,
      cm_surface_handle_set_image_description w r image_desc render_intent =
        .ok { w with errors := w.errors ++
          [PostedError.resource_error r WP_COLOR_MANAGEMENT_SURFACE_V1_ERROR_INERT
            "set_image_description cannot be sent on an inert object"] }) ∧
    cm_surface_handle_unset_image_description w r =
      .ok { w with errors := w.errors ++
        [PostedError.resource_error r WP_COLOR_MANAGEMENT_SURFACE_V1_ERROR_INERT
          "set_image_description cannot be sent on an inert object"] } := by
  constructor
  · intro image_desc render_intent
    simp [cm_surface_handle_set_image_description, cm_surface_from_resource, hr, hi, hu,
      wl_resource_post_error]
  · simp [cm_surface_handle_unset_image_description, cm_surface_from_resource, hr, hi, hu,
      wl_resource_post_error]

theorem wlr_addon_find_congr (w w1 : World) (surface : Nat)
    (h : w1.surface_addons = w.surface_addons) :
    wlr_addon_find w1 surface = wlr_addon_find w surface := by
  simp [wlr_addon_find, h]

/-- With an empty slot and successful allocations `get_surface` posts no error
and puts the new extension into the slot. -/
theorem get_surface_after_destroy (w : World) (surface : Nat)
    (hslot : wlr_addon_find w surface = none) :
    ∀ (client r id : Nat) (mres : wl_resource), heap_get r w.resources = some mres →
      mres.iface = Interface.wp_color_manager_v1 →
      ∃ w2, manager_handle_get_surface w client r id surface true true = .ok w2 ∧
        w2.errors = w.errors ∧ wlr_addon_find w2 surface = some w.next := by
  intro client r id mres hr hi
  refine ⟨_, get_surface_empty_slot w client r id surface true true mres hr hi hslot, rfl, ?_⟩
  simp [wlr_addon_find, heap_get_set_eq]

/-- C9: a live surface extension `p` with handle `s.resource`, sitting in the
slot of its surface. (a) When the client releases the handle, the slot is
emptied, the extension is freed and the handle is gone; a later `get_surface`
on the surface succeeds, and the later destruction of the surface finds no
extension to destroy. (b) When the host surface is destroyed, the slot is
emptied, the extension is freed and the handle stays with its user data
cleared; a later `get_surface` succeeds; the later release of the handle runs
the destroy function with `NULL`, which changes nothing, and only the handle
goes away; every `set_image_description` and `unset_image_description` on the
handle posts "inert" and does nothing else. (c) On the live extension
`unset_image_description` posts no error and changes nothing. -/
theorem surface_destroy_outcome (w : World) (p : Nat) (s : wlr_color_management_surface_v1)
    (res : wl_resource) (fls : List Nat)
    (hs : heap_get p w.cm_surfaces = some s)
    (hres : heap_get s.resource w.resources = some res)
    (hi : res.iface = Interface.wp_color_management_surface_v1)
    (hu : res.user_data = some p)
    (hslot : wlr_addon_find w s.surface = some p)
    (hfl : (heap_get s.surface w.surface_destroy).getD [] = fls)
    (hfnd : fls.Nodup)
    (hfwf : ∀ l ∈ fls, ∃ f fres, heap_get l w.surface_feedbacks = some f ∧
      heap_get f.resource w.resources = some fres ∧ f.resource ≠ s.resource) :
    (∃ w1, resource_handle_destroy w s.resource = .ok w1 ∧
      wlr_addon_find w1 s.surface = none ∧ heap_get p w1.cm_surfaces = none ∧
      heap_get s.resource w1.resources = none ∧
      w1.errors = w.errors ∧ w1.events = w.events ∧
      (∀ (client r id : Nat) (mres : wl_resource), heap_get r w1.resources = some mres →
        mres.iface = Interface.wp_color_manager_v1 →
        ∃ w2, manager_handle_get_surface w1 client r id s.surface true true = .ok w2 ∧
          w2.errors = w1.errors ∧ wlr_addon_find w2 s.surface = some w1.next) ∧
      (∃ w2, surface_destroyed w1 s.surface = .ok w2 ∧ w2.cm_surfaces = w1.cm_surfaces ∧
        w2.surface_addons = w1.surface_addons ∧ heap_get s.resource w2.resources = none ∧
        w2.errors = w1.errors ∧ w2.events = w1.events)) ∧
    (∃ w1, surface_destroyed w s.surface = .ok w1 ∧
      wlr_addon_find w1 s.surface = none ∧ heap_get p w1.cm_surfaces = none ∧
      heap_get s.resource w1.resources = some { res with user_data := none } ∧
      w1.errors = w.errors ∧ w1.events = w.events ∧
      (∀ (client r id : Nat) (mres : wl_resource), heap_get r w1.resources = some mres →
        mres.iface = Interface.wp_color_manager_v1 →
        ∃ w2, manager_handle_get_surface w1 client r id s.surface true true = .ok w2 ∧
          w2.errors = w1.errors ∧ wlr_addon_find w2 s.surface = some w1.next) ∧
      cm_surface_handle_resource_destroy w1 s.resource = .ok w1 ∧
      resource_handle_destroy w1 s.resource =
        .ok { w1 with resources := heap_free s.resource w1.resources } ∧
      (∀ image_desc render_intent,
        cm_surface_handle_set_image_description w1 s.resource image_desc render_intent =
          .ok { w1 with errors := w1.errors ++
            [PostedError.resource_error s.resource WP_COLOR_MANAGEMENT_SURFACE_V1_ERROR_INERT
              "set_image_description cannot be sent on an inert object"] }) ∧
      cm_surface_handle_unset_image_description w1 s.resource =
        .ok { w1 with errors := w1.errors ++
          [PostedError.resource_error s.resource WP_COLOR_MANAGEMENT_SURFACE_V1_ERROR_INERT
            "set_image_description cannot be sent on an inert object"] }) ∧
    cm_surface_handle_unset_image_description w s.resource = .ok w := by
  have hfwf0 : ∀ l ∈ fls, ∃ f fres, heap_get l w.surface_feedbacks = some f ∧
      heap_get f.resource w.resources = some fres := by
    intro l hl
    obtain ⟨f, fres, h1, h2, _⟩ := hfwf l hl
    exact ⟨f, fres, h1, h2⟩
  have hfne : ∀ l ∈ fls, ∀ f, heap_get l w.surface_feedbacks = some f →
      f.resource ≠ s.resource := by
    intro l hl f hf
    obtain ⟨f1, _, h1, _, h3⟩ := hfwf l hl
    rw [hf] at h1
    rw [Option.some.inj h1]
    exact h3
  refine ⟨?_, ?_, ?_⟩
  · -- client release
    have hrel : resource_handle_destroy w s.resource =
        .ok { w with
          resources := heap_free s.resource
            (heap_set s.resource { res with user_data := none } w.resources),
          surface_addons :=
            w.surface_addons.map (fun e => (e.1, if e.2 = some p then none else e.2)),
          cm_surfaces := heap_free p w.cm_surfaces } := by
      have hd := cm_surface_destroy_live w p s res hs hres
      simp [resource_handle_destroy, wl_resource_destroy, hres, hi,
        cm_surface_handle_resource_destroy, cm_surface_from_resource, hu, hd]
    obtain ⟨w1, hw1⟩ : ∃ w1 : World, w1 = { w with
          resources := heap_free s.resource
            (heap_set s.resource { res with user_data := none } w.resources),
          surface_addons :=
            w.surface_addons.map (fun e => (e.1, if e.2 = some p then none else e.2)),
          cm_surfaces := heap_free p w.cm_surfaces } := ⟨_, rfl⟩
    rw [← hw1] at hrel
    have hslot1 : wlr_addon_find w1 s.surface = none :=
      wlr_addon_find_finished w w1 p s.surface (by rw [hw1]) hslot
    have hgone : heap_get s.resource w1.resources = none := by
      rw [hw1]
      exact heap_get_free_eq _ _
    have hfwf1 : ∀ l ∈ fls, ∃ f fres, heap_get l w1.surface_feedbacks = some f ∧
        heap_get f.resource w1.resources = some fres := by
      intro l hl
      obtain ⟨f, fres, h1, h2, h3⟩ := hfwf l hl
      refine ⟨f, fres, by rw [hw1]; exact h1, ?_⟩
      rw [hw1]
      simp only
      rw [heap_get_free_ne _ _ _ h3, heap_get_set_ne _ _ _ _ h3, h2]
    obtain ⟨w2, hrun, _, hG, _, e1, e2, _, _, _, e6, e7, _⟩ :=
      notify_all_feedback_destroy fls w1 hfnd hfwf1
    refine ⟨w1, hrel, hslot1, ?_, hgone, by rw [hw1], by rw [hw1],
      get_surface_after_destroy w1 s.surface hslot1, w2, ?_, e1, e2, ?_, e7, e6⟩
    · rw [hw1]
      exact heap_get_free_eq _ _
    · have hl1 : (heap_get s.surface w1.surface_destroy).getD [] = fls := by
        rw [hw1]
        exact hfl
      have hslot2 : wlr_addon_find w2 s.surface = none := by
        rw [wlr_addon_find_congr w1 w2 s.surface e2, hslot1]
      simp [surface_destroyed, hl1, hrun, hslot2]
    · rw [hG s.resource, hgone]
      intro l hl f hf
      have hf0 : heap_get l w.surface_feedbacks = some f := by
        rw [hw1] at hf
        exact hf
      exact hfne l hl f hf0
  · -- destruction of the host surface
    obtain ⟨wf, hrun, _, hG, _, e1, e2, _, _, _, e6, e7, _⟩ :=
      notify_all_feedback_destroy fls w hfnd hfwf0
    have hs1 : heap_get p wf.cm_surfaces = some s := by rw [e1, hs]
    have hres1 : heap_get s.resource wf.resources = some res := by
      rw [hG s.resource hfne, hres]
    have hslotf : wlr_addon_find wf s.surface = some p := by
      rw [wlr_addon_find_congr w wf s.surface e2, hslot]
    have hd := cm_surface_destroy_live wf p s res hs1 hres1
    obtain ⟨w1, hw1⟩ : ∃ w1 : World, w1 = { wf with
        resources := heap_set s.resource { res with user_data := none } wf.resources,
        surface_addons :=
          wf.surface_addons.map (fun e => (e.1, if e.2 = some p then none else e.2)),
        cm_surfaces := heap_free p wf.cm_surfaces } := ⟨_, rfl⟩
    rw [← hw1] at hd
    have hrun1 : surface_destroyed w s.surface = .ok w1 := by
      simp [surface_destroyed, hfl, hrun, hslotf, cm_surface_handle_addon_destroy, hd]
    have hslot1 : wlr_addon_find w1 s.surface = none :=
      wlr_addon_find_finished wf w1 p s.surface (by rw [hw1]) hslotf
    have hinert : heap_get s.resource w1.resources = some { res with user_data := none } := by
      rw [hw1]
      exact heap_get_set_eq _ _ _
    obtain ⟨hset, hunset⟩ := surface_requests_inert w1 s.resource _ hinert hi rfl
    refine ⟨w1, hrun1, hslot1, ?_, hinert, by rw [hw1]; exact e7, by rw [hw1]; exact e6,
      get_surface_after_destroy w1 s.surface hslot1, ?_, ?_, hset, hunset⟩
    · rw [hw1]
      exact heap_get_free_eq _ _
    · simp [cm_surface_handle_resource_destroy, cm_surface_from_resource, hinert, hi,
        cm_surface_destroy]
    · exact wl_resource_destroy_inert w1 s.resource _ hinert rfl
  · simp [cm_surface_handle_unset_image_description, cm_surface_from_resource, hres, hi, hu]

/-- C9 at the sample state: the extension 4 of surface 100 with the handle 5.
After the destruction of the surface the slot is empty, and both requests on
the handle are answered with "inert"; after a release by the client the handle
is gone and the slot is empty as well. -/
theorem surface_destroy_outcome_witness :
    (∃ w1, resource_handle_destroy sample_world 5 = .ok w1 ∧
      wlr_addon_find w1 100 = none ∧ heap_get 4 w1.cm_surfaces = none ∧
      heap_get 5 w1.resources = none) ∧
    (∃ w1, surface_destroyed sample_world 100 = .ok w1 ∧ wlr_addon_find w1 100 = none ∧
      cm_surface_handle_set_image_description w1 5 14 0 =
        .ok { w1 with errors := w1.errors ++
          [PostedError.resource_error 5 WP_COLOR_MANAGEMENT_SURFACE_V1_ERROR_INERT
            "set_image_description cannot be sent on an inert object"] } ∧
      cm_surface_handle_unset_image_description w1 5 =
        .ok { w1 with errors := w1.errors ++
          [PostedError.resource_error 5 WP_COLOR_MANAGEMENT_SURFACE_V1_ERROR_INERT
            "set_image_description cannot be sent on an inert object"] }) ∧
    cm_surface_handle_unset_image_description sample_world 5 = .ok sample_world := by
  have hfwf : ∀ l ∈ [12], ∃ f fres, heap_get l sample_world.surface_feedbacks = some f ∧
      heap_get f.resource sample_world.resources = some fres ∧ f.resource ≠ 5 := by
    intro l hl
    simp only [List.mem_singleton] at hl
    subst hl
    exact ⟨_, _, rfl, rfl, by decide⟩
  obtain ⟨ha, hb, hc⟩ := surface_destroy_outcome sample_world 4
    { resource := 5, surface := 100, manager := some 1 } _ [12] rfl rfl rfl rfl rfl rfl
    (by decide) hfwf
  obtain ⟨w1, h1, h2, h3, h4, _⟩ := ha
  obtain ⟨w2, g1, g2, _, _, _, _, _, _, _, g3, g4⟩ := hb
  exact ⟨⟨w1, h1, h2, h3, h4⟩, ⟨w2, g1, g2, g3 14 0, g4⟩, hc⟩

/-! ### Feedback channels and surface extensions -/

/-- The outcome of `manager_handle_get_surface_feedback` for every result of the
two allocations. -/
theorem get_surface_feedback_eq (w : World) (client r id surface : Nat)
    (calloc_ok resource_ok : Bool) (res : wl_resource)
    (hr : heap_get r w.resources = some res) :
    manager_handle_get_surface_feedback w client r id surface calloc_ok resource_ok =
      .ok (if calloc_ok = false then
          { w with errors := w.errors ++ [PostedError.no_memory client] }
        else if resource_ok = false then
          { w with next := w.next + 1,
                   errors := w.errors ++ [PostedError.no_memory client] }
        else
          { w with
            next := w.next + 1 + 1,
            resources := heap_set (w.next + 1)
              { client := client, id := id,
                iface := Interface.wp_color_management_surface_feedback_v1,
                version := res.version, user_data := some w.next } w.resources,
            surface_feedbacks := heap_set w.next
              { resource := w.next + 1, surface := surface } w.surface_feedbacks,
            surface_destroy := wl_signal_add surface w.next w.surface_destroy }) := by
  cases calloc_ok <;> cases resource_ok <;>
    simp [manager_handle_get_surface_feedback, calloc, wl_client_post_no_memory,
      wl_resource_get_version, hr, wl_resource_create]

/-- The listeners of every signal are kept, in order, by `wl_signal_add`; the
new listener is put behind those of its host. -/
theorem heap_get_wl_signal_add (host listener k : Nat) (ls : List (Nat × List Nat)) :
    heap_get k (wl_signal_add host listener ls) =
      if k = host then some ((heap_get host ls).getD [] ++ [listener]) else heap_get k ls := by
  unfold wl_signal_add
  by_cases hk : k = host
  · subst hk
    simp [heap_get_set_eq]
  · simp [hk, heap_get_set_ne k host _ _ hk]

/-- Two states with the same attachment slots and the same manager binding give
`get_surface` the same outcome: the same errors are posted, and either nothing
is attached in both or an extension with the same manager and surface is
attached in both. -/
theorem get_surface_same_outcome (w w1 : World) (client r id surface : Nat)
    (calloc_ok resource_ok : Bool) (mres : wl_resource)
    (hadd : w1.surface_addons = w.surface_addons)
    (hr : heap_get r w.resources = some mres) (hr1 : heap_get r w1.resources = some mres)
    (hi : mres.iface = Interface.wp_color_manager_v1) :
    ∃ w2 w3,
      manager_handle_get_surface w client r id surface calloc_ok resource_ok = .ok w2 ∧
      manager_handle_get_surface w1 client r id surface calloc_ok resource_ok = .ok w3 ∧
      (∃ errs, w2.errors = w.errors ++ errs ∧ w3.errors = w1.errors ++ errs) ∧
      w2.events = w.events ∧ w3.events = w1.events ∧
      ((wlr_addon_find w2 surface = wlr_addon_find w surface ∧
          wlr_addon_find w3 surface = wlr_addon_find w surface ∧
          w2.cm_surfaces = w.cm_surfaces ∧ w3.cm_surfaces = w1.cm_surfaces) ∨
        (wlr_addon_find w surface = none ∧
          ∃ e2 e3 r2 r3, wlr_addon_find w2 surface = some e2 ∧
            wlr_addon_find w3 surface = some e3 ∧
            heap_get e2 w2.cm_surfaces =
              some { resource := r2, surface := surface, manager := mres.user_data } ∧
            heap_get e3 w3.cm_surfaces =
              some { resource := r3, surface := surface, manager := mres.user_data })) := by
  have hfind1 : wlr_addon_find w1 surface = wlr_addon_find w surface :=
    wlr_addon_find_congr w w1 surface hadd
  cases hfind : wlr_addon_find w surface with
  | some e =>
    rw [hfind] at hfind1
    refine ⟨_, _, get_surface_attached w client r id surface calloc_ok resource_ok mres hr hi
        e hfind,
      get_surface_attached w1 client r id surface calloc_ok resource_ok mres hr1 hi e hfind1,
      ⟨_, rfl, rfl⟩, rfl, rfl, Or.inl ⟨?_, ?_, rfl, rfl⟩⟩
    · exact (wlr_addon_find_congr w _ surface rfl).trans hfind
    · exact (wlr_addon_find_congr w1 _ surface rfl).trans hfind1
  | none =>
    rw [hfind] at hfind1
    have h2 := get_surface_empty_slot w client r id surface calloc_ok resource_ok mres hr hi
      hfind
    have h3 := get_surface_empty_slot w1 client r id surface calloc_ok resource_ok mres hr1 hi
      hfind1
    cases calloc_ok
    · simp only [if_true] at h2 h3
      refine ⟨_, _, h2, h3, ⟨_, rfl, rfl⟩, rfl, rfl, Or.inl ⟨?_, ?_, rfl, rfl⟩⟩
      · exact (wlr_addon_find_congr w _ surface rfl).trans hfind
      · exact (wlr_addon_find_congr w1 _ surface rfl).trans hfind1
    · cases resource_ok
      · simp only [Bool.true_eq_false, if_false, if_true] at h2 h3
        refine ⟨_, _, h2, h3, ⟨_, rfl, rfl⟩, rfl, rfl, Or.inl ⟨?_, ?_, rfl, rfl⟩⟩
        · exact (wlr_addon_find_congr w _ surface rfl).trans hfind
        · exact (wlr_addon_find_congr w1 _ surface rfl).trans hfind1
      · simp only [Bool.true_eq_false, if_false] at h2 h3
        refine ⟨_, _, h2, h3, ⟨[], by simp, by simp⟩, rfl, rfl,
          Or.inr ⟨rfl, w.next, w1.next, w.next + 1, w1.next + 1, ?_, ?_, ?_, ?_⟩⟩
        · simp [wlr_addon_find, heap_get_set_eq]
        · simp [wlr_addon_find, heap_get_set_eq]
        · simp [heap_get_set_eq]
        · simp [heap_get_set_eq]

/-- C11: `get_surface_feedback` posts no error but "no memory", and with
successful allocations it creates the feedback object, its handle and its
destroy listener, whatever extension or feedback objects the surface already
has. It changes no attachment slot, no surface extension and no existing
resource, so a later `get_surface` has the same outcome in the state after the
request as in the state before it. Conversely `get_surface` and the destruction
of a surface extension, by the destroy callback of the surface or by a release
of the handle, change no feedback object, no listener list of a surface and no
other resource. -/
theorem surface_feedback_independent (w : World) (client r id surface : Nat)
    (calloc_ok resource_ok : Bool) (res : wl_resource)
    (hr : heap_get r w.resources = some res)
    (hfresh : heap_get (w.next + 1) w.resources = none) :
    (∃ w1,
      manager_handle_get_surface_feedback w client r id surface calloc_ok resource_ok =
        .ok w1 ∧
      (w1.errors = w.errors ∨ w1.errors = w.errors ++ [PostedError.no_memory client]) ∧
      (calloc_ok = true → resource_ok = true →
        w1.errors = w.errors ∧
        heap_get w.next w1.surface_feedbacks =
          some { resource := w.next + 1, surface := surface } ∧
        heap_get (w.next + 1) w1.resources =
          some { client := client, id := id,
                 iface := Interface.wp_color_management_surface_feedback_v1,
                 version := res.version, user_data := some w.next } ∧
        heap_get surface w1.surface_destroy =
          some ((heap_get surface w.surface_destroy).getD [] ++ [w.next])) ∧
      w1.surface_addons = w.surface_addons ∧ w1.cm_surfaces = w.cm_surfaces ∧
      (∀ k, wlr_addon_find w1 k = wlr_addon_find w k) ∧
      (∀ k rk, heap_get k w.resources = some rk → heap_get k w1.resources = some rk) ∧
      (∀ (client2 r2 id2 : Nat) (c2 k2 : Bool) (mres : wl_resource),
        heap_get r2 w.resources = some mres → mres.iface = Interface.wp_color_manager_v1 →
        ∃ w2 w3,
          manager_handle_get_surface w client2 r2 id2 surface c2 k2 = .ok w2 ∧
          manager_handle_get_surface w1 client2 r2 id2 surface c2 k2 = .ok w3 ∧
          (∃ errs, w2.errors = w.errors ++ errs ∧ w3.errors = w1.errors ++ errs) ∧
          w2.events = w.events ∧ w3.events = w1.events ∧
          ((wlr_addon_find w2 surface = wlr_addon_find w surface ∧
              wlr_addon_find w3 surface = wlr_addon_find w surface ∧
              w2.cm_surfaces = w.cm_surfaces ∧ w3.cm_surfaces = w1.cm_surfaces) ∨
            (wlr_addon_find w surface = none ∧
              ∃ e2 e3 r2 r3, wlr_addon_find w2 surface = some e2 ∧
                wlr_addon_find w3 surface = some e3 ∧
                heap_get e2 w2.cm_surfaces =
                  some { resource := r2, surface := surface, manager := mres.user_data } ∧
                heap_get e3 w3.cm_surfaces =
                  some { resource := r3, surface := surface,
                         manager := mres.user_data })))) ∧
    (∀ (client2 r2 id2 s2 : Nat) (c2 k2 : Bool) (mres : wl_resource),
      heap_get r2 w.resources = some mres → mres.iface = Interface.wp_color_manager_v1 →
      ∃ w2, manager_handle_get_surface w client2 r2 id2 s2 c2 k2 = .ok w2 ∧
        w2.surface_feedbacks = w.surface_feedbacks ∧
        w2.surface_destroy = w.surface_destroy ∧
        (∀ k rk, heap_get k w.resources = some rk → heap_get k w2.resources = some rk)) ∧
    (∀ (p : Nat) (s : wlr_color_management_surface_v1) (sres : wl_resource),
      heap_get p w.cm_surfaces = some s → heap_get s.resource w.resources = some sres →
      sres.iface = Interface.wp_color_management_surface_v1 → sres.user_data = some p →
      (∃ w2, cm_surface_handle_addon_destroy w p = .ok w2 ∧
        w2.surface_feedbacks = w.surface_feedbacks ∧
        w2.surface_destroy = w.surface_destroy ∧
        (∀ k, k ≠ s.resource → heap_get k w2.resources = heap_get k w.resources)) ∧
      (∃ w2, resource_handle_destroy w s.resource = .ok w2 ∧
        w2.surface_feedbacks = w.surface_feedbacks ∧
        w2.surface_destroy = w.surface_destroy ∧
        (∀ k, k ≠ s.resource → heap_get k w2.resources = heap_get k w.resources))) := by
  have hne : ∀ k rk, heap_get k w.resources = some rk → k ≠ w.next + 1 := by
    intro k rk hk h
    rw [h, hfresh] at hk
    exact Option.noConfusion hk
  refine ⟨?_, ?_, ?_⟩
  · have heq := get_surface_feedback_eq w client r id surface calloc_ok resource_ok res hr
    cases calloc_ok
    · simp only [if_true] at heq
      refine ⟨_, heq, Or.inr rfl, ?_, rfl, rfl, ?_, ?_, ?_⟩
      · intro h
        exact absurd h (by decide)
      · intro k
        exact wlr_addon_find_congr w _ k rfl
      · intro k rk hk
        exact hk
      · intro client2 r2 id2 c2 k2 mres hr2 hi2
        exact get_surface_same_outcome w _ client2 r2 id2 surface c2 k2 mres rfl hr2 hr2 hi2
    · cases resource_ok
      · simp only [Bool.true_eq_false, if_false, if_true] at heq
        refine ⟨_, heq, Or.inr rfl, ?_, rfl, rfl, ?_, ?_, ?_⟩
        · intro _ h
          exact absurd h (by decide)
        · intro k
          exact wlr_addon_find_congr w _ k rfl
        · intro k rk hk
          exact hk
        · intro client2 r2 id2 c2 k2 mres hr2 hi2
          exact get_surface_same_outcome w _ client2 r2 id2 surface c2 k2 mres rfl hr2 hr2 hi2
      · simp only [Bool.true_eq_false, if_false] at heq
        have hkeep : ∀ k rk, heap_get k w.resources = some rk →
            heap_get k (heap_set (w.next + 1)
              ({ client := client, id := id,
                 iface := Interface.wp_color_management_surface_feedback_v1,
                 version := res.version, user_data := some w.next } : wl_resource)
              w.resources) = some rk := by
          intro k rk hk
          rw [heap_get_set_ne k (w.next + 1) _ _ (hne k rk hk), hk]
        refine ⟨_, heq, Or.inl rfl, ?_, rfl, rfl, ?_, hkeep, ?_⟩
        · intro _ _
          refine ⟨rfl, ?_, ?_, ?_⟩
          · simp [heap_get_set_eq]
          · simp [heap_get_set_eq]
          · simp [heap_get_wl_signal_add]
        · intro k
          exact wlr_addon_find_congr w _ k rfl
        · intro client2 r2 id2 c2 k2 mres hr2 hi2
          exact get_surface_same_outcome w _ client2 r2 id2 surface c2 k2 mres rfl hr2
            (hkeep r2 mres hr2) hi2
  · intro client2 r2 id2 s2 c2 k2 mres hr2 hi2
    cases hfind : wlr_addon_find w s2 with
    | some e =>
      refine ⟨_, get_surface_attached w client2 r2 id2 s2 c2 k2 mres hr2 hi2 e hfind, rfl, rfl,
        ?_⟩
      intro k rk hk
      exact hk
    | none =>
      have h2 := get_surface_empty_slot w client2 r2 id2 s2 c2 k2 mres hr2 hi2 hfind
      cases c2
      · simp only [if_true] at h2
        exact ⟨_, h2, rfl, rfl, fun k rk hk => hk⟩
      · cases k2
        · simp only [Bool.true_eq_false, if_false, if_true] at h2
          exact ⟨_, h2, rfl, rfl, fun k rk hk => hk⟩
        · simp only [Bool.true_eq_false, if_false] at h2
          refine ⟨_, h2, rfl, rfl, ?_⟩
          intro k rk hk
          simp only
          rw [heap_get_set_ne k (w.next + 1) _ _ (hne k rk hk), hk]
  · intro p s sres hs hsres hi hu
    have hd := cm_surface_destroy_live w p s sres hs hsres
    constructor
    · refine ⟨_, hd, rfl, rfl, ?_⟩
      intro k hk
      simp only
      rw [heap_get_set_ne k s.resource _ _ hk]
    · refine ⟨{ w with
          resources := heap_free s.resource
            (heap_set s.resource { sres with user_data := none } w.resources),
          surface_addons :=
            w.surface_addons.map (fun e => (e.1, if e.2 = some p then none else e.2)),
          cm_surfaces := heap_free p w.cm_surfaces }, ?_, rfl, rfl, ?_⟩
      · simp [resource_handle_destroy, wl_resource_destroy, hsres, hi,
          cm_surface_handle_resource_destroy, cm_surface_from_resource, hu, hd]
      · intro k hk
        simp only
        rw [heap_get_free_ne k s.resource _ hk, heap_get_set_ne k s.resource _ _ hk]

/-- C11 at the sample state: surface 100 has the extension 4 and the feedback
object 12; a second feedback object is created for it at address 15 with the
handle 16, the slot still holds the extension 4, and `get_surface` on the
surface is refused before and after it in the same way. -/
theorem surface_feedback_independent_witness :
    ∃ w1, manager_handle_get_surface_feedback sample_world 10 3 21 100 true true = .ok w1 ∧
      w1.errors = [] ∧
      heap_get 15 w1.surface_feedbacks = some { resource := 16, surface := 100 } ∧
      heap_get 100 w1.surface_destroy = some [12, 15] ∧
      wlr_addon_find w1 100 = some 4 ∧
      ∃ w2 w3, manager_handle_get_surface sample_world 10 3 22 100 true true = .ok w2 ∧
        manager_handle_get_surface w1 10 3 22 100 true true = .ok w3 ∧
        ∃ errs, w2.errors = sample_world.errors ++ errs ∧ w3.errors = w1.errors ++ errs := by
  obtain ⟨⟨w1, h1, _, hok, _, _, hslot, _, hlater⟩, _, _⟩ :=
    surface_feedback_independent sample_world 10 3 21 100 true true _ rfl rfl
  obtain ⟨e1, e2, _, e4⟩ := hok rfl rfl
  obtain ⟨w2, w3, g2, g3, gerr, _⟩ := hlater 10 3 22 true true _ rfl rfl
  exact ⟨w1, h1, e1, e2, e4, (hslot 100).trans rfl, w2, w3, g2, g3, gerr⟩

/-! ### The lists `outputs` over sequences of requests -/

/-- A state without resources, managers and listeners satisfies the invariant
with no record. -/
theorem outputs_inv_blank (w : World) (hr : w.resources = []) (hm : w.managers = [])
    (hl : w.output_destroy = []) : outputs_inv w [] where
  res_fresh := by
    intro k res h
    simp [hr, heap_get] at h
  man_fresh := by
    intro k m h
    simp [hm, heap_get] at h
  rec_fresh := by
    intro x hx
    simp at hx
  ext_nodup := by simp
  res_nodup := by simp
  rec_ext := by
    intro x hx
    simp at hx
  rec_handle := by
    intro x hx
    simp at hx
  rec_list := by
    intro x hx
    simp at hx
  rec_listener := by
    intro x hx
    simp at hx
  list_rec := by
    intro mp m h
    simp [hm, heap_get] at h
  listener_rec := by
    intro o l h
    simp [hl, heap_get] at h
  handle_rec := by
    intro r res h
    simp [hr, heap_get] at h
  ifaces := by
    intro r res h
    simp [hr, heap_get] at h

/-- The invariant is kept when the state only grows by manager bindings and by
managers with an empty list, at unused addresses. -/
theorem outputs_inv_grow (w w1 : World) (g : List output_record) (hinv : outputs_inv w g)
    (hnext : w.next ≤ w1.next)
    (hR : ∀ r res1, heap_get r w1.resources = some res1 →
      heap_get r w.resources = some res1 ∨
      (r < w1.next ∧ res1.iface = Interface.wp_color_manager_v1))
    (hRold : ∀ r res, heap_get r w.resources = some res → heap_get r w1.resources = some res)
    (hM : ∀ mp m1, heap_get mp w1.managers = some m1 →
      heap_get mp w.managers = some m1 ∨ (mp < w1.next ∧ m1.outputs = []))
    (hMold : ∀ mp m, heap_get mp w.managers = some m → heap_get mp w1.managers = some m)
    (hout : w1.cm_outputs = w.cm_outputs) (hl : w1.output_destroy = w.output_destroy) :
    outputs_inv w1 g where
  res_fresh := by
    intro k res h
    rcases hR k res h with h1 | ⟨h1, _⟩
    · exact Nat.lt_of_lt_of_le (hinv.res_fresh k res h1) hnext
    · exact h1
  man_fresh := by
    intro k m h
    rcases hM k m h with h1 | ⟨h1, _⟩
    · exact Nat.lt_of_lt_of_le (hinv.man_fresh k m h1) hnext
    · exact h1
  rec_fresh := by
    intro x hx
    obtain ⟨h1, h2⟩ := hinv.rec_fresh x hx
    exact ⟨Nat.lt_of_lt_of_le h1 hnext, Nat.lt_of_lt_of_le h2 hnext⟩
  ext_nodup := hinv.ext_nodup
  res_nodup := hinv.res_nodup
  rec_ext := by
    intro x hx
    rw [hout]
    exact hinv.rec_ext x hx
  rec_handle := by
    intro x hx
    obtain ⟨res, h1, h2, h3⟩ := hinv.rec_handle x hx
    exact ⟨res, hRold _ _ h1, h2, h3⟩
  rec_list := by
    intro x hx
    obtain ⟨m, h1, h2⟩ := hinv.rec_list x hx
    exact ⟨m, hMold _ _ h1, h2⟩
  rec_listener := by
    intro x hx
    rw [hl]
    exact hinv.rec_listener x hx
  list_rec := by
    intro mp m h
    rcases hM mp m h with h1 | ⟨_, h1⟩
    · exact hinv.list_rec mp m h1
    · rw [h1]
      exact ⟨List.nodup_nil, by simp⟩
  listener_rec := by
    intro o l h
    rw [hl] at h
    exact hinv.listener_rec o l h
  handle_rec := by
    intro r res h hi e he
    rcases hR r res h with h1 | ⟨_, h1⟩
    · exact hinv.handle_rec r res h1 hi e he
    · rw [hi] at h1
      exact absurd h1 (by decide)
  ifaces := by
    intro r res h
    rcases hR r res h with h1 | ⟨_, h1⟩
    · exact hinv.ifaces r res h1
    · exact Or.inl h1

/-- The invariant is kept when the extensions with addresses in `L` are
destroyed: they leave the heap and all lists, every resource stays or goes
away, changed at most by a cleared user data, the handles of the records that
stay are as before and the handles of the records that go are inert or gone;
the records that stay are those selected by `keep`. -/
theorem outputs_inv_destroy (w w1 : World) (g : List output_record) (L : List Nat)
    (keep : output_record → Bool) (hinv : outputs_inv w g)
    (hkeep : ∀ x ∈ g, (keep x = true ↔ x.extension ∉ L))
    (hnext : w1.next = w.next)
    (hC : ∀ k, heap_get k w1.cm_outputs = if k ∈ L then none else heap_get k w.cm_outputs)
    (hM : ∀ mp, heap_get mp w1.managers = (heap_get mp w.managers).map
      (fun m => { m with outputs := m.outputs.filter (fun x => decide (x ∉ L)) }))
    (hL : ∀ out, heap_get out w1.output_destroy = (heap_get out w.output_destroy).map
      (fun l => l.filter (fun x => decide (x ∉ L))))
    (hRback : ∀ r res1, heap_get r w1.resources = some res1 →
      ∃ res, heap_get r w.resources = some res ∧
        (res1 = res ∨ res1 = { res with user_data := none }))
    (hRlive : ∀ x ∈ g, keep x = true →
      heap_get x.resource w1.resources = heap_get x.resource w.resources)
    (hRdead : ∀ x ∈ g, keep x = false →
      ∀ res1, heap_get x.resource w1.resources = some res1 → res1.user_data = none) :
    outputs_inv w1 (g.filter keep) where
  res_fresh := by
    intro k res1 h
    obtain ⟨res, h1, _⟩ := hRback k res1 h
    rw [hnext]
    exact hinv.res_fresh k res h1
  man_fresh := by
    intro k m1 h
    rw [hM k] at h
    cases hm : heap_get k w.managers with
    | none => simp [hm] at h
    | some m =>
      rw [hnext]
      exact hinv.man_fresh k m hm
  rec_fresh := by
    intro x hx
    rw [hnext]
    exact hinv.rec_fresh x (List.mem_filter.mp hx).1
  ext_nodup := (hinv.ext_nodup).sublist ((List.filter_sublist g).map _)
  res_nodup := (hinv.res_nodup).sublist ((List.filter_sublist g).map _)
  rec_ext := by
    intro x hx
    obtain ⟨hxg, hk⟩ := List.mem_filter.mp hx
    rw [hC x.extension, if_neg ((hkeep x hxg).mp hk)]
    exact hinv.rec_ext x hxg
  rec_handle := by
    intro x hx
    obtain ⟨hxg, hk⟩ := List.mem_filter.mp hx
    rw [hRlive x hxg hk]
    exact hinv.rec_handle x hxg
  rec_list := by
    intro x hx
    obtain ⟨hxg, hk⟩ := List.mem_filter.mp hx
    obtain ⟨m, h1, h2⟩ := hinv.rec_list x hxg
    refine ⟨_, by rw [hM x.manager, h1]; rfl, ?_⟩
    simp only [List.mem_filter, decide_eq_true_eq]
    exact ⟨h2, (hkeep x hxg).mp hk⟩
  rec_listener := by
    intro x hx
    obtain ⟨hxg, hk⟩ := List.mem_filter.mp hx
    obtain ⟨l, h1, h2⟩ := hinv.rec_listener x hxg
    refine ⟨_, by rw [hL x.output, h1]; rfl, ?_⟩
    simp only [List.mem_filter, decide_eq_true_eq]
    exact ⟨h2, (hkeep x hxg).mp hk⟩
  list_rec := by
    intro mp m1 h
    rw [hM mp] at h
    cases hm : heap_get mp w.managers with
    | none => simp [hm] at h
    | some m =>
      rw [hm] at h
      have h1 : m1 = { m with outputs := m.outputs.filter (fun x => decide (x ∉ L)) } :=
        (Option.some.inj h).symm
      obtain ⟨hnd, hrec⟩ := hinv.list_rec mp m hm
      subst h1
      refine ⟨hnd.sublist (List.filter_sublist _), ?_⟩
      intro e he
      simp only [List.mem_filter, decide_eq_true_eq] at he
      obtain ⟨x, hxg, hxe, hxm⟩ := hrec e he.1
      refine ⟨x, List.mem_filter.mpr ⟨hxg, (hkeep x hxg).mpr ?_⟩, hxe, hxm⟩
      rw [hxe]
      exact he.2
  listener_rec := by
    intro o l1 h
    rw [hL o] at h
    cases hl : heap_get o w.output_destroy with
    | none => simp [hl] at h
    | some l =>
      rw [hl] at h
      have h1 : l1 = l.filter (fun x => decide (x ∉ L)) := (Option.some.inj h).symm
      obtain ⟨hnd, hrec⟩ := hinv.listener_rec o l hl
      subst h1
      refine ⟨hnd.sublist (List.filter_sublist _), ?_⟩
      intro e he
      simp only [List.mem_filter, decide_eq_true_eq] at he
      obtain ⟨x, hxg, hxe, hxo⟩ := hrec e he.1
      refine ⟨x, List.mem_filter.mpr ⟨hxg, (hkeep x hxg).mpr ?_⟩, hxe, hxo⟩
      rw [hxe]
      exact he.2
  handle_rec := by
    intro r res1 h hi e he
    obtain ⟨res, h1, h2⟩ := hRback r res1 h
    rcases h2 with h2 | h2
    · subst h2
      obtain ⟨x, hxg, hxr, hxe⟩ := hinv.handle_rec r res1 h1 hi e he
      refine ⟨x, List.mem_filter.mpr ⟨hxg, ?_⟩, hxr, hxe⟩
      cases hk : keep x with
      | true => rfl
      | false =>
        have := hRdead x hxg hk res1 (by rw [hxr]; exact h)
        rw [he] at this
        exact Option.noConfusion this
    · rw [h2] at he
      exact Option.noConfusion he
  ifaces := by
    intro r res1 h
    obtain ⟨res, h1, h2⟩ := hRback r res1 h
    rcases h2 with h2 | h2
    · rw [h2]
      exact hinv.ifaces r res h1
    · rw [h2]
      exact hinv.ifaces r res h1

/-- The invariant is kept by a successful `get_output`, with the record of the
new extension added. -/
theorem outputs_inv_add_output (w w1 : World) (g : List output_record)
    (hinv : outputs_inv w g) (client id version output mp : Nat) (m : wlr_color_manager_v1)
    (hm : heap_get mp w.managers = some m)
    (hnext : w1.next = w.next + 1 + 1)
    (hres : w1.resources = heap_set (w.next + 1)
      { client := client, id := id, iface := Interface.wp_color_management_output_v1,
        version := version, user_data := some w.next } w.resources)
    (hout : w1.cm_outputs =
      heap_set w.next { resource := w.next + 1, output := none } w.cm_outputs)
    (hl : w1.output_destroy = wl_signal_add output w.next w.output_destroy)
    (hman : w1.managers =
      heap_set mp { m with outputs := w.next :: m.outputs } w.managers) :
    outputs_inv w1
      ({ extension := w.next, resource := w.next + 1, manager := mp, output := output } :: g)
    where
  res_fresh := by
    intro k res h
    rw [hres] at h
    rw [hnext]
    by_cases hk : k = w.next + 1
    · omega
    · rw [heap_get_set_ne k _ _ _ hk] at h
      have := hinv.res_fresh k res h
      omega
  man_fresh := by
    intro k m1 h
    rw [hman] at h
    rw [hnext]
    by_cases hk : k = mp
    · have := hinv.man_fresh mp m hm
      omega
    · rw [heap_get_set_ne k _ _ _ hk] at h
      have := hinv.man_fresh k m1 h
      omega
  rec_fresh := by
    intro x hx
    rw [hnext]
    rcases List.mem_cons.mp hx with h | h
    · subst h
      simp only
      omega
    · have := hinv.rec_fresh x h
      omega
  ext_nodup := by
    simp only [List.map_cons, List.nodup_cons]
    refine ⟨?_, hinv.ext_nodup⟩
    intro hmem
    obtain ⟨x, hx, hxe⟩ := List.mem_map.mp hmem
    have := (hinv.rec_fresh x hx).1
    omega
  res_nodup := by
    simp only [List.map_cons, List.nodup_cons]
    refine ⟨?_, hinv.res_nodup⟩
    intro hmem
    obtain ⟨x, hx, hxe⟩ := List.mem_map.mp hmem
    have := (hinv.rec_fresh x hx).2
    omega
  rec_ext := by
    intro x hx
    rw [hout]
    rcases List.mem_cons.mp hx with h | h
    · subst h
      exact heap_get_set_eq _ _ _
    · have hne : x.extension ≠ w.next := Nat.ne_of_lt (hinv.rec_fresh x h).1
      rw [heap_get_set_ne _ _ _ _ hne]
      exact hinv.rec_ext x h
  rec_handle := by
    intro x hx
    rw [hres]
    rcases List.mem_cons.mp hx with h | h
    · subst h
      exact ⟨_, heap_get_set_eq _ _ _, rfl, rfl⟩
    · have hne : x.resource ≠ w.next + 1 := by
        have := (hinv.rec_fresh x h).2
        omega
      rw [heap_get_set_ne _ _ _ _ hne]
      exact hinv.rec_handle x h
  rec_list := by
    intro x hx
    rw [hman]
    rcases List.mem_cons.mp hx with h | h
    · subst h
      exact ⟨_, heap_get_set_eq _ _ _, List.mem_cons_self _ _⟩
    · obtain ⟨m0, h1, h2⟩ := hinv.rec_list x h
      by_cases hmp : x.manager = mp
      · rw [hmp] at h1 ⊢
        rw [hm] at h1
        have hmm : m0 = m := (Option.some.inj h1).symm
        subst hmm
        exact ⟨_, heap_get_set_eq _ _ _, List.mem_cons_of_mem _ h2⟩
      · rw [heap_get_set_ne _ _ _ _ hmp]
        exact ⟨m0, h1, h2⟩
  rec_listener := by
    intro x hx
    rw [hl]
    rcases List.mem_cons.mp hx with h | h
    · subst h
      refine ⟨_, by rw [heap_get_wl_signal_add, if_pos rfl], ?_⟩
      simp
    · obtain ⟨l, h1, h2⟩ := hinv.rec_listener x h
      by_cases ho : x.output = output
      · rw [ho] at h1 ⊢
        refine ⟨_, by rw [heap_get_wl_signal_add, if_pos rfl], ?_⟩
        simp [h1, h2]
      · rw [heap_get_wl_signal_add, if_neg ho]
        exact ⟨l, h1, h2⟩
  list_rec := by
    intro mp1 m1 h
    rw [hman] at h
    by_cases hmp : mp1 = mp
    · subst hmp
      rw [heap_get_set_eq] at h
      have hmm : m1 = { m with outputs := w.next :: m.outputs } := (Option.some.inj h).symm
      subst hmm
      obtain ⟨hnd, hrec⟩ := hinv.list_rec mp1 m hm
      refine ⟨List.nodup_cons.mpr ⟨?_, hnd⟩, ?_⟩
      · intro hmem
        obtain ⟨x, hx, hxe, _⟩ := hrec _ hmem
        have := (hinv.rec_fresh x hx).1
        omega
      · intro e he
        rcases List.mem_cons.mp he with h0 | h0
        · exact ⟨_, List.mem_cons_self _ _, h0.symm, rfl⟩
        · obtain ⟨x, hx, hxe, hxm⟩ := hrec e h0
          exact ⟨x, List.mem_cons_of_mem _ hx, hxe, hxm⟩
    · rw [heap_get_set_ne _ _ _ _ hmp] at h
      obtain ⟨hnd, hrec⟩ := hinv.list_rec mp1 m1 h
      refine ⟨hnd, ?_⟩
      intro e he
      obtain ⟨x, hx, hxe, hxm⟩ := hrec e he
      exact ⟨x, List.mem_cons_of_mem _ hx, hxe, hxm⟩
  listener_rec := by
    intro o l1 h
    rw [hl, heap_get_wl_signal_add] at h
    by_cases ho : o = output
    · subst ho
      rw [if_pos rfl] at h
      have hll : l1 = (heap_get o w.output_destroy).getD [] ++ [w.next] :=
        (Option.some.inj h).symm
      subst hll
      have hold : ((heap_get o w.output_destroy).getD []).Nodup ∧
          ∀ e ∈ (heap_get o w.output_destroy).getD [], ∃ x ∈ g, x.extension = e ∧
            x.output = o := by
        cases hg : heap_get o w.output_destroy with
        | none => simp
        | some l => exact hinv.listener_rec o l hg
      obtain ⟨hnd, hrec⟩ := hold
      refine ⟨?_, ?_⟩
      · rw [List.nodup_append]
        refine ⟨hnd, List.nodup_singleton _, ?_⟩
        intro a ha hb
        rw [List.mem_singleton] at hb
        subst hb
        obtain ⟨x, hx, hxe, _⟩ := hrec _ ha
        have := (hinv.rec_fresh x hx).1
        omega
      · intro e he
        rcases List.mem_append.mp he with h0 | h0
        · obtain ⟨x, hx, hxe, hxo⟩ := hrec e h0
          exact ⟨x, List.mem_cons_of_mem _ hx, hxe, hxo⟩
        · rw [List.mem_singleton] at h0
          exact ⟨_, List.mem_cons_self _ _, h0.symm, rfl⟩
    · rw [if_neg ho] at h
      obtain ⟨hnd, hrec⟩ := hinv.listener_rec o l1 h
      refine ⟨hnd, ?_⟩
      intro e he
      obtain ⟨x, hx, hxe, hxo⟩ := hrec e he
      exact ⟨x, List.mem_cons_of_mem _ hx, hxe, hxo⟩
  handle_rec := by
    intro r res h hi e he
    rw [hres] at h
    by_cases hr : r = w.next + 1
    · subst hr
      rw [heap_get_set_eq] at h
      have hrr := (Option.some.inj h).symm
      subst hrr
      simp only at he
      exact ⟨_, List.mem_cons_self _ _, rfl, Option.some.inj he⟩
    · rw [heap_get_set_ne _ _ _ _ hr] at h
      obtain ⟨x, hx, hxr, hxe⟩ := hinv.handle_rec r res h hi e he
      exact ⟨x, List.mem_cons_of_mem _ hx, hxr, hxe⟩
  ifaces := by
    intro r res h
    rw [hres] at h
    by_cases hr : r = w.next + 1
    · subst hr
      rw [heap_get_set_eq] at h
      have hrr := (Option.some.inj h).symm
      subst hrr
      exact Or.inr rfl
    · rw [heap_get_set_ne _ _ _ _ hr] at h
      exact hinv.ifaces r res h

/-- The fields that `wlr_color_manager_v1_create` leaves alone, and the one
manager with an empty list that it adds when it returns one. -/
theorem create_result (w : World) (version : Nat) (options : wlr_color_manager_v1_options)
    (b1 b2 b3 b4 b5 : Bool) (w1 : World) (ptr : Option Nat)
    (h : wlr_color_manager_v1_create w version options b1 b2 b3 b4 b5 = .ok (w1, ptr)) :
    w1.resources = w.resources ∧ w1.cm_outputs = w.cm_outputs ∧
    w1.output_destroy = w.output_destroy ∧ w.next ≤ w1.next ∧
    ((w1.managers = w.managers ∧ ptr = none) ∨
      (∃ m, w1.managers = heap_set w.next m w.managers ∧ m.outputs = [] ∧
        w.next < w1.next ∧ ptr = some w.next)) := by
  unfold wlr_color_manager_v1_create at h
  by_cases hv : version ≤ COLOR_MANAGEMENT_V1_VERSION
  · by_cases hp : WP_COLOR_MANAGER_V1_RENDER_INTENT_PERCEPTUAL ∈ options.render_intents
    · cases hf : assert_no_features options.features with
      | error c => simp [hv, has_perceptual_render_intent_eq, hp, hf] at h
      | ok u =>
        cases b1 <;> cases b2 <;> cases b3 <;> cases b4 <;> cases b5 <;>
          simp [hv, has_perceptual_render_intent_eq, hp, hf, calloc] at h <;>
          obtain ⟨h1, h2⟩ := h <;> subst h1 <;> subst h2 <;>
          refine ⟨rfl, rfl, rfl, by first | omega | (dsimp only; omega), ?_⟩ <;>
          first
          | exact Or.inl ⟨rfl, rfl⟩
          | exact Or.inr ⟨_, rfl, rfl, by first | omega | (dsimp only; omega), rfl⟩
    · simp [hv, has_perceptual_render_intent_eq, hp] at h
  · simp [hv] at h

/-- The first loop of `manager_bind` changes the event log only. -/
theorem send_supported_features_fields (resource : Nat) (l : List Bool) :
    ∀ (w : World) (i : Nat),
      (send_supported_features resource w i l).next = w.next ∧
      (send_supported_features resource w i l).resources = w.resources ∧
      (send_supported_features resource w i l).managers = w.managers ∧
      (send_supported_features resource w i l).cm_outputs = w.cm_outputs ∧
      (send_supported_features resource w i l).output_destroy = w.output_destroy := by
  induction l with
  | nil =>
    intro w i
    simp [send_supported_features]
  | cons b t ih =>
    intro w i
    cases b
    · simpa [send_supported_features] using ih w (i + 1)
    · simpa [send_supported_features, send_event] using
        ih (send_event w resource (Event.supported_feature i)) (i + 1)

/-- The fields that `manager_bind` leaves alone, and the one binding that it
adds when the resource is created. -/
theorem manager_bind_result (w : World) (client manager version id : Nat) (ok : Bool)
    (w1 : World) (h : manager_bind w client manager version id ok = .ok w1) :
    w1.managers = w.managers ∧ w1.cm_outputs = w.cm_outputs ∧
    w1.output_destroy = w.output_destroy ∧ w.next ≤ w1.next ∧
    (w1.resources = w.resources ∨
      (w.next < w1.next ∧ w1.resources = heap_set w.next
        { client := client, id := id, iface := Interface.wp_color_manager_v1,
          version := version, user_data := some manager } w.resources)) := by
  unfold manager_bind at h
  cases ok
  · simp [wl_resource_create, wl_client_post_no_memory] at h
    subst h
    exact ⟨rfl, rfl, rfl, Nat.le_refl _, Or.inl rfl⟩
  · simp only [wl_resource_create, if_true] at h
    cases hm : heap_get manager w.managers with
    | none => simp [hm] at h
    | some m =>
      simp only [hm] at h
      have h1 := (Except.ok.inj h).symm
      subst h1
      obtain ⟨f1, f2, f3, f4, f5⟩ := send_supported_features_fields w.next
        (bind_features m.features)
        { w with
          next := w.next + 1,
          resources := heap_set w.next
            { client := client, id := id, iface := Interface.wp_color_manager_v1,
              version := version, user_data := some manager } w.resources } 0
      simp only [send_event, send_each_eq]
      refine ⟨f3, f4, f5, ?_, Or.inr ⟨?_, f2⟩⟩
      · rw [f1]
        exact Nat.le_succ _
      · rw [f1]
        exact Nat.lt_succ_self _

/-- A list without the link `e`, as a filter by membership. -/
theorem unlink_eq_filter (e : Nat) (l : List Nat) :
    unlink e l = l.filter (fun x => decide (x ∉ [e])) := by
  unfold unlink
  congr 1
  funext x
  simp

/-- The function `cm_output_destroy` does not allocate. -/
theorem cm_output_destroy_next (w w1 : World) (x : Option Nat)
    (h : cm_output_destroy w x = .ok w1) : w1.next = w.next := by
  unfold cm_output_destroy at h
  cases x with
  | none =>
    simp at h
    rw [← h]
  | some p =>
    simp only at h
    cases ho : heap_get p w.cm_outputs with
    | none => simp [ho] at h
    | some o =>
      simp only [ho, wl_resource_set_user_data] at h
      cases hr : heap_get o.resource w.resources with
      | none => simp [hr] at h
      | some res =>
        simp [hr] at h
        rw [← h]

/-- Delivering destroy notifications to output extensions does not allocate. -/
theorem notify_all_output_destroy_next (ls : List Nat) :
    ∀ (w w1 : World), notify_all cm_output_handle_output_destroy w ls = .ok w1 →
      w1.next = w.next := by
  induction ls with
  | nil =>
    intro w w1 h
    simp [notify_all] at h
    rw [← h]
  | cons l t ih =>
    intro w w1 h
    simp only [notify_all] at h
    cases hs : cm_output_handle_output_destroy w l with
    | error c => simp [hs] at h
    | ok wa =>
      simp only [hs] at h
      rw [ih wa w1 h]
      exact cm_output_destroy_next w wa (some l) hs

/-- A `get_output` with a failing allocation, sent on a manager binding: "no
memory" is posted and no list, extension or resource changes. -/
theorem get_output_failed (w : World) (client mr id output : Nat)
    (calloc_ok resource_ok : Bool) (res : wl_resource)
    (hr : heap_get mr w.resources = some res)
    (hi : res.iface = Interface.wp_color_manager_v1)
    (hfail : calloc_ok = false ∨ resource_ok = false) :
    ∃ w1, manager_handle_get_output w client mr id output calloc_ok resource_ok = .ok w1 ∧
      w1.managers = w.managers ∧ w1.cm_outputs = w.cm_outputs ∧
      w1.output_destroy = w.output_destroy ∧ w1.resources = w.resources ∧
      w1.errors = w.errors ++ [PostedError.no_memory client] ∧ w1.events = w.events ∧
      w.next ≤ w1.next := by
  cases calloc_ok
  · refine ⟨{ w with errors := w.errors ++ [PostedError.no_memory client] }, ?_, rfl, rfl,
      rfl, rfl, rfl, rfl, Nat.le_refl _⟩
    simp [manager_handle_get_output, manager_from_resource, hr, hi, calloc,
      wl_client_post_no_memory]
  · cases resource_ok
    · refine ⟨{ w with next := w.next + 1,
                       errors := w.errors ++ [PostedError.no_memory client] }, ?_, rfl, rfl,
        rfl, rfl, rfl, rfl, Nat.le_succ _⟩
      simp [manager_handle_get_output, manager_from_resource, hr, hi, calloc,
        wl_client_post_no_memory, wl_resource_get_version, wl_resource_create]
    · simp at hfail

/-- A `get_output` with successful allocations, sent on a binding of the
manager `mp`: the new extension is put at the head of the list of `mp`. -/
theorem get_output_ok (w : World) (client mr id output : Nat) (res : wl_resource)
    (mp : Nat) (m : wlr_color_manager_v1)
    (hr : heap_get mr w.resources = some res)
    (hi : res.iface = Interface.wp_color_manager_v1)
    (hu : res.user_data = some mp) (hm : heap_get mp w.managers = some m) :
    manager_handle_get_output w client mr id output true true =
      .ok { w with
        next := w.next + 1 + 1,
        resources := heap_set (w.next + 1)
          { client := client, id := id, iface := Interface.wp_color_management_output_v1,
            version := res.version, user_data := some w.next } w.resources,
        cm_outputs := heap_set w.next { resource := w.next + 1, output := none } w.cm_outputs,
        output_destroy := wl_signal_add output w.next w.output_destroy,
        managers := heap_set mp { m with outputs := w.next :: m.outputs } w.managers } := by
  simp [manager_handle_get_output, manager_from_resource, hr, hi, calloc,
    wl_resource_get_version, wl_resource_create, hu, hm]

/-- What a returning `get_output` was given. -/
theorem get_output_inv (w : World) (client mr id output : Nat)
    (calloc_ok resource_ok : Bool) (w1 : World)
    (h : manager_handle_get_output w client mr id output calloc_ok resource_ok = .ok w1) :
    ∃ res, heap_get mr w.resources = some res ∧
      res.iface = Interface.wp_color_manager_v1 ∧
      (calloc_ok = false ∨ resource_ok = false ∨
        ∃ mp m, res.user_data = some mp ∧ heap_get mp w.managers = some m) := by
  unfold manager_handle_get_output manager_from_resource at h
  cases hr : heap_get mr w.resources with
  | none => simp [hr] at h
  | some res =>
    by_cases hi : res.iface = Interface.wp_color_manager_v1
    · refine ⟨res, rfl, hi, ?_⟩
      cases calloc_ok
      · exact Or.inl rfl
      · cases resource_ok
        · exact Or.inr (Or.inl rfl)
        · refine Or.inr (Or.inr ?_)
          cases hu : res.user_data with
          | none =>
            simp [hr, hi, calloc, wl_resource_get_version, wl_resource_create, hu] at h
          | some mp =>
            cases hm : heap_get mp w.managers with
            | none =>
              simp [hr, hi, calloc, wl_resource_get_version, wl_resource_create, hu, hm] at h
            | some m => exact ⟨mp, m, rfl, hm⟩
    · simp [hr, hi] at h

/-- The invariant is kept by `wlr_color_manager_v1_create`. -/
theorem outputs_inv_create (w : World) (g : List output_record) (hinv : outputs_inv w g)
    (version : Nat) (options : wlr_color_manager_v1_options) (b1 b2 b3 b4 b5 : Bool)
    (w1 : World) (ptr : Option Nat)
    (h : wlr_color_manager_v1_create w version options b1 b2 b3 b4 b5 = .ok (w1, ptr)) :
    outputs_inv w1 g := by
  obtain ⟨hres, hout, hl, hnext, hman⟩ :=
    create_result w version options b1 b2 b3 b4 b5 w1 ptr h
  refine outputs_inv_grow w w1 g hinv hnext ?_ ?_ ?_ ?_ hout hl
  · intro r res1 hr
    rw [hres] at hr
    exact Or.inl hr
  · intro r res hr
    rw [hres]
    exact hr
  · intro mp m1 hm1
    rcases hman with ⟨hm, _⟩ | ⟨m, hm, hmo, hlt, _⟩
    · rw [hm] at hm1
      exact Or.inl hm1
    · rw [hm] at hm1
      by_cases hmp : mp = w.next
      · subst hmp
        rw [heap_get_set_eq] at hm1
        rw [← Option.some.inj hm1]
        exact Or.inr ⟨hlt, hmo⟩
      · rw [heap_get_set_ne _ _ _ _ hmp] at hm1
        exact Or.inl hm1
  · intro mp m0 hm0
    rcases hman with ⟨hm, _⟩ | ⟨m, hm, _, _, _⟩
    · rw [hm]
      exact hm0
    · rw [hm, heap_get_set_ne _ _ _ _ (Nat.ne_of_lt (hinv.man_fresh mp m0 hm0))]
      exact hm0

/-- The invariant is kept by `manager_bind`. -/
theorem outputs_inv_bind (w : World) (g : List output_record) (hinv : outputs_inv w g)
    (client manager version id : Nat) (ok : Bool) (w1 : World)
    (h : manager_bind w client manager version id ok = .ok w1) : outputs_inv w1 g := by
  obtain ⟨hman, hout, hl, hnext, hres⟩ := manager_bind_result w client manager version id ok w1 h
  refine outputs_inv_grow w w1 g hinv hnext ?_ ?_ ?_ ?_ hout hl
  · intro r res1 hr
    rcases hres with hres | ⟨hlt, hres⟩
    · rw [hres] at hr
      exact Or.inl hr
    · rw [hres] at hr
      by_cases hrn : r = w.next
      · subst hrn
        rw [heap_get_set_eq] at hr
        rw [← Option.some.inj hr]
        exact Or.inr ⟨hlt, rfl⟩
      · rw [heap_get_set_ne _ _ _ _ hrn] at hr
        exact Or.inl hr
  · intro r res hr
    rcases hres with hres | ⟨_, hres⟩
    · rw [hres]
      exact hr
    · rw [hres, heap_get_set_ne _ _ _ _ (Nat.ne_of_lt (hinv.res_fresh r res hr))]
      exact hr
  · intro mp m1 hm1
    rw [hman] at hm1
    exact Or.inl hm1
  · intro mp m0 hm0
    rw [hman]
    exact hm0

/-- The invariant is kept by `manager_handle_get_output`, with the record that
`track` adds. -/
theorem outputs_inv_get_output (w : World) (g : List output_record) (hinv : outputs_inv w g)
    (client mr id output : Nat) (calloc_ok resource_ok : Bool) (w1 : World)
    (h : manager_handle_get_output w client mr id output calloc_ok resource_ok = .ok w1) :
    outputs_inv w1 (track w g (.get_output client mr id output calloc_ok resource_ok)) := by
  obtain ⟨res, hr, hi, hcase⟩ := get_output_inv w client mr id output calloc_ok resource_ok w1 h
  have hfailed : (calloc_ok = false ∨ resource_ok = false) → outputs_inv w1
      (track w g (.get_output client mr id output calloc_ok resource_ok)) := by
    intro hfail
    obtain ⟨w2, h2, hman, hout, hl, hres, _, _, hnext⟩ :=
      get_output_failed w client mr id output calloc_ok resource_ok res hr hi hfail
    have hw : w2 = w1 := Except.ok.inj (h2.symm.trans h)
    subst hw
    have htrack : track w g (.get_output client mr id output calloc_ok resource_ok) = g := by
      rcases hfail with hf | hf <;> simp [track, hf]
    rw [htrack]
    refine outputs_inv_grow w w2 g hinv hnext ?_ ?_ ?_ ?_ hout hl
    · intro r res1 hr1
      rw [hres] at hr1
      exact Or.inl hr1
    · intro r res0 hr0
      rw [hres]
      exact hr0
    · intro mp m1 hm1
      rw [hman] at hm1
      exact Or.inl hm1
    · intro mp m0 hm0
      rw [hman]
      exact hm0
  rcases hcase with hc | hc | ⟨mp, m, hu, hm⟩
  · exact hfailed (Or.inl hc)
  · exact hfailed (Or.inr hc)
  · cases calloc_ok
    · exact hfailed (Or.inl rfl)
    · cases resource_ok
      · exact hfailed (Or.inr rfl)
      · have h2 := get_output_ok w client mr id output res mp m hr hi hu hm
        have hw := Except.ok.inj (h2.symm.trans h)
        have htrack : track w g (.get_output client mr id output true true) =
            { extension := w.next, resource := w.next + 1, manager := mp, output := output }
              :: g := by
          simp [track, hr, hu]
        rw [htrack, ← hw]
        exact outputs_inv_add_output w _ g hinv client id res.version output mp m hm rfl rfl
          rfl rfl rfl

/-- Two records of a state that satisfies the invariant are equal when their
extensions are, and when their handles are. -/
theorem outputs_inv_record_eq (w : World) (g : List output_record) (hinv : outputs_inv w g)
    (x y : output_record) (hx : x ∈ g) (hy : y ∈ g) :
    (x.extension = y.extension → x = y) ∧ (x.resource = y.resource → x = y) :=
  ⟨fun h => List.inj_on_of_nodup_map hinv.ext_nodup hx hy h,
   fun h => List.inj_on_of_nodup_map hinv.res_nodup hx hy h⟩

/-- The invariant is kept when a resource that is the handle of no record is
removed. -/
theorem outputs_inv_free_resource (w w1 : World) (g : List output_record)
    (hinv : outputs_inv w g) (r : Nat) (hno : ∀ x ∈ g, x.resource ≠ r)
    (hnext : w1.next = w.next) (hres : w1.resources = heap_free r w.resources)
    (hman : w1.managers = w.managers) (hout : w1.cm_outputs = w.cm_outputs)
    (hl : w1.output_destroy = w.output_destroy) :
    outputs_inv w1 (g.filter (fun x => decide (x.resource ≠ r))) := by
  refine outputs_inv_destroy w w1 g [] _ hinv ?_ hnext ?_ ?_ ?_ ?_ ?_ ?_
  · intro x hx
    simp [hno x hx]
  · intro k
    simp [hout]
  · intro mp
    rw [hman]
    cases heap_get mp w.managers <;> simp
  · intro out
    rw [hl]
    cases heap_get out w.output_destroy <;> simp
  · intro k res1 hk
    rw [hres] at hk
    by_cases hkr : k = r
    · subst hkr
      rw [heap_get_free_eq] at hk
      exact Option.noConfusion hk
    · rw [heap_get_free_ne _ _ _ hkr] at hk
      exact ⟨res1, hk, Or.inl rfl⟩
  · intro x hx _
    rw [hres, heap_get_free_ne _ _ _ (hno x hx)]
  · intro x hx hk
    simp [hno x hx] at hk

/-- The invariant is kept by the release of a handle, with the record of its
extension, if it had one, removed. -/
theorem outputs_inv_release (w : World) (g : List output_record) (hinv : outputs_inv w g)
    (r : Nat) (w1 : World) (h : resource_handle_destroy w r = .ok w1) :
    outputs_inv w1 (g.filter (fun x => decide (x.resource ≠ r))) := by
  cases hr : heap_get r w.resources with
  | none => simp [resource_handle_destroy, wl_resource_destroy, hr] at h
  | some res =>
    cases hu : res.user_data with
    | none =>
      have h2 := wl_resource_destroy_inert w r res hr hu
      have hw := Except.ok.inj (h2.symm.trans h)
      rw [← hw]
      refine outputs_inv_free_resource w _ g hinv r ?_ rfl rfl rfl rfl rfl
      intro x hx hxr
      obtain ⟨res0, h0, _, h1⟩ := hinv.rec_handle x hx
      rw [hxr, hr] at h0
      rw [← Option.some.inj h0, hu] at h1
      exact Option.noConfusion h1
    | some e =>
      rcases hinv.ifaces r res hr with hi | hi
      · have h2 : resource_handle_destroy w r =
            .ok { w with resources := heap_free r w.resources } := by
          simp [resource_handle_destroy, wl_resource_destroy, hr, hi]
        have hw := Except.ok.inj (h2.symm.trans h)
        rw [← hw]
        refine outputs_inv_free_resource w _ g hinv r ?_ rfl rfl rfl rfl rfl
        intro x hx hxr
        obtain ⟨res0, h0, h1, _⟩ := hinv.rec_handle x hx
        rw [hxr, hr] at h0
        rw [← Option.some.inj h0, hi] at h1
        exact absurd h1 (by decide)
      · obtain ⟨x0, hx0, hx0r, hx0e⟩ := hinv.handle_rec r res hr hi e hu
        have hext := hinv.rec_ext x0 hx0
        rw [hx0e, hx0r] at hext
        have hd := cm_output_destroy_live w e { resource := r, output := none } res hext hr
        have h2 : resource_handle_destroy w r =
            .ok { w with
              resources := heap_free r
                (heap_set r { res with user_data := none } w.resources),
              output_destroy := wl_list_remove e w.output_destroy,
              managers := wl_list_remove_output e w.managers,
              cm_outputs := heap_free e w.cm_outputs } := by
          simp [resource_handle_destroy, wl_resource_destroy, hr, hi,
            cm_output_handle_resource_destroy, cm_output_from_resource, hu, hd]
        have hw := Except.ok.inj (h2.symm.trans h)
        rw [← hw]
        refine outputs_inv_destroy w _ g [e] _ hinv ?_ rfl ?_ ?_ ?_ ?_ ?_ ?_
        · intro x hx
          simp only [ne_eq, decide_not, Bool.not_eq_true', decide_eq_false_iff_not,
            List.mem_singleton]
          constructor
          · intro hne hxe
            have := (outputs_inv_record_eq w g hinv x x0 hx hx0).1 (hxe.trans hx0e.symm)
            exact hne (this ▸ hx0r)
          · intro hne hxr
            have := (outputs_inv_record_eq w g hinv x x0 hx hx0).2 (hxr.trans hx0r.symm)
            exact hne (this ▸ hx0e)
        · intro k
          simp only [List.mem_singleton]
          by_cases hk : k = e
          · subst hk
            simp [heap_get_free_eq]
          · simp [hk, heap_get_free_ne k e _ hk]
        · intro mp
          simp only
          rw [heap_get_wl_list_remove_output]
          cases heap_get mp w.managers <;> simp [unlink_eq_filter]
        · intro out
          simp only
          rw [heap_get_wl_list_remove]
          cases heap_get out w.output_destroy <;> simp [unlink_eq_filter]
        · intro k res1 hk
          simp only at hk
          by_cases hkr : k = r
          · subst hkr
            rw [heap_get_free_eq] at hk
            exact Option.noConfusion hk
          · rw [heap_get_free_ne _ _ _ hkr, heap_get_set_ne _ _ _ _ hkr] at hk
            exact ⟨res1, hk, Or.inl rfl⟩
        · intro x hx hk
          have hne : x.resource ≠ r := by simpa using hk
          simp only
          rw [heap_get_free_ne _ _ _ hne, heap_get_set_ne _ _ _ _ hne]
        · intro x hx hk res1 h1
          have heq : x.resource = r := by simpa using hk
          simp only at h1
          rw [heq, heap_get_free_eq] at h1
          exact Option.noConfusion h1

/-- In a state that satisfies the invariant the destruction of a host output
returns: its listeners are distinct live extensions. -/
theorem outputs_inv_listeners (w : World) (g : List output_record) (hinv : outputs_inv w g)
    (o : Nat) :
    ((heap_get o w.output_destroy).getD []).Nodup ∧
    (∀ e ∈ (heap_get o w.output_destroy).getD [],
      ∃ x ∈ g, x.extension = e ∧ x.output = o) ∧
    (∀ l ∈ (heap_get o w.output_destroy).getD [], ∃ oo res,
      heap_get l w.cm_outputs = some oo ∧ heap_get oo.resource w.resources = some res) := by
  have h12 : ((heap_get o w.output_destroy).getD []).Nodup ∧
      ∀ e ∈ (heap_get o w.output_destroy).getD [],
        ∃ x ∈ g, x.extension = e ∧ x.output = o := by
    cases hg : heap_get o w.output_destroy with
    | none => simp
    | some l => exact hinv.listener_rec o l hg
  refine ⟨h12.1, h12.2, ?_⟩
  intro l hl
  obtain ⟨x, hx, hxe, _⟩ := h12.2 l hl
  obtain ⟨res, hres, _, _⟩ := hinv.rec_handle x hx
  exact ⟨_, res, by rw [← hxe]; exact hinv.rec_ext x hx, hres⟩

/-- The invariant is kept by the destruction of a host output, with the
records of the extensions of that output removed. -/
theorem outputs_inv_output_destroy (w : World) (g : List output_record)
    (hinv : outputs_inv w g) (o : Nat) (w1 : World) (h : output_destroyed w o = .ok w1) :
    outputs_inv w1 (g.filter (fun x => decide (x.output ≠ o))) := by
  obtain ⟨hnd, hrec, hwf⟩ := outputs_inv_listeners w g hinv o
  obtain ⟨w2, hrun, hC, hM, hL, hG, hD, hE, _⟩ :=
    notify_all_output_destroy ((heap_get o w.output_destroy).getD []) w hnd hwf
  have hw : w2 = w1 := Except.ok.inj (hrun.symm.trans h)
  subst hw
  have hnext := notify_all_output_destroy_next _ w w2 hrun
  have hkeep : ∀ x ∈ g, (decide (x.output ≠ o) = true ↔
      x.extension ∉ (heap_get o w.output_destroy).getD []) := by
    intro x hx
    simp only [ne_eq, decide_not, Bool.not_eq_true', decide_eq_false_iff_not]
    constructor
    · intro hne hmem
      obtain ⟨y, hy, hye, hyo⟩ := hrec _ hmem
      have := (outputs_inv_record_eq w g hinv y x hy hx).1 hye
      exact hne (this ▸ hyo)
    · intro hnot hxo
      obtain ⟨l, hl, hmem⟩ := hinv.rec_listener x hx
      rw [hxo] at hl
      rw [hl] at hnot
      exact hnot hmem
  refine outputs_inv_destroy w w2 g _ _ hinv hkeep hnext hC hM hL ?_ ?_ ?_
  · intro r res1 hr1
    by_cases hex : ∃ e ∈ (heap_get o w.output_destroy).getD [], ∃ oo,
        heap_get e w.cm_outputs = some oo ∧ oo.resource = r
    · obtain ⟨e, he, oo, hoo, hor⟩ := hex
      obtain ⟨oo1, res, hoo1, hres⟩ := hwf e he
      rw [hoo] at hoo1
      rw [← Option.some.inj hoo1, hor] at hres
      refine ⟨res, hres, ?_⟩
      rcases hD r res hres with hd | hd
      · rw [hr1] at hd
        exact Or.inl (Option.some.inj hd)
      · rw [hr1] at hd
        exact Or.inr (Option.some.inj hd)
    · have hsame := hG r (by
        intro l hl oo hoo hor
        exact hex ⟨l, hl, oo, hoo, hor⟩)
      rw [hsame] at hr1
      exact ⟨res1, hr1, Or.inl rfl⟩
  · intro x hx hk
    apply hG
    intro l hl oo hoo hor
    obtain ⟨y, hy, hye, _⟩ := hrec l hl
    have hyext := hinv.rec_ext y hy
    rw [hye, hoo] at hyext
    have hyr : y.resource = x.resource := by
      rw [← hor, Option.some.inj hyext]
    have hyx := (outputs_inv_record_eq w g hinv y x hy hx).2 hyr
    have hxl : x.extension ∈ (heap_get o w.output_destroy).getD [] := by
      rw [← hyx, hye]
      exact hl
    exact ((hkeep x hx).mp hk) hxl
  · intro x hx hk res1 h1
    have hxl : x.extension ∈ (heap_get o w.output_destroy).getD [] := by
      by_contra hnot
      have := (hkeep x hx).mpr hnot
      rw [hk] at this
      exact Bool.noConfusion this
    obtain ⟨res, hres, _, _⟩ := hinv.rec_handle x hx
    have hclear := hE x.extension hxl _ res (hinv.rec_ext x hx) hres
    simp only at hclear
    rw [h1] at hclear
    rw [Option.some.inj hclear]

/-- The invariant is kept by every step, with the records of `track`. -/
theorem outputs_inv_step (w : World) (g : List output_record) (hinv : outputs_inv w g)
    (a : Action) (w1 : World) (h : step w a = .ok w1) : outputs_inv w1 (track w g a) := by
  cases a with
  | create version options c m1 m2 m3 gl =>
    simp only [step] at h
    cases hc : wlr_color_manager_v1_create w version options c m1 m2 m3 gl with
    | error e => simp [hc] at h
    | ok p =>
      obtain ⟨w2, ptr⟩ := p
      simp only [hc] at h
      have hw := Except.ok.inj h
      subst hw
      exact outputs_inv_create w g hinv version options c m1 m2 m3 gl w2 ptr hc
  | bind client manager version id ok =>
    exact outputs_inv_bind w g hinv client manager version id ok w1 h
  | get_output client mr id output c r =>
    exact outputs_inv_get_output w g hinv client mr id output c r w1 h
  | release r => exact outputs_inv_release w g hinv r w1 h
  | output_destroy o => exact outputs_inv_output_destroy w g hinv o w1 h

/-- The invariant holds after every sequence of steps that returns. -/
theorem outputs_inv_run (actions : List Action) :
    ∀ (w : World) (g : List output_record), outputs_inv w g →
      ∀ (w1 : World) (g1 : List output_record), run w g actions = .ok (w1, g1) →
        outputs_inv w1 g1 := by
  induction actions with
  | nil =>
    intro w g hinv w1 g1 h
    simp only [run] at h
    have := Except.ok.inj h
    rw [← (Prod.mk.inj this).1, ← (Prod.mk.inj this).2]
    exact hinv
  | cons a rest ih =>
    intro w g hinv w1 g1 h
    simp only [run] at h
    cases hs : step w a with
    | error e => simp [hs] at h
    | ok w2 =>
      simp only [hs] at h
      exact ih w2 (track w g a) (outputs_inv_step w g hinv a w2 hs) w1 g1 h

/-- In a state that satisfies the invariant the release of every resource
returns. -/
theorem outputs_inv_release_returns (w : World) (g : List output_record)
    (hinv : outputs_inv w g) (r : Nat) (res : wl_resource)
    (hr : heap_get r w.resources = some res) :
    ∃ w1, resource_handle_destroy w r = .ok w1 := by
  cases hu : res.user_data with
  | none => exact ⟨_, wl_resource_destroy_inert w r res hr hu⟩
  | some e =>
    rcases hinv.ifaces r res hr with hi | hi
    · exact ⟨{ w with resources := heap_free r w.resources }, by
        simp [resource_handle_destroy, wl_resource_destroy, hr, hi]⟩
    · obtain ⟨x0, hx0, hx0r, hx0e⟩ := hinv.handle_rec r res hr hi e hu
      have hext := hinv.rec_ext x0 hx0
      rw [hx0e, hx0r] at hext
      have hd := cm_output_destroy_live w e { resource := r, output := none } res hext hr
      exact ⟨{ w with
          resources := heap_free r (heap_set r { res with user_data := none } w.resources),
          output_destroy := wl_list_remove e w.output_destroy,
          managers := wl_list_remove_output e w.managers,
          cm_outputs := heap_free e w.cm_outputs }, by
        simp [resource_handle_destroy, wl_resource_destroy, hr, hi,
          cm_output_handle_resource_destroy, cm_output_from_resource, hu, hd]⟩

/-- C12: in every state reached from a state without resources, managers and
listeners by creations of managers, binds, successful and failed `get_output`
requests, releases of handles and destructions of host outputs: (1) the list
`outputs` of every manager has no duplicates and holds exactly the extensions
that were created through this manager and are not yet destroyed (the records
of `track`); (2) an output handle has non-NULL user data exactly when it is the
handle of such an extension, and exactly when the extension with this handle
is in a list; the user data is then that extension; (3) a `get_output` with a
failed allocation returns and leaves every list unchanged; (4) a created
manager starts with the empty list; (5) in such a state every `get_output` on
a binding of a live manager, every release of a resource and every destruction
of a host output returns. -/
theorem outputs_list_invariant (w0 : World) (actions : List Action) (w : World)
    (g : List output_record)
    (h0r : w0.resources = []) (h0m : w0.managers = []) (h0l : w0.output_destroy = [])
    (hrun : run w0 [] actions = .ok (w, g)) :
    (∀ mp m, heap_get mp w.managers = some m →
      m.outputs.Nodup ∧
      ∀ e, e ∈ m.outputs ↔ ∃ x ∈ g, x.extension = e ∧ x.manager = mp) ∧
    (∀ r res, heap_get r w.resources = some res →
      res.iface = Interface.wp_color_management_output_v1 →
      (res.user_data ≠ none ↔ ∃ x ∈ g, x.resource = r) ∧
      (res.user_data ≠ none ↔ ∃ mp m e, heap_get mp w.managers = some m ∧ e ∈ m.outputs ∧
        heap_get e w.cm_outputs = some { resource := r, output := none }) ∧
      (∀ x ∈ g, x.resource = r → res.user_data = some x.extension)) ∧
    (∀ (client mr id output : Nat) (c k : Bool) (res : wl_resource),
      heap_get mr w.resources = some res → res.iface = Interface.wp_color_manager_v1 →
      (c = false ∨ k = false) →
      ∃ w1, manager_handle_get_output w client mr id output c k = .ok w1 ∧
        w1.managers = w.managers ∧ w1.cm_outputs = w.cm_outputs ∧
        w1.resources = w.resources ∧
        track w g (.get_output client mr id output c k) = g) ∧
    (∀ (version : Nat) (options : wlr_color_manager_v1_options) (b1 b2 b3 b4 b5 : Bool)
      (w1 : World) (mp : Nat),
      wlr_color_manager_v1_create w version options b1 b2 b3 b4 b5 = .ok (w1, some mp) →
      ∃ m, heap_get mp w1.managers = some m ∧ m.outputs = []) ∧
    (∀ (client mr id output : Nat) (res : wl_resource) (mp : Nat) (m : wlr_color_manager_v1),
      heap_get mr w.resources = some res → res.iface = Interface.wp_color_manager_v1 →
      res.user_data = some mp → heap_get mp w.managers = some m →
      ∃ w1, manager_handle_get_output w client mr id output true true = .ok w1 ∧
        heap_get mp w1.managers = some { m with outputs := w.next :: m.outputs }) ∧
    (∀ r res, heap_get r w.resources = some res →
      ∃ w1, resource_handle_destroy w r = .ok w1) ∧
    (∀ o, ∃ w1, output_destroyed w o = .ok w1) := by
  have hinv : outputs_inv w g :=
    outputs_inv_run actions w0 [] (outputs_inv_blank w0 h0r h0m h0l) w g hrun
  refine ⟨?_, ?_, ?_, ?_, ?_, ?_, ?_⟩
  · intro mp m hm
    obtain ⟨hnd, hrec⟩ := hinv.list_rec mp m hm
    refine ⟨hnd, fun e => ⟨hrec e, ?_⟩⟩
    rintro ⟨x, hx, hxe, hxm⟩
    obtain ⟨m0, hm0, hmem⟩ := hinv.rec_list x hx
    rw [hxm, hm] at hm0
    rw [← hxe, Option.some.inj hm0]
    exact hmem
  · intro r res hr hi
    have hrec : ∀ x ∈ g, x.resource = r → res.user_data = some x.extension := by
      intro x hx hxr
      obtain ⟨res0, h0, _, h1⟩ := hinv.rec_handle x hx
      rw [hxr, hr] at h0
      rw [Option.some.inj h0]
      exact h1
    refine ⟨⟨?_, ?_⟩, ⟨?_, ?_⟩, hrec⟩
    · intro hne
      cases hu : res.user_data with
      | none => exact absurd hu hne
      | some e =>
        obtain ⟨x, hx, hxr, _⟩ := hinv.handle_rec r res hr hi e hu
        exact ⟨x, hx, hxr⟩
    · rintro ⟨x, hx, hxr⟩ hnone
      rw [hrec x hx hxr] at hnone
      exact Option.noConfusion hnone
    · intro hne
      cases hu : res.user_data with
      | none => exact absurd hu hne
      | some e =>
        obtain ⟨x, hx, hxr, hxe⟩ := hinv.handle_rec r res hr hi e hu
        obtain ⟨m, hm, hmem⟩ := hinv.rec_list x hx
        refine ⟨x.manager, m, x.extension, hm, hmem, ?_⟩
        rw [← hxr]
        exact hinv.rec_ext x hx
    · rintro ⟨mp, m, e, hm, hmem, hext⟩ hnone
      obtain ⟨x, hx, hxe, _⟩ := (hinv.list_rec mp m hm).2 e hmem
      have hx2 := hinv.rec_ext x hx
      rw [hxe, hext] at hx2
      have hxr : x.resource = r := by
        have := Option.some.inj hx2
        exact (congrArg wlr_color_management_output_v1.resource this).symm
      rw [hrec x hx hxr] at hnone
      exact Option.noConfusion hnone
  · intro client mr id output c k res hr hi hfail
    obtain ⟨w1, h1, hman, hout, _, hres, _, _, _⟩ :=
      get_output_failed w client mr id output c k res hr hi hfail
    refine ⟨w1, h1, hman, hout, hres, ?_⟩
    rcases hfail with hf | hf <;> simp [track, hf]
  · intro version options b1 b2 b3 b4 b5 w1 mp hc
    obtain ⟨_, _, _, gl, hm⟩ := create_ok w version options b1 b2 b3 b4 b5 w1 mp hc
    exact ⟨_, hm, rfl⟩
  · intro client mr id output res mp m hr hi hu hm
    refine ⟨_, get_output_ok w client mr id output res mp m hr hi hu hm, ?_⟩
    simp [heap_get_set_eq]
  · intro r res hr
    exact outputs_inv_release_returns w g hinv r res hr
  · intro o
    obtain ⟨hnd, _, hwf⟩ := outputs_inv_listeners w g hinv o
    obtain ⟨w1, hrun1, _⟩ :=
      notify_all_output_destroy ((heap_get o w.output_destroy).getD []) w hnd hwf
    exact ⟨w1, hrun1⟩

/-- C12 at the sample steps: after three successful and one failed
`get_output`, the release of handle 5 and the destruction of output 200, the
list of manager 1 is `[9]`, the one extension created and not destroyed, and
of the output handles 7 and 10 only handle 10 has user data. -/
theorem outputs_list_invariant_witness :
    run sample_empty [] sample_actions =
      .ok (sample_outputs_final,
        [{ extension := 9, resource := 10, manager := 1, output := 201 }]) ∧
    (∀ mp m, heap_get mp sample_outputs_final.managers = some m →
      m.outputs.Nodup ∧
      ∀ e, e ∈ m.outputs ↔
        ∃ x ∈ [({ extension := 9, resource := 10, manager := 1, output := 201 }
          : output_record)], x.extension = e ∧ x.manager = mp) ∧
    heap_get 1 sample_outputs_final.managers =
      some { global := 2, features := no_features, render_intents := [0, 1],
             transfer_functions := [9, 11], primaries := [1, 6], outputs := [9] } :=
  ⟨rfl,
   (outputs_list_invariant sample_empty sample_actions sample_outputs_final
      [{ extension := 9, resource := 10, manager := 1, output := 201 }] rfl rfl rfl rfl).1,
   rfl⟩

end Wlr
